import Mathlib

/-!
Verification of the ilqgames LQ feedback solver stack against its
natural-language specification.

This file gives a shallow embedding, over exact rational arithmetic, of:

* `LQFeedbackSolver::Solve` (solver/lq_feedback_solver.cpp): the backward
  dynamic program for a time-varying linear-quadratic game, producing per-player
  affine feedback strategies;
* `RecedingHorizonSimulator` (examples/receding_horizon_simulator.cpp): the
  online replanning driver loop;
* `ControlSliders` (gui/control_sliders.h): the clamped GUI accessors;
* the two-player 1D point-mass test problem and `SolveLyapunovIterations`
  (test/test_solve_lq_game.cpp), together with a verified dyadic interval
  evaluator used to compare the two algorithms numerically.

Machine floats in the C++ are modelled as exact rationals (real-arithmetic
semantics); Eigen matrices become Mathlib matrices over `ℚ`.
-/

namespace ILQGames

open Matrix

/-- Index type for the stacked control vector: a pair of a player index and a
coordinate of that player's control.  The C++ solver addresses the same set by
cumulative control-dimension offsets (`cumulative_udim_row`). -/
abbrev UIdx (N : ℕ) (m : Fin N → ℕ) := (i : Fin N) × Fin (m i)

/-- `LinearDynamicsApproximation` at one time step: discrete-time state matrix
`A` and per-player control matrices `Bs[i]` (utils/linear_dynamics_approximation.h). -/
structure LinearDynamicsApproximation (n N : ℕ) (m : Fin N → ℕ) where
  A : Matrix (Fin n) (Fin n) ℚ
  Bs : (i : Fin N) → Matrix (Fin n) (Fin (m i)) ℚ

instance {n N : ℕ} {m : Fin N → ℕ} : Inhabited (LinearDynamicsApproximation n N m) :=
  ⟨⟨0, fun _ => 0⟩⟩

/-- A single quadratic cost term `(hess, grad)`, as stored in
`QuadraticCostApproximation::state` and in each entry of the control-cost map. -/
structure CostTermApprox (d : ℕ) where
  hess : Matrix (Fin d) (Fin d) ℚ
  grad : Fin d → ℚ

instance {d : ℕ} : Inhabited (CostTermApprox d) := ⟨⟨0, 0⟩⟩

/-- `QuadraticCostApproximation` for one player: state part `(Q, l)` plus a
partial map `j ↦ (R_{ij}, r_{ij})` over the players whose controls enter this
player's cost (a `std::map` in the C++, modelled as an `Option`-valued
function on player indices). -/
structure QuadraticCostApproximation (n N : ℕ) (m : Fin N → ℕ) where
  state : CostTermApprox n
  control : (j : Fin N) → Option (CostTermApprox (m j))

instance {n N : ℕ} {m : Fin N → ℕ} : Inhabited (QuadraticCostApproximation n N m) :=
  ⟨⟨default, fun _ => none⟩⟩

/-- Per-player `Strategy`: time-indexed affine feedback `(Ps, alphas)`
(utils/strategy.h). -/
structure Strategy (n mi : ℕ) where
  Ps : List (Matrix (Fin mi) (Fin n) ℚ)
  alphas : List (Fin mi → ℚ)

/-- Modelled from the spec: the `Strategy(horizon, xdim, udim)` constructor lives
in utils/strategy.h, which is not among the provided sources.  The data model
section of the spec describes a Strategy as a horizon-length sequence of affine
feedback gains `(P, α)`, zero-initialized, so the constructor builds `horizon`
zero entries for both `Ps` and `alphas`. -/
def Strategy.mkZero (horizon n mi : ℕ) : Strategy n mi :=
  ⟨List.replicate horizon 0, List.replicate horizon 0⟩

/-- Write the step-`kk` entries of a strategy, as in
`strategies[ii].Ps[kk] = Ps_[ii]; strategies[ii].alphas[kk] = alphas_[ii];`. -/
def Strategy.setEntry {n mi : ℕ} (s : Strategy n mi) (kk : ℕ)
    (P : Matrix (Fin mi) (Fin n) ℚ) (a : Fin mi → ℚ) : Strategy n mi :=
  ⟨s.Ps.set kk P, s.alphas.set kk a⟩

/-- The running per-player value function `(Zᵢ, ζᵢ)` maintained by the backward
pass (the solver members `Zs_` and `zetas_`). -/
structure ValueState (n N : ℕ) where
  Z : Fin N → Matrix (Fin n) (Fin n) ℚ
  zeta : Fin N → Fin n → ℚ

/-- The fatal `CHECK` failures that can fire inside `LQFeedbackSolver::Solve`:
`CHECK_EQ(linearization.size(), num_time_steps_)` (and the same for the
quadraticization), and `CHECK(control_iter != quad[ii].control.end())` for the
player's own control cost `R_{ii}`. -/
inductive SolveFatal where
  | sizeMismatch : SolveFatal
  | missingRii : SolveFatal
deriving DecidableEq, Repr

/-- Look up every player's own control-cost entry `R_{ii}`, failing like the
`CHECK(control_iter != quad[ii].control.end())` in the solver when some player's
cost lacks it. -/
def getRii {n N : ℕ} {m : Fin N → ℕ}
    (quad : (i : Fin N) → QuadraticCostApproximation n N m) :
    Option ((i : Fin N) → CostTermApprox (m i)) :=
  if h : ∀ i, ((quad i).control i).isSome then
    some (fun i => ((quad i).control i).get (h i))
  else none

/-- The coupling matrix `S` of the per-step linear system, built exactly as the
block-writing loop in `LQFeedbackSolver::Solve`: block `(ii, jj)` is
`Bᵢᵀ Zᵢ Bⱼ`, plus `R_{ii}` on the diagonal blocks. -/
def mkS {n N : ℕ} {m : Fin N → ℕ} (lin : LinearDynamicsApproximation n N m)
    (vs : ValueState n N) (Rii : (i : Fin N) → CostTermApprox (m i)) :
    Matrix (UIdx N m) (UIdx N m) ℚ :=
  Matrix.of (fun p q : UIdx N m => ((lin.Bs p.1)ᵀ * vs.Z p.1 * lin.Bs q.1) p.2 q.2) +
    Matrix.blockDiagonal' (fun i => (Rii i).hess)

/-- Right-hand side `Y`: for the row block of player `ii`, the first `XDim`
columns hold `Bᵢᵀ Zᵢ A` and the final column holds `Bᵢᵀ ζᵢ + r_{ii}`. -/
def mkY {n N : ℕ} {m : Fin N → ℕ} (lin : LinearDynamicsApproximation n N m)
    (vs : ValueState n N) (Rii : (i : Fin N) → CostTermApprox (m i)) :
    Matrix (UIdx N m) (Fin n ⊕ Unit) ℚ :=
  fun p c =>
    match c with
    | Sum.inl b => ((lin.Bs p.1)ᵀ * vs.Z p.1 * lin.A) p.2 b
    | Sum.inr _ => ((lin.Bs p.1)ᵀ.mulVec (vs.zeta p.1)) p.2 + (Rii p.1).grad p.2

/-- Exact-arithmetic model of `S_.householderQr().solve(Y_)`: for invertible `S`
the Householder-QR solve returns the unique solution of `S X = Y`, here realized
by the adjugate formula.  (On singular `S` the C++ returns a least-squares
answer; that numerical branch is outside the claims, which all assume an
invertible `S`, and is mapped to the zero matrix here.) -/
def qrSolve {ι κ : Type} [Fintype ι] [DecidableEq ι]
    (S : Matrix ι ι ℚ) (Y : Matrix ι κ ℚ) : Matrix ι κ ℚ :=
  if S.det = 0 then 0 else (S.det)⁻¹ • (S.adjugate * Y)

/-- Player `i`'s feedback gain `Pᵢ`: the rows of the solution `X` belonging to
player `i`, restricted to the first `XDim` columns (the workspace block
`Ps_[ii]`). -/
def extractP {n N : ℕ} {m : Fin N → ℕ} (X : Matrix (UIdx N m) (Fin n ⊕ Unit) ℚ)
    (i : Fin N) : Matrix (Fin (m i)) (Fin n) ℚ :=
  fun a b => X ⟨i, a⟩ (Sum.inl b)

/-- Player `i`'s feedforward `αᵢ`: player `i`'s segment of the final column of
the solution `X` (the workspace block `alphas_[ii]`). -/
def extractAlpha {n N : ℕ} {m : Fin N → ℕ}
    (X : Matrix (UIdx N m) (Fin n ⊕ Unit) ℚ) (i : Fin N) : Fin (m i) → ℚ :=
  fun a => X ⟨i, a⟩ (Sum.inr ())

/-- One player's strategy entries at a single time step. -/
abbrev StepStrategy (n N : ℕ) (m : Fin N → ℕ) :=
  (i : Fin N) → Matrix (Fin (m i)) (Fin n) ℚ × (Fin (m i) → ℚ)

/-- The closed-loop matrix accumulation `F_ = lin.A; for ii: F_ -= Bs[ii]*Ps_[ii]`. -/
def mkF {n N : ℕ} {m : Fin N → ℕ} (lin : LinearDynamicsApproximation n N m)
    (P : (i : Fin N) → Matrix (Fin (m i)) (Fin n) ℚ) : Matrix (Fin n) (Fin n) ℚ :=
  (List.finRange N).foldl (fun acc i => acc - lin.Bs i * P i) lin.A

/-- The drift accumulation `beta_ = 0; for ii: beta_ -= Bs[ii]*alphas_[ii]`. -/
def mkBeta {n N : ℕ} {m : Fin N → ℕ} (lin : LinearDynamicsApproximation n N m)
    (al : (i : Fin N) → Fin (m i) → ℚ) : Fin n → ℚ :=
  (List.finRange N).foldl (fun acc i => acc - (lin.Bs i).mulVec (al i)) 0

/-- The `Add terms for nonzero Rijs` loop applied to `ζᵢ`: iterate over the
entries of player `i`'s control map and add `Pⱼᵀ (R_{ij} αⱼ - r_{ij})`. -/
def zetaRijFold {n N : ℕ} {m : Fin N → ℕ}
    (ctrl : (j : Fin N) → Option (CostTermApprox (m j)))
    (P : (j : Fin N) → Matrix (Fin (m j)) (Fin n) ℚ)
    (al : (j : Fin N) → Fin (m j) → ℚ) (base : Fin n → ℚ) : Fin n → ℚ :=
  (List.finRange N).foldl
    (fun acc j =>
      match ctrl j with
      | none => acc
      | some c => acc + (P j)ᵀ.mulVec (c.hess.mulVec (al j) - c.grad))
    base

/-- The `Add terms for nonzero Rijs` loop applied to `Zᵢ`: iterate over the
entries of player `i`'s control map and add `Pⱼᵀ R_{ij} Pⱼ`. -/
def zRijFold {n N : ℕ} {m : Fin N → ℕ}
    (ctrl : (j : Fin N) → Option (CostTermApprox (m j)))
    (P : (j : Fin N) → Matrix (Fin (m j)) (Fin n) ℚ)
    (base : Matrix (Fin n) (Fin n) ℚ) : Matrix (Fin n) (Fin n) ℚ :=
  (List.finRange N).foldl
    (fun acc j =>
      match ctrl j with
      | none => acc
      | some c => acc + (P j)ᵀ * c.hess * P j)
    base

/-- The solved workspace matrix `X_ = S_.householderQr().solve(Y_)` of one
backward-pass step. -/
def lqX {n N : ℕ} {m : Fin N → ℕ} (lin : LinearDynamicsApproximation n N m)
    (vs : ValueState n N) (Rii : (i : Fin N) → CostTermApprox (m i)) :
    Matrix (UIdx N m) (Fin n ⊕ Unit) ℚ :=
  qrSolve (mkS lin vs Rii) (mkY lin vs Rii)

/-- The per-player gains `Ps_[ii]` of one step: row blocks of `X_`. -/
def lqPs {n N : ℕ} {m : Fin N → ℕ} (lin : LinearDynamicsApproximation n N m)
    (vs : ValueState n N) (Rii : (i : Fin N) → CostTermApprox (m i))
    (i : Fin N) : Matrix (Fin (m i)) (Fin n) ℚ :=
  extractP (lqX lin vs Rii) i

/-- The per-player feedforwards `alphas_[ii]` of one step: segments of the
last column of `X_`. -/
def lqAls {n N : ℕ} {m : Fin N → ℕ} (lin : LinearDynamicsApproximation n N m)
    (vs : ValueState n N) (Rii : (i : Fin N) → CostTermApprox (m i))
    (i : Fin N) : Fin (m i) → ℚ :=
  extractAlpha (lqX lin vs Rii) i

/-- The closed-loop matrix `F_` of one step. -/
def lqF {n N : ℕ} {m : Fin N → ℕ} (lin : LinearDynamicsApproximation n N m)
    (vs : ValueState n N) (Rii : (i : Fin N) → CostTermApprox (m i)) :
    Matrix (Fin n) (Fin n) ℚ :=
  mkF lin (lqPs lin vs Rii)

/-- The drift `beta_` of one step. -/
def lqBetaV {n N : ℕ} {m : Fin N → ℕ} (lin : LinearDynamicsApproximation n N m)
    (vs : ValueState n N) (Rii : (i : Fin N) → CostTermApprox (m i)) :
    Fin n → ℚ :=
  mkBeta lin (lqAls lin vs Rii)

/-- One step of the backward pass of `LQFeedbackSolver::Solve` at a fixed time
index: build `S` and `Y` from the current `(Zᵢ, ζᵢ)`, solve `S X = Y`, extract
`(Pᵢ, αᵢ)`, form `F` and `β`, and update every player's `(Zᵢ, ζᵢ)`.  Returns
`none` when the `CHECK` for a missing `R_{ii}` fires. -/
def lqStep {n N : ℕ} {m : Fin N → ℕ} (lin : LinearDynamicsApproximation n N m)
    (quad : (i : Fin N) → QuadraticCostApproximation n N m) (vs : ValueState n N) :
    Option (StepStrategy n N m × ValueState n N) :=
  match getRii quad with
  | none => none
  | some Rii =>
    some (fun i => (lqPs lin vs Rii i, lqAls lin vs Rii i),
      ⟨fun i =>
        zRijFold (quad i).control (lqPs lin vs Rii)
          ((lqF lin vs Rii)ᵀ * vs.Z i * lqF lin vs Rii + (quad i).state.hess),
       fun i =>
        zetaRijFold (quad i).control (lqPs lin vs Rii) (lqAls lin vs Rii)
          ((lqF lin vs Rii)ᵀ.mulVec (vs.zeta i + (vs.Z i).mulVec (lqBetaV lin vs Rii)) +
            (quad i).state.grad)⟩)

/-- `Zs_` and `zetas_` initialized at the final time from
`quadraticization.back()`: terminal state Hessian and gradient. -/
def terminalValueState {n N : ℕ} {m : Fin N → ℕ}
    (quadLast : (i : Fin N) → QuadraticCostApproximation n N m) : ValueState n N :=
  ⟨fun i => (quadLast i).state.hess, fun i => (quadLast i).state.grad⟩

/-- The backward loop `for (int kk = num_time_steps_ - 2; kk >= 0; kk--)`,
unrolled by the number `j` of steps already processed: after `j` steps the value
state corresponds to time index `K - 1 - j` and the accumulated list holds the
step strategies for time indices `K - 1 - j, …, K - 2` in increasing order. -/
def lqBackward {n N : ℕ} {m : Fin N → ℕ} (K : ℕ)
    (lin : List (LinearDynamicsApproximation n N m))
    (quad : List ((i : Fin N) → QuadraticCostApproximation n N m)) :
    ℕ → Option (ValueState n N × List (StepStrategy n N m))
  | 0 => some (terminalValueState (quad.getLastD default), [])
  | j + 1 =>
    match lqBackward K lin quad j with
    | none => none
    | some (vs, acc) =>
      match lqStep (lin.getD (K - 2 - j) default) (quad.getD (K - 2 - j) default) vs with
      | none => none
      | some (stepStrat, vs2) => some (vs2, stepStrat :: acc)

/-- `LQFeedbackSolver::Solve`: check the horizon lengths (the two `CHECK_EQ`s),
run the backward pass over time steps `K-2, …, 0`, and write each step's
`(Pᵢ, αᵢ)` into zero-initialized strategies of `num_time_steps_` entries.
Fatal `CHECK` failures are modelled as an `Except.error`. -/
def lqSolve {n N : ℕ} {m : Fin N → ℕ} (K : ℕ)
    (lin : List (LinearDynamicsApproximation n N m))
    (quad : List ((i : Fin N) → QuadraticCostApproximation n N m)) :
    Except SolveFatal ((i : Fin N) → Strategy n (m i)) :=
  if lin.length = K ∧ quad.length = K then
    match lqBackward K lin quad (K - 1) with
    | none => Except.error SolveFatal.missingRii
    | some (_, stepStrats) =>
      Except.ok (fun i =>
        ((List.range (K - 1)).zip stepStrats).foldl
          (fun s kkStrat => s.setEntry kkStrat.1 (kkStrat.2 i).1 (kkStrat.2 i).2)
          (Strategy.mkZero K n (m i)))
  else Except.error SolveFatal.sizeMismatch

/-!
### Receding-horizon driver (examples/receding_horizon_simulator.cpp)

The driver is glue over collaborator interfaces (Problem, SolutionSplicer,
dynamics integration, the wall clock); those collaborators are abstracted as an
operation record while the driver's own control flow, time bookkeeping and
fatal deadline check are embedded exactly.
-/

/-- Collaborators of `RecedingHorizonSimulator`: the dynamics integrator, the
warm-started problem solve (`SetUpNextRecedingHorizon` followed by
`Solve(planner_runtime)`), the solution splicer, and the wall clock measuring
each loop iteration's solver time. -/
structure SimOps (X Plan Log : Type) where
  integrate : ℚ → ℚ → X → Plan → X
  solveWarm : ℕ → X → ℚ → ℚ → Log
  splice : Plan → Log → ℚ → Plan
  elapsed : ℕ → ℚ
  solveFirst : Log
  planOf : Log → Plan
  x0 : X
  startTime : ℚ

/-- The driver's mutable state: true state `x`, simulation time `t`, the
splicer's current plan, the problem's current (overwritten) solution, the
accumulated list of solver logs, and the loop iteration counter. -/
structure SimState (X Plan Log : Type) where
  x : X
  t : ℚ
  plan : Plan
  solution : Plan
  logs : List Log
  iter : ℕ

/-- The one fatal abort in the driver loop:
`CHECK_LE(elapsed_time, planner_runtime)`. -/
inductive SimFatal where
  | deadline : SimFatal
deriving DecidableEq, Repr

/-- The extra integration time after each splice, `constexpr Time kExtraTime = 0.1`. -/
def kExtraTime : ℚ := 1 / 10

/-- One iteration of the `while (t < final_time)` body of
`RecedingHorizonSimulator`: warm-started solve, deadline check, integrate the
true state over the measured solve time under the current plan, advance `t`,
splice the new log at the new `t`, overwrite the problem's solution with the
spliced plan, then integrate a further `kExtraTime` under the spliced plan. -/
def recedingStep {X Plan Log : Type} (ops : SimOps X Plan Log) (runtime : ℚ)
    (st : SimState X Plan Log) : Except SimFatal (SimState X Plan Log) :=
  let log := ops.solveWarm st.iter st.x st.t runtime
  let e := ops.elapsed st.iter
  if e ≤ runtime then
    let x1 := ops.integrate st.t (st.t + e) st.x st.plan
    let t1 := st.t + e
    let plan1 := ops.splice st.plan log t1
    let x2 := ops.integrate t1 (t1 + kExtraTime) x1 plan1
    let t2 := t1 + kExtraTime
    Except.ok ⟨x2, t2, plan1, plan1, st.logs ++ [log], st.iter + 1⟩
  else Except.error SimFatal.deadline

/-- Outcome of running the driver loop with bounded fuel: normal exit of the
while loop, fatal `CHECK` abort, or fuel exhaustion (used only to express that
the loop in fact terminates). -/
inductive SimResult (X Plan Log : Type) where
  | done : SimState X Plan Log → SimResult X Plan Log
  | fatal : SimFatal → SimResult X Plan Log
  | fuelOut : SimResult X Plan Log

/-- The driver's `while (t < final_time)` loop, with explicit fuel. -/
def recedingRun {X Plan Log : Type} (ops : SimOps X Plan Log)
    (runtime finalTime : ℚ) : ℕ → SimState X Plan Log → SimResult X Plan Log
  | 0, st => if st.t < finalTime then SimResult.fuelOut else SimResult.done st
  | fuel + 1, st =>
    if st.t < finalTime then
      match recedingStep ops runtime st with
      | Except.ok st2 => recedingRun ops runtime finalTime fuel st2
      | Except.error f => SimResult.fatal f
    else SimResult.done st

/-- `RecedingHorizonSimulator` entry point: initial (un-deadlined) solve, splicer
initialized from that first log, then the replanning loop. -/
def recedingHorizonSimulator {X Plan Log : Type} (ops : SimOps X Plan Log)
    (runtime finalTime : ℚ) (fuel : ℕ) : SimResult X Plan Log :=
  recedingRun ops runtime finalTime fuel
    ⟨ops.x0, ops.startTime, ops.planOf ops.solveFirst, ops.planOf ops.solveFirst,
      [ops.solveFirst], 0⟩

/-!
### GUI control sliders (gui/control_sliders.h)
-/

/-- The part of a `SolverLog` observed by the slider accessors. -/
structure SolverLogMeta where
  initialTime : ℚ
  finalTime : ℚ
  numIterates : ℕ
deriving DecidableEq, Repr

instance : Inhabited SolverLogMeta := ⟨⟨0, 0, 0⟩⟩

/-- `ControlSliders`: raw slider fields (mutated arbitrarily by the GUI) plus
the list of logs. -/
structure ControlSliders where
  interpolation_time : ℚ
  solver_iterate : ℤ
  log_index : ℤ
  logs : List SolverLogMeta

/-- `LogIndex() = std::min(log_index_, (int)(logs_.size() - 1))`. -/
def ControlSliders.LogIndex (cs : ControlSliders) : ℤ :=
  min cs.log_index ((cs.logs.length : ℤ) - 1)

/-- The log `logs_[LogIndex()]` read by the other accessors.  In the C++ a
negative `LogIndex()` makes this access undefined behaviour; here it is mapped
to a default log (the amended claim assumes a nonnegative raw index, under which
the access is in bounds). -/
def ControlSliders.selectedLog (cs : ControlSliders) : SolverLogMeta :=
  cs.logs.getD cs.LogIndex.toNat default

/-- `SolverIterate() = std::min(solver_iterate_, (int)(logs_[LogIndex()]->NumIterates() - 1))`. -/
def ControlSliders.SolverIterate (cs : ControlSliders) : ℤ :=
  min cs.solver_iterate ((cs.selectedLog.numIterates : ℤ) - 1)

/-- `InterpolationTime() = max(min(interpolation_time_, FinalTime()), InitialTime())`
of the selected log. -/
def ControlSliders.InterpolationTime (cs : ControlSliders) : ℚ :=
  max (min cs.interpolation_time cs.selectedLog.finalTime) cs.selectedLog.initialTime

/-!
### Outward-rounded rational interval arithmetic

Used to evaluate, with a machine-checkable certificate, the exact-arithmetic
semantics of the two floating-point algorithms compared by the test
`SolveLQGameTest.MatchesLyapunovIterations`.  Endpoints are rounded outward to
multiples of `2⁻⁶⁰` after every operation so that the numbers stay small across
hundreds of operations while containment of the exact value is preserved.
-/

/-- Fixed-point scale: interval endpoints are integers denoting multiples of
`1 / SC = 2⁻⁶⁰`. -/
def SC : ℤ := 2 ^ 60

/-- Floor division by the scale. -/
def fdivSC (n : ℤ) : ℤ := n.fdiv SC

/-- Ceiling division by the scale. -/
def cdivSC (n : ℤ) : ℤ := -((-n).fdiv SC)

/-- A closed interval of rationals with fixed-point endpoints: it denotes the
set of `x` with `lo / SC ≤ x ≤ hi / SC`. -/
structure Iv where
  lo : ℤ
  hi : ℤ
deriving DecidableEq, Repr

/-- Interval membership (in scaled form). -/
def Iv.mem (x : ℚ) (I : Iv) : Prop :=
  (I.lo : ℚ) ≤ x * (SC : ℚ) ∧ x * (SC : ℚ) ≤ (I.hi : ℚ)

/-- Smallest fixed-point interval containing a rational. -/
def Iv.ofQ (q : ℚ) : Iv := ⟨⌊q * (SC : ℚ)⌋, ⌈q * (SC : ℚ)⌉⟩

/-- Interval addition (exact at this representation). -/
def Iv.add (I J : Iv) : Iv := ⟨I.lo + J.lo, I.hi + J.hi⟩

/-- Interval subtraction (exact at this representation). -/
def Iv.sub (I J : Iv) : Iv := ⟨I.lo - J.hi, I.hi - J.lo⟩

/-- Minimum of four integers. -/
def min4 (a b c d : ℤ) : ℤ := min (min a b) (min c d)

/-- Maximum of four integers. -/
def max4 (a b c d : ℤ) : ℤ := max (max a b) (max c d)

/-- Interval multiplication (corner products) with outward rounding. -/
def Iv.mul (I J : Iv) : Iv :=
  ⟨fdivSC (min4 (I.lo * J.lo) (I.lo * J.hi) (I.hi * J.lo) (I.hi * J.hi)),
   cdivSC (max4 (I.lo * J.lo) (I.lo * J.hi) (I.hi * J.lo) (I.hi * J.hi))⟩

/-- Interval reciprocal, defined only for intervals of positive numbers (the
only case arising here: the solve denominators are certified positive). -/
def Iv.inv (I : Iv) : Option Iv :=
  if 0 < I.lo then some ⟨(SC * SC).fdiv I.hi, -((-(SC * SC)).fdiv I.lo)⟩ else none

/-!
### The two-player 1D point-mass LQ game (test/test_solve_lq_game.cpp)

Continuous dynamics `A = [[0,1],[0,0]]`, `B₁ = (0.05, 1.0)`, `B₂ =
(0.032, 0.11)`, discretized at `Δt = 0.1` by the test's `Linearize` as
`A ← I + AΔt`, `Bᵢ ← BᵢΔt`; costs `Q₁ = I`, `Q₂ = 2I`, `l₁ = l₂ = 0`,
`R₁₁ = R₂₂ = 1`, `R₁₂ = 0.5`, `R₂₁ = 0.25` (control-cost gradients zero);
horizon `K = 100` steps.  Below, the backward pass of
`LQFeedbackSolver::Solve` and the test's `SolveLyapunovIterations` are both
specialized to these fixed dimensions (`n = 2`, two players with scalar
controls, so the coupling matrix `S` is `2×2` and the QR solve is the exact
`2×2` linear solve by Cramer's rule), over exact rational arithmetic.
-/

/-- Discretized `A(0,1) = Δt`. -/
def pmA01 : ℚ := 1 / 10

/-- Discretized `B₁ = (0.005, 0.1)`, first component. -/
def pmB1x : ℚ := 1 / 200

/-- Discretized `B₁`, second component. -/
def pmB1v : ℚ := 1 / 10

/-- Discretized `B₂ = (0.0032, 0.011)`, first component. -/
def pmB2x : ℚ := 2 / 625

/-- Discretized `B₂`, second component. -/
def pmB2v : ℚ := 11 / 1000

/-- Control-cost Hessians `R₁₁, R₁₂, R₂₁, R₂₂`. -/
def pmR11 : ℚ := 1

/-- `R₁₂ = 0.5`. -/
def pmR12 : ℚ := 1 / 2

/-- `R₂₁ = 0.25`. -/
def pmR21 : ℚ := 1 / 4

/-- `R₂₂ = 1`. -/
def pmR22 : ℚ := 1

/-- Control-cost gradients `r₁₁, r₁₂, r₂₁, r₂₂` (all zero in the test). -/
def pmr11 : ℚ := 0

/-- `r₁₂ = 0`. -/
def pmr12 : ℚ := 0

/-- `r₂₁ = 0`. -/
def pmr21 : ℚ := 0

/-- `r₂₂ = 0`. -/
def pmr22 : ℚ := 0

/-- State-cost gradients `l₁ = l₂ = 0`, componentwise. -/
def pml1x : ℚ := 0

/-- `l₁`, second component. -/
def pml1v : ℚ := 0

/-- `l₂`, first component. -/
def pml2x : ℚ := 0

/-- `l₂`, second component. -/
def pml2v : ℚ := 0

/-- The solver's per-player running values on this problem: `Z₁, Z₂` (2×2,
row-major entries `a b / c d`) and `ζ₁, ζ₂` (length-2). -/
structure PmVal where
  z1a : ℚ
  z1b : ℚ
  z1c : ℚ
  z1d : ℚ
  z2a : ℚ
  z2b : ℚ
  z2c : ℚ
  z2d : ℚ
  t1x : ℚ
  t1v : ℚ
  t2x : ℚ
  t2v : ℚ
deriving DecidableEq, Repr

/-- One backward step's extracted strategy entries: rows `P₁ = (p10, p11)`,
`P₂ = (p20, p21)` and feedforwards `a1, a2`. -/
structure PmGains where
  p10 : ℚ
  p11 : ℚ
  p20 : ℚ
  p21 : ℚ
  a1 : ℚ
  a2 : ℚ
deriving DecidableEq, Repr

/-!
One step of the backward pass of `LQFeedbackSolver::Solve`, specialized to the
point-mass problem, mirroring the C++ statement by statement.  Each temporary
of the loop body is a named definition: `u = B₁ᵀZ₁` and `v = B₂ᵀZ₂` (the
`BiZi` temporaries), the `S` blocks, the `Y` blocks (columns `0, 1` from
`BᵀZA` and final column `2` equal to `Bᵀζ + r_ii`), the exact 2×2 linear solve
of `S X = Y` (Cramer's rule, the real-arithmetic content of the Householder-QR
solve on an invertible `S`), the closed loop `F = A - B₁P₁ - B₂P₂`, the drift
`β = -B₁a1 - B₂a2`, and the `ζ` and `Z` updates including the `R_ij` terms of
each player's control-cost map (both entries present for both players here).
-/

/-- `B₁ᵀZ₁`, first entry. -/
def pU0 (s : PmVal) : ℚ := pmB1x * s.z1a + pmB1v * s.z1c

/-- `B₁ᵀZ₁`, second entry. -/
def pU1 (s : PmVal) : ℚ := pmB1x * s.z1b + pmB1v * s.z1d

/-- `B₂ᵀZ₂`, first entry. -/
def pV0 (s : PmVal) : ℚ := pmB2x * s.z2a + pmB2v * s.z2c

/-- `B₂ᵀZ₂`, second entry. -/
def pV1 (s : PmVal) : ℚ := pmB2x * s.z2b + pmB2v * s.z2d

/-- `S₁₁ = B₁ᵀZ₁B₁ + R₁₁`. -/
def pS00 (s : PmVal) : ℚ := pU0 s * pmB1x + pU1 s * pmB1v + pmR11

/-- `S₁₂ = B₁ᵀZ₁B₂`. -/
def pS01 (s : PmVal) : ℚ := pU0 s * pmB2x + pU1 s * pmB2v

/-- `S₂₁ = B₂ᵀZ₂B₁`. -/
def pS10 (s : PmVal) : ℚ := pV0 s * pmB1x + pV1 s * pmB1v

/-- `S₂₂ = B₂ᵀZ₂B₂ + R₂₂`. -/
def pS11 (s : PmVal) : ℚ := pV0 s * pmB2x + pV1 s * pmB2v + pmR22

/-- `Y` row 1, column 0: `(B₁ᵀZ₁A)₀`. -/
def pY00 (s : PmVal) : ℚ := pU0 s

/-- `Y` row 1, column 1: `(B₁ᵀZ₁A)₁`. -/
def pY01 (s : PmVal) : ℚ := pU0 s * pmA01 + pU1 s

/-- `Y` row 1, final column: `B₁ᵀζ₁ + r₁₁`. -/
def pY02 (s : PmVal) : ℚ := pmB1x * s.t1x + pmB1v * s.t1v + pmr11

/-- `Y` row 2, column 0: `(B₂ᵀZ₂A)₀`. -/
def pY10 (s : PmVal) : ℚ := pV0 s

/-- `Y` row 2, column 1: `(B₂ᵀZ₂A)₁`. -/
def pY11 (s : PmVal) : ℚ := pV0 s * pmA01 + pV1 s

/-- `Y` row 2, final column: `B₂ᵀζ₂ + r₂₂`. -/
def pY12 (s : PmVal) : ℚ := pmB2x * s.t2x + pmB2v * s.t2v + pmr22

/-- Determinant of the 2×2 coupling matrix `S`. -/
def pDet (s : PmVal) : ℚ := pS00 s * pS11 s - pS01 s * pS10 s

/-- `P₁` first entry of the solution of `S X = Y` (Cramer). -/
def pP10 (s : PmVal) : ℚ := (pS11 s * pY00 s - pS01 s * pY10 s) / pDet s

/-- `P₁` second entry. -/
def pP11 (s : PmVal) : ℚ := (pS11 s * pY01 s - pS01 s * pY11 s) / pDet s

/-- `α₁`. -/
def pA1 (s : PmVal) : ℚ := (pS11 s * pY02 s - pS01 s * pY12 s) / pDet s

/-- `P₂` first entry. -/
def pP20 (s : PmVal) : ℚ := (pS00 s * pY10 s - pS10 s * pY00 s) / pDet s

/-- `P₂` second entry. -/
def pP21 (s : PmVal) : ℚ := (pS00 s * pY11 s - pS10 s * pY01 s) / pDet s

/-- `α₂`. -/
def pA2 (s : PmVal) : ℚ := (pS00 s * pY12 s - pS10 s * pY02 s) / pDet s

/-- Closed loop `F = A - B₁P₁ - B₂P₂`, entry (0,0). -/
def pF00 (s : PmVal) : ℚ := 1 - (pmB1x * pP10 s + pmB2x * pP20 s)

/-- `F`, entry (0,1). -/
def pF01 (s : PmVal) : ℚ := pmA01 - (pmB1x * pP11 s + pmB2x * pP21 s)

/-- `F`, entry (1,0). -/
def pF10 (s : PmVal) : ℚ := 0 - (pmB1v * pP10 s + pmB2v * pP20 s)

/-- `F`, entry (1,1). -/
def pF11 (s : PmVal) : ℚ := 1 - (pmB1v * pP11 s + pmB2v * pP21 s)

/-- Drift `β = -B₁α₁ - B₂α₂`, first component. -/
def pBx (s : PmVal) : ℚ := 0 - (pmB1x * pA1 s + pmB2x * pA2 s)

/-- `β`, second component. -/
def pBv (s : PmVal) : ℚ := 0 - (pmB1v * pA1 s + pmB2v * pA2 s)

/-- `ζ₁ + Z₁β`, first component. -/
def pG1x (s : PmVal) : ℚ := s.t1x + (s.z1a * pBx s + s.z1b * pBv s)

/-- `ζ₁ + Z₁β`, second component. -/
def pG1v (s : PmVal) : ℚ := s.t1v + (s.z1c * pBx s + s.z1d * pBv s)

/-- `ζ₂ + Z₂β`, first component. -/
def pG2x (s : PmVal) : ℚ := s.t2x + (s.z2a * pBx s + s.z2b * pBv s)

/-- `ζ₂ + Z₂β`, second component. -/
def pG2v (s : PmVal) : ℚ := s.t2v + (s.z2c * pBx s + s.z2d * pBv s)

/-- Updated `ζ₁ = Fᵀ(ζ₁ + Z₁β) + l₁ + P₁ᵀ(R₁₁α₁ - r₁₁) + P₂ᵀ(R₁₂α₂ - r₁₂)`,
first component. -/
def pT1x (s : PmVal) : ℚ :=
  (pF00 s * pG1x s + pF10 s * pG1v s + pml1x) +
    (pP10 s * (pmR11 * pA1 s - pmr11) + pP20 s * (pmR12 * pA2 s - pmr12))

/-- Updated `ζ₁`, second component. -/
def pT1v (s : PmVal) : ℚ :=
  (pF01 s * pG1x s + pF11 s * pG1v s + pml1v) +
    (pP11 s * (pmR11 * pA1 s - pmr11) + pP21 s * (pmR12 * pA2 s - pmr12))

/-- Updated `ζ₂`, first component. -/
def pT2x (s : PmVal) : ℚ :=
  (pF00 s * pG2x s + pF10 s * pG2v s + pml2x) +
    (pP10 s * (pmR21 * pA1 s - pmr21) + pP20 s * (pmR22 * pA2 s - pmr22))

/-- Updated `ζ₂`, second component. -/
def pT2v (s : PmVal) : ℚ :=
  (pF01 s * pG2x s + pF11 s * pG2v s + pml2v) +
    (pP11 s * (pmR21 * pA1 s - pmr21) + pP21 s * (pmR22 * pA2 s - pmr22))

/-- `FᵀZ₁`, entry (0,0). -/
def pW1a (s : PmVal) : ℚ := pF00 s * s.z1a + pF10 s * s.z1c

/-- `FᵀZ₁`, entry (0,1). -/
def pW1b (s : PmVal) : ℚ := pF00 s * s.z1b + pF10 s * s.z1d

/-- `FᵀZ₁`, entry (1,0). -/
def pW1c (s : PmVal) : ℚ := pF01 s * s.z1a + pF11 s * s.z1c

/-- `FᵀZ₁`, entry (1,1). -/
def pW1d (s : PmVal) : ℚ := pF01 s * s.z1b + pF11 s * s.z1d

/-- Updated `Z₁ = FᵀZ₁F + Q₁ + P₁ᵀR₁₁P₁ + P₂ᵀR₁₂P₂`, entry (0,0). -/
def pZ1a (s : PmVal) : ℚ :=
  (pW1a s * pF00 s + pW1b s * pF10 s + 1) +
    (pP10 s * (pmR11 * pP10 s) + pP20 s * (pmR12 * pP20 s))

/-- Updated `Z₁`, entry (0,1). -/
def pZ1b (s : PmVal) : ℚ :=
  (pW1a s * pF01 s + pW1b s * pF11 s + 0) +
    (pP10 s * (pmR11 * pP11 s) + pP20 s * (pmR12 * pP21 s))

/-- Updated `Z₁`, entry (1,0). -/
def pZ1c (s : PmVal) : ℚ :=
  (pW1c s * pF00 s + pW1d s * pF10 s + 0) +
    (pP11 s * (pmR11 * pP10 s) + pP21 s * (pmR12 * pP20 s))

/-- Updated `Z₁`, entry (1,1). -/
def pZ1d (s : PmVal) : ℚ :=
  (pW1c s * pF01 s + pW1d s * pF11 s + 1) +
    (pP11 s * (pmR11 * pP11 s) + pP21 s * (pmR12 * pP21 s))

/-- `FᵀZ₂`, entry (0,0). -/
def pW2a (s : PmVal) : ℚ := pF00 s * s.z2a + pF10 s * s.z2c

/-- `FᵀZ₂`, entry (0,1). -/
def pW2b (s : PmVal) : ℚ := pF00 s * s.z2b + pF10 s * s.z2d

/-- `FᵀZ₂`, entry (1,0). -/
def pW2c (s : PmVal) : ℚ := pF01 s * s.z2a + pF11 s * s.z2c

/-- `FᵀZ₂`, entry (1,1). -/
def pW2d (s : PmVal) : ℚ := pF01 s * s.z2b + pF11 s * s.z2d

/-- Updated `Z₂ = FᵀZ₂F + Q₂ + P₁ᵀR₂₁P₁ + P₂ᵀR₂₂P₂`, entry (0,0). -/
def pZ2a (s : PmVal) : ℚ :=
  (pW2a s * pF00 s + pW2b s * pF10 s + 2) +
    (pP10 s * (pmR21 * pP10 s) + pP20 s * (pmR22 * pP20 s))

/-- Updated `Z₂`, entry (0,1). -/
def pZ2b (s : PmVal) : ℚ :=
  (pW2a s * pF01 s + pW2b s * pF11 s + 0) +
    (pP10 s * (pmR21 * pP11 s) + pP20 s * (pmR22 * pP21 s))

/-- Updated `Z₂`, entry (1,0). -/
def pZ2c (s : PmVal) : ℚ :=
  (pW2c s * pF00 s + pW2d s * pF10 s + 0) +
    (pP11 s * (pmR21 * pP10 s) + pP21 s * (pmR22 * pP20 s))

/-- Updated `Z₂`, entry (1,1). -/
def pZ2d (s : PmVal) : ℚ :=
  (pW2c s * pF01 s + pW2d s * pF11 s + 2) +
    (pP11 s * (pmR21 * pP11 s) + pP21 s * (pmR22 * pP21 s))

/-- One step of the backward pass: extracted strategy entries and the updated
`(Zᵢ, ζᵢ)`. -/
def pmStep (s : PmVal) : PmGains × PmVal :=
  (⟨pP10 s, pP11 s, pP20 s, pP21 s, pA1 s, pA2 s⟩,
   ⟨pZ1a s, pZ1b s, pZ1c s, pZ1d s, pZ2a s, pZ2b s, pZ2c s, pZ2d s,
    pT1x s, pT1v s, pT2x s, pT2v s⟩)

/-- Terminal initialization `Zᵢ ← Qᵢ`, `ζᵢ ← lᵢ` from `quadraticization.back()`. -/
def pmInit : PmVal := ⟨1, 0, 0, 1, 2, 0, 0, 2, pml1x, pml1v, pml2x, pml2v⟩

/-- The state part of one backward step. -/
def pmNext (s : PmVal) : PmVal := (pmStep s).2

/-- Value state after `k` backward steps (time index `K - 1 - k`). -/
def pmValAt : ℕ → PmVal
  | 0 => pmInit
  | k + 1 => pmNext (pmValAt k)

/-- The strategy entries stored at time step `kk = 0` by the backward pass with
`K = 100`: the gains computed from the value state after the `98` steps for
`kk = 98, …, 1`. -/
def pmFirstGains : PmGains := (pmStep (pmValAt 98)).1

/-!
Rewritten form of the `Z` updates, used only to drive the interval evaluator.

On an invertible `S`, the solved gains satisfy the stationarity identity
`BᵢᵀZᵢF = RᵢᵢPᵢ`, which turns the update `Zᵢ ← FᵀZᵢF + Qᵢ + ΣⱼPⱼᵀRᵢⱼPⱼ` into
`Z₁ ← AᵀZ₁F - P₂ᵀ(B₂ᵀZ₁F) + P₂ᵀR₁₂P₂ + Q₁` (and symmetrically for `Z₂`).
These definitions are proved *exactly equal* to the solver's updates whenever
`det S ≠ 0` (see the `pZ…_rw` lemmas below); their only role is that their
outward-rounded interval evaluation has bounded over-approximation growth,
unlike the literal `FᵀZᵢF` form.
-/

/-- `AᵀZ₁`, entry (1,0). -/
def pAG10 (s : PmVal) : ℚ := pmA01 * s.z1a + s.z1c

/-- `AᵀZ₁`, entry (1,1). -/
def pAG11 (s : PmVal) : ℚ := pmA01 * s.z1b + s.z1d

/-- `AᵀZ₁F`, entry (0,0). -/
def pAz100 (s : PmVal) : ℚ := s.z1a * pF00 s + s.z1b * pF10 s

/-- `AᵀZ₁F`, entry (0,1). -/
def pAz101 (s : PmVal) : ℚ := s.z1a * pF01 s + s.z1b * pF11 s

/-- `AᵀZ₁F`, entry (1,0). -/
def pAz110 (s : PmVal) : ℚ := pAG10 s * pF00 s + pAG11 s * pF10 s

/-- `AᵀZ₁F`, entry (1,1). -/
def pAz111 (s : PmVal) : ℚ := pAG10 s * pF01 s + pAG11 s * pF11 s

/-- `B₂ᵀZ₁`, first entry. -/
def pC0 (s : PmVal) : ℚ := pmB2x * s.z1a + pmB2v * s.z1c

/-- `B₂ᵀZ₁`, second entry. -/
def pC1 (s : PmVal) : ℚ := pmB2x * s.z1b + pmB2v * s.z1d

/-- `B₂ᵀZ₁F`, first entry. -/
def pBW0 (s : PmVal) : ℚ := pC0 s * pF00 s + pC1 s * pF10 s

/-- `B₂ᵀZ₁F`, second entry. -/
def pBW1 (s : PmVal) : ℚ := pC0 s * pF01 s + pC1 s * pF11 s

/-- Rewritten updated `Z₁`, entry (0,0). -/
def pFZ1a (s : PmVal) : ℚ := (pAz100 s - pP20 s * pBW0 s) + pP20 s * (pmR12 * pP20 s) + 1

/-- Rewritten updated `Z₁`, entry (0,1). -/
def pFZ1b (s : PmVal) : ℚ := (pAz101 s - pP20 s * pBW1 s) + pP20 s * (pmR12 * pP21 s) + 0

/-- Rewritten updated `Z₁`, entry (1,0). -/
def pFZ1c (s : PmVal) : ℚ := (pAz110 s - pP21 s * pBW0 s) + pP21 s * (pmR12 * pP20 s) + 0

/-- Rewritten updated `Z₁`, entry (1,1). -/
def pFZ1d (s : PmVal) : ℚ := (pAz111 s - pP21 s * pBW1 s) + pP21 s * (pmR12 * pP21 s) + 1

/-- `AᵀZ₂`, entry (1,0). -/
def pAH10 (s : PmVal) : ℚ := pmA01 * s.z2a + s.z2c

/-- `AᵀZ₂`, entry (1,1). -/
def pAH11 (s : PmVal) : ℚ := pmA01 * s.z2b + s.z2d

/-- `AᵀZ₂F`, entry (0,0). -/
def pAz200 (s : PmVal) : ℚ := s.z2a * pF00 s + s.z2b * pF10 s

/-- `AᵀZ₂F`, entry (0,1). -/
def pAz201 (s : PmVal) : ℚ := s.z2a * pF01 s + s.z2b * pF11 s

/-- `AᵀZ₂F`, entry (1,0). -/
def pAz210 (s : PmVal) : ℚ := pAH10 s * pF00 s + pAH11 s * pF10 s

/-- `AᵀZ₂F`, entry (1,1). -/
def pAz211 (s : PmVal) : ℚ := pAH10 s * pF01 s + pAH11 s * pF11 s

/-- `B₁ᵀZ₂`, first entry. -/
def pE0 (s : PmVal) : ℚ := pmB1x * s.z2a + pmB1v * s.z2c

/-- `B₁ᵀZ₂`, second entry. -/
def pE1 (s : PmVal) : ℚ := pmB1x * s.z2b + pmB1v * s.z2d

/-- `B₁ᵀZ₂F`, first entry. -/
def pBX0 (s : PmVal) : ℚ := pE0 s * pF00 s + pE1 s * pF10 s

/-- `B₁ᵀZ₂F`, second entry. -/
def pBX1 (s : PmVal) : ℚ := pE0 s * pF01 s + pE1 s * pF11 s

/-- Rewritten updated `Z₂`, entry (0,0). -/
def pFZ2a (s : PmVal) : ℚ := (pAz200 s - pP10 s * pBX0 s) + pP10 s * (pmR21 * pP10 s) + 2

/-- Rewritten updated `Z₂`, entry (0,1). -/
def pFZ2b (s : PmVal) : ℚ := (pAz201 s - pP10 s * pBX1 s) + pP10 s * (pmR21 * pP11 s) + 0

/-- Rewritten updated `Z₂`, entry (1,0). -/
def pFZ2c (s : PmVal) : ℚ := (pAz210 s - pP11 s * pBX0 s) + pP11 s * (pmR21 * pP10 s) + 0

/-- Rewritten updated `Z₂`, entry (1,1). -/
def pFZ2d (s : PmVal) : ℚ := (pAz211 s - pP11 s * pBX1 s) + pP11 s * (pmR21 * pP11 s) + 2

/-- The rewritten step (state part); equal to `pmNext` whenever `pDet s ≠ 0`. -/
def pmForm2 (s : PmVal) : PmVal :=
  ⟨pFZ1a s, pFZ1b s, pFZ1c s, pFZ1d s, pFZ2a s, pFZ2b s, pFZ2c s, pFZ2d s,
   pT1x s, pT1v s, pT2x s, pT2v s⟩

/-!
### `SolveLyapunovIterations` (test/test_solve_lq_game.cpp)
-/

/-- State of the Lyapunov iteration: `Z₁, Z₂` (2×2) and the current `P₁, P₂`
(1×2 rows). -/
structure LyVal where
  z1a : ℚ
  z1b : ℚ
  z1c : ℚ
  z1d : ℚ
  z2a : ℚ
  z2b : ℚ
  z2c : ℚ
  z2d : ℚ
  p10 : ℚ
  p11 : ℚ
  p20 : ℚ
  p21 : ℚ
deriving DecidableEq, Repr

/-!
Initialization of `SolveLyapunovIterations`: `Z₁ = Q₁`, `Z₂ = Q₂`, and
`Pᵢ = (Rᵢᵢ + BᵢᵀZᵢBᵢ)⁻¹ BᵢᵀZᵢA` (each a scalar-denominator solve since the
controls are one-dimensional).
-/

/-- `B₁ᵀQ₁`, first entry. -/
def lIu0 : ℚ := pmB1x * 1 + pmB1v * 0

/-- `B₁ᵀQ₁`, second entry. -/
def lIu1 : ℚ := pmB1x * 0 + pmB1v * 1

/-- `R₁₁ + B₁ᵀQ₁B₁`. -/
def lIs1 : ℚ := pmR11 + (lIu0 * pmB1x + lIu1 * pmB1v)

/-- Initial `P₁`, first entry. -/
def lIp10 : ℚ := lIu0 / lIs1

/-- Initial `P₁`, second entry. -/
def lIp11 : ℚ := (lIu0 * pmA01 + lIu1) / lIs1

/-- `B₂ᵀQ₂`, first entry. -/
def lIv0 : ℚ := pmB2x * 2 + pmB2v * 0

/-- `B₂ᵀQ₂`, second entry. -/
def lIv1 : ℚ := pmB2x * 0 + pmB2v * 2

/-- `R₂₂ + B₂ᵀQ₂B₂`. -/
def lIs2 : ℚ := pmR22 + (lIv0 * pmB2x + lIv1 * pmB2v)

/-- Initial `P₂`, first entry. -/
def lIp20 : ℚ := lIv0 / lIs2

/-- Initial `P₂`, second entry. -/
def lIp21 : ℚ := (lIv0 * pmA01 + lIv1) / lIs2

/-- The initial state of `SolveLyapunovIterations`. -/
def lyInit : LyVal := ⟨1, 0, 0, 1, 2, 0, 0, 2, lIp10, lIp11, lIp20, lIp21⟩

/-!
One iteration of the `for (ii < kNumIterations)` loop of
`SolveLyapunovIterations`: update each `Pᵢ` from
`(Rᵢᵢ + BᵢᵀZᵢBᵢ)⁻¹ BᵢᵀZᵢ(A - B₋ᵢ old_P₋ᵢ)` using the other player's previous
gain, then update both `Zᵢ` with the new closed loop `F = A - B₁P₁ - B₂P₂`:
`Zᵢ ← FᵀZᵢF + P₁ᵀRᵢ₁P₁ + P₂ᵀRᵢ₂P₂ + Qᵢ`.
-/

/-- `B₁ᵀZ₁`, first entry. -/
def lU0 (s : LyVal) : ℚ := pmB1x * s.z1a + pmB1v * s.z1c

/-- `B₁ᵀZ₁`, second entry. -/
def lU1 (s : LyVal) : ℚ := pmB1x * s.z1b + pmB1v * s.z1d

/-- `B₂ᵀZ₂`, first entry. -/
def lV0 (s : LyVal) : ℚ := pmB2x * s.z2a + pmB2v * s.z2c

/-- `B₂ᵀZ₂`, second entry. -/
def lV1 (s : LyVal) : ℚ := pmB2x * s.z2b + pmB2v * s.z2d

/-- `R₁₁ + B₁ᵀZ₁B₁`. -/
def lS1 (s : LyVal) : ℚ := pmR11 + (lU0 s * pmB1x + lU1 s * pmB1v)

/-- `R₂₂ + B₂ᵀZ₂B₂`. -/
def lS2 (s : LyVal) : ℚ := pmR22 + (lV0 s * pmB2x + lV1 s * pmB2v)

/-- `A - B₂·old_P₂`, entry (0,0). -/
def lM00 (s : LyVal) : ℚ := 1 - pmB2x * s.p20

/-- `A - B₂·old_P₂`, entry (0,1). -/
def lM01 (s : LyVal) : ℚ := pmA01 - pmB2x * s.p21

/-- `A - B₂·old_P₂`, entry (1,0). -/
def lM10 (s : LyVal) : ℚ := 0 - pmB2v * s.p20

/-- `A - B₂·old_P₂`, entry (1,1). -/
def lM11 (s : LyVal) : ℚ := 1 - pmB2v * s.p21

/-- `A - B₁·old_P₁`, entry (0,0). -/
def lN00 (s : LyVal) : ℚ := 1 - pmB1x * s.p10

/-- `A - B₁·old_P₁`, entry (0,1). -/
def lN01 (s : LyVal) : ℚ := pmA01 - pmB1x * s.p11

/-- `A - B₁·old_P₁`, entry (1,0). -/
def lN10 (s : LyVal) : ℚ := 0 - pmB1v * s.p10

/-- `A - B₁·old_P₁`, entry (1,1). -/
def lN11 (s : LyVal) : ℚ := 1 - pmB1v * s.p11

/-- New `P₁`, first entry. -/
def lP10 (s : LyVal) : ℚ := (lU0 s * lM00 s + lU1 s * lM10 s) / lS1 s

/-- New `P₁`, second entry. -/
def lP11 (s : LyVal) : ℚ := (lU0 s * lM01 s + lU1 s * lM11 s) / lS1 s

/-- New `P₂`, first entry. -/
def lP20 (s : LyVal) : ℚ := (lV0 s * lN00 s + lV1 s * lN10 s) / lS2 s

/-- New `P₂`, second entry. -/
def lP21 (s : LyVal) : ℚ := (lV0 s * lN01 s + lV1 s * lN11 s) / lS2 s

/-- Closed loop `F = A - B₁P₁ - B₂P₂` (new gains), entry (0,0). -/
def lF00 (s : LyVal) : ℚ := 1 - (pmB1x * lP10 s + pmB2x * lP20 s)

/-- `F`, entry (0,1). -/
def lF01 (s : LyVal) : ℚ := pmA01 - (pmB1x * lP11 s + pmB2x * lP21 s)

/-- `F`, entry (1,0). -/
def lF10 (s : LyVal) : ℚ := 0 - (pmB1v * lP10 s + pmB2v * lP20 s)

/-- `F`, entry (1,1). -/
def lF11 (s : LyVal) : ℚ := 1 - (pmB1v * lP11 s + pmB2v * lP21 s)

/-- `FᵀZ₁`, entry (0,0). -/
def lW1a (s : LyVal) : ℚ := lF00 s * s.z1a + lF10 s * s.z1c

/-- `FᵀZ₁`, entry (0,1). -/
def lW1b (s : LyVal) : ℚ := lF00 s * s.z1b + lF10 s * s.z1d

/-- `FᵀZ₁`, entry (1,0). -/
def lW1c (s : LyVal) : ℚ := lF01 s * s.z1a + lF11 s * s.z1c

/-- `FᵀZ₁`, entry (1,1). -/
def lW1d (s : LyVal) : ℚ := lF01 s * s.z1b + lF11 s * s.z1d

/-- Updated `Z₁`, entry (0,0). -/
def lZ1a (s : LyVal) : ℚ :=
  (lW1a s * lF00 s + lW1b s * lF10 s) +
    (lP10 s * (pmR11 * lP10 s) + lP20 s * (pmR12 * lP20 s)) + 1

/-- Updated `Z₁`, entry (0,1). -/
def lZ1b (s : LyVal) : ℚ :=
  (lW1a s * lF01 s + lW1b s * lF11 s) +
    (lP10 s * (pmR11 * lP11 s) + lP20 s * (pmR12 * lP21 s)) + 0

/-- Updated `Z₁`, entry (1,0). -/
def lZ1c (s : LyVal) : ℚ :=
  (lW1c s * lF00 s + lW1d s * lF10 s) +
    (lP11 s * (pmR11 * lP10 s) + lP21 s * (pmR12 * lP20 s)) + 0

/-- Updated `Z₁`, entry (1,1). -/
def lZ1d (s : LyVal) : ℚ :=
  (lW1c s * lF01 s + lW1d s * lF11 s) +
    (lP11 s * (pmR11 * lP11 s) + lP21 s * (pmR12 * lP21 s)) + 1

/-- `FᵀZ₂`, entry (0,0). -/
def lW2a (s : LyVal) : ℚ := lF00 s * s.z2a + lF10 s * s.z2c

/-- `FᵀZ₂`, entry (0,1). -/
def lW2b (s : LyVal) : ℚ := lF00 s * s.z2b + lF10 s * s.z2d

/-- `FᵀZ₂`, entry (1,0). -/
def lW2c (s : LyVal) : ℚ := lF01 s * s.z2a + lF11 s * s.z2c

/-- `FᵀZ₂`, entry (1,1). -/
def lW2d (s : LyVal) : ℚ := lF01 s * s.z2b + lF11 s * s.z2d

/-- Updated `Z₂`, entry (0,0). -/
def lZ2a (s : LyVal) : ℚ :=
  (lW2a s * lF00 s + lW2b s * lF10 s) +
    (lP10 s * (pmR21 * lP10 s) + lP20 s * (pmR22 * lP20 s)) + 2

/-- Updated `Z₂`, entry (0,1). -/
def lZ2b (s : LyVal) : ℚ :=
  (lW2a s * lF01 s + lW2b s * lF11 s) +
    (lP10 s * (pmR21 * lP11 s) + lP20 s * (pmR22 * lP21 s)) + 0

/-- Updated `Z₂`, entry (1,0). -/
def lZ2c (s : LyVal) : ℚ :=
  (lW2c s * lF00 s + lW2d s * lF10 s) +
    (lP11 s * (pmR21 * lP10 s) + lP21 s * (pmR22 * lP20 s)) + 0

/-- Updated `Z₂`, entry (1,1). -/
def lZ2d (s : LyVal) : ℚ :=
  (lW2c s * lF01 s + lW2d s * lF11 s) +
    (lP11 s * (pmR21 * lP11 s) + lP21 s * (pmR22 * lP21 s)) + 2

/-- One iteration of `SolveLyapunovIterations`. -/
def lyStep (s : LyVal) : LyVal :=
  ⟨lZ1a s, lZ1b s, lZ1c s, lZ1d s, lZ2a s, lZ2b s, lZ2c s, lZ2d s,
   lP10 s, lP11 s, lP20 s, lP21 s⟩

/-!
Rewritten form of the Lyapunov `Z` updates (used only by the interval
evaluator), exactly equal to `lyStep` whenever `lS1 s ≠ 0` and `lS2 s ≠ 0`.
Here the stationarity of the new gains gives `B₁ᵀZ₁F = R₁₁P₁ - (B₁ᵀZ₁B₂)d₂`
with `d₂ = P₂ - old_P₂`, hence
`Z₁ ← AᵀZ₁F + P₁ᵀ(B₁ᵀZ₁B₂)d₂ - P₂ᵀ(B₂ᵀZ₁F) + P₂ᵀR₁₂P₂ + Q₁`
(and symmetrically for `Z₂`).
-/

/-- Gain increment `d₁ = P₁ - old_P₁`, first entry. -/
def lD1x (s : LyVal) : ℚ := lP10 s - s.p10

/-- `d₁`, second entry. -/
def lD1v (s : LyVal) : ℚ := lP11 s - s.p11

/-- Gain increment `d₂ = P₂ - old_P₂`, first entry. -/
def lD2x (s : LyVal) : ℚ := lP20 s - s.p20

/-- `d₂`, second entry. -/
def lD2v (s : LyVal) : ℚ := lP21 s - s.p21

/-- `AᵀZ₁`, entry (1,0). -/
def lAG10 (s : LyVal) : ℚ := pmA01 * s.z1a + s.z1c

/-- `AᵀZ₁`, entry (1,1). -/
def lAG11 (s : LyVal) : ℚ := pmA01 * s.z1b + s.z1d

/-- `AᵀZ₁F`, entry (0,0). -/
def lAz100 (s : LyVal) : ℚ := s.z1a * lF00 s + s.z1b * lF10 s

/-- `AᵀZ₁F`, entry (0,1). -/
def lAz101 (s : LyVal) : ℚ := s.z1a * lF01 s + s.z1b * lF11 s

/-- `AᵀZ₁F`, entry (1,0). -/
def lAz110 (s : LyVal) : ℚ := lAG10 s * lF00 s + lAG11 s * lF10 s

/-- `AᵀZ₁F`, entry (1,1). -/
def lAz111 (s : LyVal) : ℚ := lAG10 s * lF01 s + lAG11 s * lF11 s

/-- `B₁ᵀZ₁B₂`. -/
def lK1 (s : LyVal) : ℚ := lU0 s * pmB2x + lU1 s * pmB2v

/-- `B₂ᵀZ₁`, first entry. -/
def lC0 (s : LyVal) : ℚ := pmB2x * s.z1a + pmB2v * s.z1c

/-- `B₂ᵀZ₁`, second entry. -/
def lC1 (s : LyVal) : ℚ := pmB2x * s.z1b + pmB2v * s.z1d

/-- `B₂ᵀZ₁F`, first entry. -/
def lBW0 (s : LyVal) : ℚ := lC0 s * lF00 s + lC1 s * lF10 s

/-- `B₂ᵀZ₁F`, second entry. -/
def lBW1 (s : LyVal) : ℚ := lC0 s * lF01 s + lC1 s * lF11 s

/-- Rewritten updated `Z₁`, entry (0,0). -/
def lFZ1a (s : LyVal) : ℚ :=
  (lAz100 s + lP10 s * lK1 s * lD2x s - lP20 s * lBW0 s) + lP20 s * (pmR12 * lP20 s) + 1

/-- Rewritten updated `Z₁`, entry (0,1). -/
def lFZ1b (s : LyVal) : ℚ :=
  (lAz101 s + lP10 s * lK1 s * lD2v s - lP20 s * lBW1 s) + lP20 s * (pmR12 * lP21 s) + 0

/-- Rewritten updated `Z₁`, entry (1,0). -/
def lFZ1c (s : LyVal) : ℚ :=
  (lAz110 s + lP11 s * lK1 s * lD2x s - lP21 s * lBW0 s) + lP21 s * (pmR12 * lP20 s) + 0

/-- Rewritten updated `Z₁`, entry (1,1). -/
def lFZ1d (s : LyVal) : ℚ :=
  (lAz111 s + lP11 s * lK1 s * lD2v s - lP21 s * lBW1 s) + lP21 s * (pmR12 * lP21 s) + 1

/-- `AᵀZ₂`, entry (1,0). -/
def lAH10 (s : LyVal) : ℚ := pmA01 * s.z2a + s.z2c

/-- `AᵀZ₂`, entry (1,1). -/
def lAH11 (s : LyVal) : ℚ := pmA01 * s.z2b + s.z2d

/-- `AᵀZ₂F`, entry (0,0). -/
def lAz200 (s : LyVal) : ℚ := s.z2a * lF00 s + s.z2b * lF10 s

/-- `AᵀZ₂F`, entry (0,1). -/
def lAz201 (s : LyVal) : ℚ := s.z2a * lF01 s + s.z2b * lF11 s

/-- `AᵀZ₂F`, entry (1,0). -/
def lAz210 (s : LyVal) : ℚ := lAH10 s * lF00 s + lAH11 s * lF10 s

/-- `AᵀZ₂F`, entry (1,1). -/
def lAz211 (s : LyVal) : ℚ := lAH10 s * lF01 s + lAH11 s * lF11 s

/-- `B₂ᵀZ₂B₁`. -/
def lK2 (s : LyVal) : ℚ := lV0 s * pmB1x + lV1 s * pmB1v

/-- `B₁ᵀZ₂`, first entry. -/
def lE0 (s : LyVal) : ℚ := pmB1x * s.z2a + pmB1v * s.z2c

/-- `B₁ᵀZ₂`, second entry. -/
def lE1 (s : LyVal) : ℚ := pmB1x * s.z2b + pmB1v * s.z2d

/-- `B₁ᵀZ₂F`, first entry. -/
def lBX0 (s : LyVal) : ℚ := lE0 s * lF00 s + lE1 s * lF10 s

/-- `B₁ᵀZ₂F`, second entry. -/
def lBX1 (s : LyVal) : ℚ := lE0 s * lF01 s + lE1 s * lF11 s

/-- Rewritten updated `Z₂`, entry (0,0). -/
def lFZ2a (s : LyVal) : ℚ :=
  (lAz200 s + lP20 s * lK2 s * lD1x s - lP10 s * lBX0 s) + lP10 s * (pmR21 * lP10 s) + 2

/-- Rewritten updated `Z₂`, entry (0,1). -/
def lFZ2b (s : LyVal) : ℚ :=
  (lAz201 s + lP20 s * lK2 s * lD1v s - lP10 s * lBX1 s) + lP10 s * (pmR21 * lP11 s) + 0

/-- Rewritten updated `Z₂`, entry (1,0). -/
def lFZ2c (s : LyVal) : ℚ :=
  (lAz210 s + lP21 s * lK2 s * lD1x s - lP11 s * lBX0 s) + lP11 s * (pmR21 * lP10 s) + 0

/-- Rewritten updated `Z₂`, entry (1,1). -/
def lFZ2d (s : LyVal) : ℚ :=
  (lAz211 s + lP21 s * lK2 s * lD1v s - lP11 s * lBX1 s) + lP11 s * (pmR21 * lP11 s) + 2

/-- The rewritten Lyapunov iteration; equal to `lyStep` whenever
`lS1 s ≠ 0` and `lS2 s ≠ 0`. -/
def lyForm2 (s : LyVal) : LyVal :=
  ⟨lFZ1a s, lFZ1b s, lFZ1c s, lFZ1d s, lFZ2a s, lFZ2b s, lFZ2c s, lFZ2d s,
   lP10 s, lP11 s, lP20 s, lP21 s⟩

/-- Lyapunov state after `k` of the `kNumIterations = 100` iterations. -/
def lyValAt : ℕ → LyVal
  | 0 => lyInit
  | k + 1 => lyStep (lyValAt k)

/-- The reference gains returned by `SolveLyapunovIterations`. -/
def lyFinal : LyVal := lyValAt 100

/-!
### Interval evaluation of the two recursions

Each definition below mirrors its exact counterpart operation for operation,
replacing every rational operation by the corresponding outward-rounded
interval operation (and each division `x / d` by multiplication with the
certified-positive reciprocal interval of `d`).
-/

/-- Interval enclosure of a `PmVal`. -/
structure PmIv where
  z1a : Iv
  z1b : Iv
  z1c : Iv
  z1d : Iv
  z2a : Iv
  z2b : Iv
  z2c : Iv
  z2d : Iv
  t1x : Iv
  t1v : Iv
  t2x : Iv
  t2v : Iv
deriving DecidableEq, Repr

/-- Interval enclosure of a `PmGains`. -/
structure PmGainsIv where
  p10 : Iv
  p11 : Iv
  p20 : Iv
  p21 : Iv
  a1 : Iv
  a2 : Iv
deriving DecidableEq, Repr

/-- Componentwise membership of a `PmVal` in a `PmIv`. -/
def PmIv.memV (s : PmVal) (S : PmIv) : Prop :=
  Iv.mem s.z1a S.z1a ∧ Iv.mem s.z1b S.z1b ∧ Iv.mem s.z1c S.z1c ∧ Iv.mem s.z1d S.z1d ∧
  Iv.mem s.z2a S.z2a ∧ Iv.mem s.z2b S.z2b ∧ Iv.mem s.z2c S.z2c ∧ Iv.mem s.z2d S.z2d ∧
  Iv.mem s.t1x S.t1x ∧ Iv.mem s.t1v S.t1v ∧ Iv.mem s.t2x S.t2x ∧ Iv.mem s.t2v S.t2v

/-- Componentwise membership of a `PmGains` in a `PmGainsIv`. -/
def PmGainsIv.memG (g : PmGains) (G : PmGainsIv) : Prop :=
  Iv.mem g.p10 G.p10 ∧ Iv.mem g.p11 G.p11 ∧ Iv.mem g.p20 G.p20 ∧
  Iv.mem g.p21 G.p21 ∧ Iv.mem g.a1 G.a1 ∧ Iv.mem g.a2 G.a2

/-- Intermediate interval values of one backward-pass step: `BᵀZ` rows, `S`
blocks, `Y` blocks and the determinant, mirroring `pU0 … pDet`. -/
structure PmMidIv where
  u0 : Iv
  u1 : Iv
  v0 : Iv
  v1 : Iv
  s00 : Iv
  s01 : Iv
  s10 : Iv
  s11 : Iv
  y00 : Iv
  y01 : Iv
  y02 : Iv
  y10 : Iv
  y11 : Iv
  y12 : Iv
  det : Iv
deriving DecidableEq, Repr

/-- Interval evaluation of the shared first stage of a backward-pass step. -/
def pmMid (s : PmIv) : PmMidIv :=
  let u0 := ((Iv.ofQ pmB1x).mul s.z1a).add ((Iv.ofQ pmB1v).mul s.z1c)
  let u1 := ((Iv.ofQ pmB1x).mul s.z1b).add ((Iv.ofQ pmB1v).mul s.z1d)
  let v0 := ((Iv.ofQ pmB2x).mul s.z2a).add ((Iv.ofQ pmB2v).mul s.z2c)
  let v1 := ((Iv.ofQ pmB2x).mul s.z2b).add ((Iv.ofQ pmB2v).mul s.z2d)
  let s00 := ((u0.mul (Iv.ofQ pmB1x)).add (u1.mul (Iv.ofQ pmB1v))).add (Iv.ofQ pmR11)
  let s01 := (u0.mul (Iv.ofQ pmB2x)).add (u1.mul (Iv.ofQ pmB2v))
  let s10 := (v0.mul (Iv.ofQ pmB1x)).add (v1.mul (Iv.ofQ pmB1v))
  let s11 := ((v0.mul (Iv.ofQ pmB2x)).add (v1.mul (Iv.ofQ pmB2v))).add (Iv.ofQ pmR22)
  let y00 := u0
  let y01 := (u0.mul (Iv.ofQ pmA01)).add u1
  let y02 := (((Iv.ofQ pmB1x).mul s.t1x).add ((Iv.ofQ pmB1v).mul s.t1v)).add (Iv.ofQ pmr11)
  let y10 := v0
  let y11 := (v0.mul (Iv.ofQ pmA01)).add v1
  let y12 := (((Iv.ofQ pmB2x).mul s.t2x).add ((Iv.ofQ pmB2v).mul s.t2v)).add (Iv.ofQ pmr22)
  let det := (s00.mul s11).sub (s01.mul s10)
  ⟨u0, u1, v0, v1, s00, s01, s10, s11, y00, y01, y02, y10, y11, y12, det⟩

/-- Interval evaluation of the Cramer solve (gains stage), given the reciprocal
interval of the determinant. -/
def pmGainsStage (m : PmMidIv) (dinv : Iv) : PmGainsIv :=
  let p10 := ((m.s11.mul m.y00).sub (m.s01.mul m.y10)).mul dinv
  let p11 := ((m.s11.mul m.y01).sub (m.s01.mul m.y11)).mul dinv
  let a1 := ((m.s11.mul m.y02).sub (m.s01.mul m.y12)).mul dinv
  let p20 := ((m.s00.mul m.y10).sub (m.s10.mul m.y00)).mul dinv
  let p21 := ((m.s00.mul m.y11).sub (m.s10.mul m.y01)).mul dinv
  let a2 := ((m.s00.mul m.y12).sub (m.s10.mul m.y02)).mul dinv
  ⟨p10, p11, p20, p21, a1, a2⟩

/-- Interval evaluation of the rest of the rewritten step: closed loop, drift,
`ζ` updates and rewritten `Z` updates (mirroring `pF00 … pFZ2d`). -/
def pmTail (s : PmIv) (g : PmGainsIv) : PmIv :=
  let f00 := (Iv.ofQ 1).sub (((Iv.ofQ pmB1x).mul g.p10).add ((Iv.ofQ pmB2x).mul g.p20))
  let f01 := (Iv.ofQ pmA01).sub (((Iv.ofQ pmB1x).mul g.p11).add ((Iv.ofQ pmB2x).mul g.p21))
  let f10 := (Iv.ofQ 0).sub (((Iv.ofQ pmB1v).mul g.p10).add ((Iv.ofQ pmB2v).mul g.p20))
  let f11 := (Iv.ofQ 1).sub (((Iv.ofQ pmB1v).mul g.p11).add ((Iv.ofQ pmB2v).mul g.p21))
  let bx := (Iv.ofQ 0).sub (((Iv.ofQ pmB1x).mul g.a1).add ((Iv.ofQ pmB2x).mul g.a2))
  let bv := (Iv.ofQ 0).sub (((Iv.ofQ pmB1v).mul g.a1).add ((Iv.ofQ pmB2v).mul g.a2))
  let g1x := s.t1x.add ((s.z1a.mul bx).add (s.z1b.mul bv))
  let g1v := s.t1v.add ((s.z1c.mul bx).add (s.z1d.mul bv))
  let g2x := s.t2x.add ((s.z2a.mul bx).add (s.z2b.mul bv))
  let g2v := s.t2v.add ((s.z2c.mul bx).add (s.z2d.mul bv))
  let t1x := (((f00.mul g1x).add (f10.mul g1v)).add (Iv.ofQ pml1x)).add
    ((g.p10.mul (((Iv.ofQ pmR11).mul g.a1).sub (Iv.ofQ pmr11))).add
     (g.p20.mul (((Iv.ofQ pmR12).mul g.a2).sub (Iv.ofQ pmr12))))
  let t1v := (((f01.mul g1x).add (f11.mul g1v)).add (Iv.ofQ pml1v)).add
    ((g.p11.mul (((Iv.ofQ pmR11).mul g.a1).sub (Iv.ofQ pmr11))).add
     (g.p21.mul (((Iv.ofQ pmR12).mul g.a2).sub (Iv.ofQ pmr12))))
  let t2x := (((f00.mul g2x).add (f10.mul g2v)).add (Iv.ofQ pml2x)).add
    ((g.p10.mul (((Iv.ofQ pmR21).mul g.a1).sub (Iv.ofQ pmr21))).add
     (g.p20.mul (((Iv.ofQ pmR22).mul g.a2).sub (Iv.ofQ pmr22))))
  let t2v := (((f01.mul g2x).add (f11.mul g2v)).add (Iv.ofQ pml2v)).add
    ((g.p11.mul (((Iv.ofQ pmR21).mul g.a1).sub (Iv.ofQ pmr21))).add
     (g.p21.mul (((Iv.ofQ pmR22).mul g.a2).sub (Iv.ofQ pmr22))))
  let ag10 := ((Iv.ofQ pmA01).mul s.z1a).add s.z1c
  let ag11 := ((Iv.ofQ pmA01).mul s.z1b).add s.z1d
  let az100 := (s.z1a.mul f00).add (s.z1b.mul f10)
  let az101 := (s.z1a.mul f01).add (s.z1b.mul f11)
  let az110 := (ag10.mul f00).add (ag11.mul f10)
  let az111 := (ag10.mul f01).add (ag11.mul f11)
  let c0 := ((Iv.ofQ pmB2x).mul s.z1a).add ((Iv.ofQ pmB2v).mul s.z1c)
  let c1 := ((Iv.ofQ pmB2x).mul s.z1b).add ((Iv.ofQ pmB2v).mul s.z1d)
  let bw0 := (c0.mul f00).add (c1.mul f10)
  let bw1 := (c0.mul f01).add (c1.mul f11)
  let z1a := ((az100.sub (g.p20.mul bw0)).add (g.p20.mul ((Iv.ofQ pmR12).mul g.p20))).add (Iv.ofQ 1)
  let z1b := ((az101.sub (g.p20.mul bw1)).add (g.p20.mul ((Iv.ofQ pmR12).mul g.p21))).add (Iv.ofQ 0)
  let z1c := ((az110.sub (g.p21.mul bw0)).add (g.p21.mul ((Iv.ofQ pmR12).mul g.p20))).add (Iv.ofQ 0)
  let z1d := ((az111.sub (g.p21.mul bw1)).add (g.p21.mul ((Iv.ofQ pmR12).mul g.p21))).add (Iv.ofQ 1)
  let ah10 := ((Iv.ofQ pmA01).mul s.z2a).add s.z2c
  let ah11 := ((Iv.ofQ pmA01).mul s.z2b).add s.z2d
  let az200 := (s.z2a.mul f00).add (s.z2b.mul f10)
  let az201 := (s.z2a.mul f01).add (s.z2b.mul f11)
  let az210 := (ah10.mul f00).add (ah11.mul f10)
  let az211 := (ah10.mul f01).add (ah11.mul f11)
  let e0 := ((Iv.ofQ pmB1x).mul s.z2a).add ((Iv.ofQ pmB1v).mul s.z2c)
  let e1 := ((Iv.ofQ pmB1x).mul s.z2b).add ((Iv.ofQ pmB1v).mul s.z2d)
  let bx0 := (e0.mul f00).add (e1.mul f10)
  let bx1 := (e0.mul f01).add (e1.mul f11)
  let z2a := ((az200.sub (g.p10.mul bx0)).add (g.p10.mul ((Iv.ofQ pmR21).mul g.p10))).add (Iv.ofQ 2)
  let z2b := ((az201.sub (g.p10.mul bx1)).add (g.p10.mul ((Iv.ofQ pmR21).mul g.p11))).add (Iv.ofQ 0)
  let z2c := ((az210.sub (g.p11.mul bx0)).add (g.p11.mul ((Iv.ofQ pmR21).mul g.p10))).add (Iv.ofQ 0)
  let z2d := ((az211.sub (g.p11.mul bx1)).add (g.p11.mul ((Iv.ofQ pmR21).mul g.p11))).add (Iv.ofQ 2)
  ⟨z1a, z1b, z1c, z1d, z2a, z2b, z2c, z2d, t1x, t1v, t2x, t2v⟩

/-- Interval evaluation of the gain extraction of one backward-pass step;
`none` if positivity of the solve denominator cannot be certified. -/
def pmGainsIvOf (s : PmIv) : Option PmGainsIv :=
  match Iv.inv (pmMid s).det with
  | none => none
  | some dinv => some (pmGainsStage (pmMid s) dinv)

/-- Interval evaluation of the rewritten step `pmForm2`; `none` if positivity
of the solve denominator cannot be certified. -/
def pmForm2Iv (s : PmIv) : Option PmIv :=
  match Iv.inv (pmMid s).det with
  | none => none
  | some dinv => some (pmTail s (pmGainsStage (pmMid s) dinv))

/-- `Option`-lifted interval state advance, for iteration. -/
def pmF2O (o : Option PmIv) : Option PmIv := o.bind pmForm2Iv

/-- Point-interval enclosure of `pmInit`. -/
def pmInitIv : PmIv :=
  ⟨Iv.ofQ 1, Iv.ofQ 0, Iv.ofQ 0, Iv.ofQ 1, Iv.ofQ 2, Iv.ofQ 0, Iv.ofQ 0, Iv.ofQ 2,
   Iv.ofQ pml1x, Iv.ofQ pml1v, Iv.ofQ pml2x, Iv.ofQ pml2v⟩

/-- Interval enclosure of a `LyVal`. -/
structure LyIv where
  z1a : Iv
  z1b : Iv
  z1c : Iv
  z1d : Iv
  z2a : Iv
  z2b : Iv
  z2c : Iv
  z2d : Iv
  p10 : Iv
  p11 : Iv
  p20 : Iv
  p21 : Iv
deriving DecidableEq, Repr

/-- Componentwise membership of a `LyVal` in a `LyIv`. -/
def LyIv.memL (s : LyVal) (S : LyIv) : Prop :=
  Iv.mem s.z1a S.z1a ∧ Iv.mem s.z1b S.z1b ∧ Iv.mem s.z1c S.z1c ∧ Iv.mem s.z1d S.z1d ∧
  Iv.mem s.z2a S.z2a ∧ Iv.mem s.z2b S.z2b ∧ Iv.mem s.z2c S.z2c ∧ Iv.mem s.z2d S.z2d ∧
  Iv.mem s.p10 S.p10 ∧ Iv.mem s.p11 S.p11 ∧ Iv.mem s.p20 S.p20 ∧ Iv.mem s.p21 S.p21

/-- Interval version of `lyInit`; `none` if the positivity of the scalar solve
denominators cannot be certified. -/
def lyInitIv : Option LyIv :=
  let u0 := Iv.ofQ lIu0
  let u1 := Iv.ofQ lIu1
  let s1 := (Iv.ofQ pmR11).add ((u0.mul (Iv.ofQ pmB1x)).add (u1.mul (Iv.ofQ pmB1v)))
  match Iv.inv s1 with
  | none => none
  | some s1i =>
    let p10 := u0.mul s1i
    let p11 := ((u0.mul (Iv.ofQ pmA01)).add u1).mul s1i
    let v0 := Iv.ofQ lIv0
    let v1 := Iv.ofQ lIv1
    let s2 := (Iv.ofQ pmR22).add ((v0.mul (Iv.ofQ pmB2x)).add (v1.mul (Iv.ofQ pmB2v)))
    match Iv.inv s2 with
    | none => none
    | some s2i =>
      let p20 := v0.mul s2i
      let p21 := ((v0.mul (Iv.ofQ pmA01)).add v1).mul s2i
      some ⟨Iv.ofQ 1, Iv.ofQ 0, Iv.ofQ 0, Iv.ofQ 1, Iv.ofQ 2, Iv.ofQ 0, Iv.ofQ 0, Iv.ofQ 2,
        p10, p11, p20, p21⟩

/-- Intermediate interval values of one Lyapunov iteration: `BᵢᵀZᵢ` rows and
the two scalar solve denominators, mirroring `lU0 … lS2`. -/
structure LyMidIv where
  u0 : Iv
  u1 : Iv
  v0 : Iv
  v1 : Iv
  s1 : Iv
  s2 : Iv
deriving DecidableEq, Repr

/-- Interval evaluation of the shared first stage of a Lyapunov iteration. -/
def lyMid (s : LyIv) : LyMidIv :=
  let u0 := ((Iv.ofQ pmB1x).mul s.z1a).add ((Iv.ofQ pmB1v).mul s.z1c)
  let u1 := ((Iv.ofQ pmB1x).mul s.z1b).add ((Iv.ofQ pmB1v).mul s.z1d)
  let v0 := ((Iv.ofQ pmB2x).mul s.z2a).add ((Iv.ofQ pmB2v).mul s.z2c)
  let v1 := ((Iv.ofQ pmB2x).mul s.z2b).add ((Iv.ofQ pmB2v).mul s.z2d)
  let s1 := (Iv.ofQ pmR11).add ((u0.mul (Iv.ofQ pmB1x)).add (u1.mul (Iv.ofQ pmB1v)))
  let s2 := (Iv.ofQ pmR22).add ((v0.mul (Iv.ofQ pmB2x)).add (v1.mul (Iv.ofQ pmB2v)))
  ⟨u0, u1, v0, v1, s1, s2⟩

/-- Interval enclosure of the four updated Lyapunov gains. -/
structure LyGIv where
  p10 : Iv
  p11 : Iv
  p20 : Iv
  p21 : Iv
deriving DecidableEq, Repr

/-- Interval evaluation of the Lyapunov gain updates, given the reciprocal
intervals of the scalar denominators. -/
def lyPStage (s : LyIv) (m : LyMidIv) (s1i s2i : Iv) : LyGIv :=
  let m00 := (Iv.ofQ 1).sub ((Iv.ofQ pmB2x).mul s.p20)
  let m01 := (Iv.ofQ pmA01).sub ((Iv.ofQ pmB2x).mul s.p21)
  let m10 := (Iv.ofQ 0).sub ((Iv.ofQ pmB2v).mul s.p20)
  let m11 := (Iv.ofQ 1).sub ((Iv.ofQ pmB2v).mul s.p21)
  let n00 := (Iv.ofQ 1).sub ((Iv.ofQ pmB1x).mul s.p10)
  let n01 := (Iv.ofQ pmA01).sub ((Iv.ofQ pmB1x).mul s.p11)
  let n10 := (Iv.ofQ 0).sub ((Iv.ofQ pmB1v).mul s.p10)
  let n11 := (Iv.ofQ 1).sub ((Iv.ofQ pmB1v).mul s.p11)
  let p10 := ((m.u0.mul m00).add (m.u1.mul m10)).mul s1i
  let p11 := ((m.u0.mul m01).add (m.u1.mul m11)).mul s1i
  let p20 := ((m.v0.mul n00).add (m.v1.mul n10)).mul s2i
  let p21 := ((m.v0.mul n01).add (m.v1.mul n11)).mul s2i
  ⟨p10, p11, p20, p21⟩

/-- Interval evaluation of the rest of the rewritten Lyapunov iteration:
closed loop and rewritten `Z` updates (mirroring `lF00 … lFZ2d`). -/
def lyTail (s : LyIv) (m : LyMidIv) (g : LyGIv) : LyIv :=
  let d1x := g.p10.sub s.p10
  let d1v := g.p11.sub s.p11
  let d2x := g.p20.sub s.p20
  let d2v := g.p21.sub s.p21
  let f00 := (Iv.ofQ 1).sub (((Iv.ofQ pmB1x).mul g.p10).add ((Iv.ofQ pmB2x).mul g.p20))
  let f01 := (Iv.ofQ pmA01).sub (((Iv.ofQ pmB1x).mul g.p11).add ((Iv.ofQ pmB2x).mul g.p21))
  let f10 := (Iv.ofQ 0).sub (((Iv.ofQ pmB1v).mul g.p10).add ((Iv.ofQ pmB2v).mul g.p20))
  let f11 := (Iv.ofQ 1).sub (((Iv.ofQ pmB1v).mul g.p11).add ((Iv.ofQ pmB2v).mul g.p21))
  let ag10 := ((Iv.ofQ pmA01).mul s.z1a).add s.z1c
  let ag11 := ((Iv.ofQ pmA01).mul s.z1b).add s.z1d
  let az100 := (s.z1a.mul f00).add (s.z1b.mul f10)
  let az101 := (s.z1a.mul f01).add (s.z1b.mul f11)
  let az110 := (ag10.mul f00).add (ag11.mul f10)
  let az111 := (ag10.mul f01).add (ag11.mul f11)
  let k1 := (m.u0.mul (Iv.ofQ pmB2x)).add (m.u1.mul (Iv.ofQ pmB2v))
  let c0 := ((Iv.ofQ pmB2x).mul s.z1a).add ((Iv.ofQ pmB2v).mul s.z1c)
  let c1 := ((Iv.ofQ pmB2x).mul s.z1b).add ((Iv.ofQ pmB2v).mul s.z1d)
  let bw0 := (c0.mul f00).add (c1.mul f10)
  let bw1 := (c0.mul f01).add (c1.mul f11)
  let z1a := (((az100.add ((g.p10.mul k1).mul d2x)).sub (g.p20.mul bw0)).add
    (g.p20.mul ((Iv.ofQ pmR12).mul g.p20))).add (Iv.ofQ 1)
  let z1b := (((az101.add ((g.p10.mul k1).mul d2v)).sub (g.p20.mul bw1)).add
    (g.p20.mul ((Iv.ofQ pmR12).mul g.p21))).add (Iv.ofQ 0)
  let z1c := (((az110.add ((g.p11.mul k1).mul d2x)).sub (g.p21.mul bw0)).add
    (g.p21.mul ((Iv.ofQ pmR12).mul g.p20))).add (Iv.ofQ 0)
  let z1d := (((az111.add ((g.p11.mul k1).mul d2v)).sub (g.p21.mul bw1)).add
    (g.p21.mul ((Iv.ofQ pmR12).mul g.p21))).add (Iv.ofQ 1)
  let ah10 := ((Iv.ofQ pmA01).mul s.z2a).add s.z2c
  let ah11 := ((Iv.ofQ pmA01).mul s.z2b).add s.z2d
  let az200 := (s.z2a.mul f00).add (s.z2b.mul f10)
  let az201 := (s.z2a.mul f01).add (s.z2b.mul f11)
  let az210 := (ah10.mul f00).add (ah11.mul f10)
  let az211 := (ah10.mul f01).add (ah11.mul f11)
  let k2 := (m.v0.mul (Iv.ofQ pmB1x)).add (m.v1.mul (Iv.ofQ pmB1v))
  let e0 := ((Iv.ofQ pmB1x).mul s.z2a).add ((Iv.ofQ pmB1v).mul s.z2c)
  let e1 := ((Iv.ofQ pmB1x).mul s.z2b).add ((Iv.ofQ pmB1v).mul s.z2d)
  let bx0 := (e0.mul f00).add (e1.mul f10)
  let bx1 := (e0.mul f01).add (e1.mul f11)
  let z2a := (((az200.add ((g.p20.mul k2).mul d1x)).sub (g.p10.mul bx0)).add
    (g.p10.mul ((Iv.ofQ pmR21).mul g.p10))).add (Iv.ofQ 2)
  let z2b := (((az201.add ((g.p20.mul k2).mul d1v)).sub (g.p10.mul bx1)).add
    (g.p10.mul ((Iv.ofQ pmR21).mul g.p11))).add (Iv.ofQ 0)
  let z2c := (((az210.add ((g.p21.mul k2).mul d1x)).sub (g.p11.mul bx0)).add
    (g.p11.mul ((Iv.ofQ pmR21).mul g.p10))).add (Iv.ofQ 0)
  let z2d := (((az211.add ((g.p21.mul k2).mul d1v)).sub (g.p11.mul bx1)).add
    (g.p11.mul ((Iv.ofQ pmR21).mul g.p11))).add (Iv.ofQ 2)
  ⟨z1a, z1b, z1c, z1d, z2a, z2b, z2c, z2d, g.p10, g.p11, g.p20, g.p21⟩

/-- Interval evaluation of the rewritten Lyapunov iteration `lyForm2`; `none` if
positivity of `s1` or `s2` cannot be certified. -/
def lyForm2Iv (s : LyIv) : Option LyIv :=
  match Iv.inv (lyMid s).s1 with
  | none => none
  | some s1i =>
    match Iv.inv (lyMid s).s2 with
    | none => none
    | some s2i => some (lyTail s (lyMid s) (lyPStage s (lyMid s) s1i s2i))

/-- `Option`-lifted Lyapunov interval advance. -/
def lyF2O (o : Option LyIv) : Option LyIv := o.bind lyForm2Iv

/-!
Certified checkpoint enclosures of the two interval orbits, at every ten
steps.  Each is verified against the preceding checkpoint by a small kernel
evaluation below; chaining them gives the enclosure of the full orbit.
-/

/-- Certified enclosure after 10 backward steps. -/
def pmC10 : PmIv :=
  ⟨⟨12160538852998505132, 12160538852998505504⟩, ⟨4774498801289997450, 4774498801289997913⟩, ⟨4774498801289997321, 4774498801289998050⟩, ⟨12095953974310302071, 12095953974310302915⟩, ⟨23739444515809452478, 23739444515809453430⟩, ⟨7828005784818344437, 7828005784818345766⟩, ⟨7828005784818344121, 7828005784818346090⟩, ⟨18647629866860121219, 18647629866860123743⟩, ⟨0, 0⟩, ⟨0, 0⟩, ⟨0, 0⟩, ⟨0, 0⟩⟩

/-- Certified enclosure after 20 backward steps. -/
def pmC20 : PmIv :=
  ⟨⟨18358870599643975267, 18358870599643981868⟩, ⟨9572777662844956293, 9572777662844961852⟩, ⟨9572777662844952175, 9572777662844965920⟩, ⟨18193917404708067105, 18193917404708078103⟩, ⟨33539232280111490096, 33539232280111518910⟩, ⟨12361454700602757246, 12361454700602781247⟩, ⟨12361454700602740568, 12361454700602797866⟩, ⟨19393067549653037289, 19393067549653081835⟩, ⟨0, 0⟩, ⟨0, 0⟩, ⟨0, 0⟩, ⟨0, 0⟩⟩

/-- Certified enclosure after 30 backward steps. -/
def pmC30 : PmIv :=
  ⟨⟨20010852682957731096, 20010852682957846602⟩, ⟨10960673941493120597, 10960673941493200106⟩, ⟨10960673941493046061, 10960673941493274665⟩, ⟨19830206740313379206, 19830206740313528850⟩, ⟨35318364691759989962, 35318364691760607360⟩, ⟨13088259314285096898, 13088259314285492759⟩, ⟨13088259314284704874, 13088259314285884812⟩, ⟨18414918350581027677, 18414918350581730263⟩, ⟨0, 0⟩, ⟨0, 0⟩, ⟨0, 0⟩, ⟨0, 0⟩⟩

/-- Certified enclosure after 40 backward steps. -/
def pmC40 : PmIv :=
  ⟨⟨20333746718962242474, 20333746718964282499⟩, ⟨11233890633200933420, 11233890633202279593⟩, ⟨11233890633199641326, 11233890633203571689⟩, ⟨20150462421621315225, 20150462421623776466⟩, ⟨35365197954576914339, 35365197954588443494⟩, ⟨13093290203851705958, 13093290203858628794⟩, ⟨13093290203844199892, 13093290203866134831⟩, ⟨18115529951911171203, 18115529951923384686⟩, ⟨0, 0⟩, ⟨0, 0⟩, ⟨0, 0⟩, ⟨0, 0⟩⟩

/-- Certified enclosure after 50 backward steps. -/
def pmC50 : PmIv :=
  ⟨⟨20393859304860178739, 20393859304896303039⟩, ⟨11284654825970874663, 11284654825994556095⟩, ⟨11284654825948191018, 11284654826017239718⟩, ⟨20209690569771188188, 20209690569814129563⟩, ⟨35279064778775704545, 35279064778982986013⟩, ⟨13028847500774087457, 13028847500896781390⟩, ⟨13028847500637879693, 13028847501032989145⟩, ⟨18012350798000193692, 18012350798217061689⟩, ⟨0, 0⟩, ⟨0, 0⟩, ⟨0, 0⟩, ⟨0, 0⟩⟩

/-- Certified enclosure after 60 backward steps. -/
def pmC60 : PmIv :=
  ⟨⟨20405027391090832476, 20405027391731320616⟩, ⟨11294241787757325848, 11294241788176824671⟩, ⟨11294241787356197383, 11294241788577953141⟩, ⟨20220940163046037760, 20220940163805136491⟩, ⟨35244427090698078238, 35244427094389035838⟩, ⟨12999536883618513296, 12999536885796080998⟩, ⟨12999536881185099709, 12999536888229494589⟩, ⟨17976757287098656159, 17976757290952755317⟩, ⟨0, 0⟩, ⟨0, 0⟩, ⟨0, 0⟩, ⟨0, 0⟩⟩

/-- Certified enclosure after 70 backward steps. -/
def pmC70 : PmIv :=
  ⟨⟨20407058348235248504, 20407058359597754813⟩, ⟨11296031891653912418, 11296031899095230686⟩, ⟨11296031884543130374, 11296031906206012741⟩, ⟨20223109332713461245, 20223109346171580026⟩, ⟨35235801031648813585, 35235801097211608932⟩, ⟨12991394908413457879, 12991394947062255299⟩, ⟨12991394865143035750, 12991394990332677409⟩, ⟨17966740503222917713, 17966740571662477111⟩, ⟨0, 0⟩, ⟨0, 0⟩, ⟨0, 0⟩, ⟨0, 0⟩⟩

/-- Certified enclosure after 80 backward steps. -/
def pmC80 : PmIv :=
  ⟨⟨20407421367364035808, 20407421568984993731⟩, ⟨11296352777798076382, 11296352909839860810⟩, ⟨11296352651650221812, 11296353035987714752⟩, ⟨20223515681162759363, 20223515919933256608⟩, ⟨35234097307466260710, 35234098471311333503⟩, ⟨12989688315517779047, 12989689001450139296⟩, ⟨12989687547157421824, 12989689769810492805⟩, ⟨17964471713188381425, 17964472928039788634⟩, ⟨0, 0⟩, ⟨0, 0⟩, ⟨0, 0⟩, ⟨0, 0⟩⟩

/-- Certified enclosure after 90 backward steps. -/
def pmC90 : PmIv :=
  ⟨⟨20407487149510949942, 20407490727458934167⟩, ⟨11296408818636568687, 11296411161854456657⟩, ⟨11296406580190473152, 11296413400300338792⟩, ⟨20223587245636998018, 20223591482673478247⟩, ⟨35233769835176232721, 35233790491464103110⟩, ⟨12989373375488911968, 12989385548918000564⟩, ⟨12989359737109986624, 12989399187295741694⟩, ⟨17964024143062843716, 17964045704462670602⟩, ⟨0, 0⟩, ⟨0, 0⟩, ⟨0, 0⟩, ⟨0, 0⟩⟩

/-- Certified enclosure after 98 backward steps. -/
def pmC98 : PmIv :=
  ⟨⟨20407483404838852408, 20407519125785567977⟩, ⟨11296408223329754868, 11296431617249808798⟩, ⟨11296385875952688463, 11296453964605601279⟩, ⟨20223580547050748142, 20223622847692965406⟩, ⟨35233617108144958587, 35233823341440956293⟩, ⟨12989265833892987062, 12989387372093575333⟩, ⟨12989129664147683588, 12989523541720833832⟩, ⟨17963854019406696078, 17964069289217836698⟩, ⟨0, 0⟩, ⟨0, 0⟩, ⟨0, 0⟩, ⟨0, 0⟩⟩

/-- Certified enclosure of the Lyapunov initialization. -/
def lyC0 : LyIv :=
  ⟨⟨1152921504606846976, 1152921504606846976⟩, ⟨0, 0⟩, ⟨0, 0⟩, ⟨1152921504606846976, 1152921504606846976⟩, ⟨2305843009213693952, 2305843009213693952⟩, ⟨0, 0⟩, ⟨0, 0⟩, ⟨2305843009213693952, 2305843009213693952⟩, ⟨5707390928971296, 5707390928971298⟩, ⟨114718557672323080, 114718557672323084⟩, ⟨7376761377157543, 7376761377157545⟩, ⟨26095293371694811, 26095293371694815⟩⟩

/-- Certified enclosure after 10 Lyapunov iterations. -/
def lyC10 : LyIv :=
  ⟨⟨12160514638525880750, 12160514638525881123⟩, ⟨4774424103459213989, 4774424103459214432⟩, ⟨4774424103459213858, 4774424103459214579⟩, ⟨12095769145427506873, 12095769145427507671⟩, ⟨23738986464891477206, 23738986464891478143⟩, ⟨7827076607158536136, 7827076607158537413⟩, ⟨7827076607158535819, 7827076607158537747⟩, ⟨18646079622262448864, 18646079622262451228⟩, ⟨422677526114462854, 422677526114462926⟩, ⟨1070967441714199872, 1070967441714199961⟩, ⟨139210284253803390, 139210284253803439⟩, ⟨214037227140014436, 214037227140014488⟩⟩

/-- Certified enclosure after 20 Lyapunov iterations. -/
def lyC20 : LyIv :=
  ⟨⟨18358783104820679620, 18358783104820685845⟩, ⟨9572505880798353576, 9572505880798358598⟩, ⟨9572505880798349672, 9572505880798362505⟩, ⟨18193292400956334228, 18193292400956344079⟩, ⟨33538719755409889564, 33538719755409916751⟩, ⟨12360912517638288373, 12360912517638310561⟩, ⟨12360912517638272590, 12360912517638326351⟩, ⟨19393003580509139344, 19393003580509180209⟩, ⟨871911489503703206, 871911489503704161⟩, ⟨1657899066541295674, 1657899066541296591⟩, ⟨219624313871271223, 219624313871271811⟩, ⟨239614820817291125, 239614820817291565⟩⟩

/-- Certified enclosure after 30 Lyapunov iterations. -/
def lyC30 : LyIv :=
  ⟨⟨20010842603126214118, 20010842603126317558⟩, ⟨10960605140105645454, 10960605140105713047⟩, ⟨10960605140105577642, 10960605140105780908⟩, ⟨19829970810301893810, 19829970810302019996⟩, ⟨35318212613002045592, 35318212613002604850⟩, ⟨13088157914196672645, 13088157914197023548⟩, ⟨13088157914196313819, 13088157914197382450⟩, ⟨18415176294903276940, 18415176294903899126⟩, ⟨1002600015999192150, 1002600015999206510⟩, ⟨1815043594496766531, 1815043594496777808⟩, ⟨233612031233574392, 233612031233585264⟩, ⟨229519074259216867, 229519074259223113⟩⟩

/-- Certified enclosure after 40 Lyapunov iterations. -/
def lyC40 : LyIv :=
  ⟨⟨20333738580089158198, 20333738580090902071⟩, ⟨11233882533963580601, 11233882533964667200⟩, ⟨11233882533962458886, 11233882533965788963⟩, ⟨20150416716236680358, 20150416716238644852⟩, ⟨35365201085814940242, 35365201085824956411⟩, ⟨13093282336359369192, 13093282336365239951⟩, ⟨13093282336352763111, 13093282336371846070⟩, ⟨18115611021233272869, 18115611021243641633⟩, ⟨1028354838671139730, 1028354838671372974⟩, ⟨1845803438631271105, 1845803438631445330⟩, ⟨233940855037608427, 233940855037801995⟩, ⟨225754208633673538, 225754208633777314⟩⟩

/-- Certified enclosure after 50 Lyapunov iterations. -/
def lyC50 : LyIv :=
  ⟨⟨20393851380599030557, 20393851380628534523⟩, ⟨11284650536633778905, 11284650536652017639⟩, ⟨11284650536614980692, 11284650536670815870⟩, ⟨20209680784895005982, 20209680784927652362⟩, ⟨35279095796506754288, 35279095796679180962⟩, ⟨13028869842518504528, 13028869842618028799⟩, ⟨13028869842403599352, 13028869842732933992⟩, ⟨18012388003537565540, 18012388003713811294⟩, ⟨1033147688861190753, 1033147688865094755⟩, ⟨1851491590795395092, 1851491590798285795⟩, ⟨232942964718163824, 232942964721504579⟩, ⟨224288310294981752, 224288310296746081⟩⟩

/-- Certified enclosure after 60 Lyapunov iterations. -/
def lyC60 : LyIv :=
  ⟨⟨20405023996442851033, 20405023996942823640⟩, ⟨11294239437880396024, 11294239438189082922⟩, ⟨11294239437562829927, 11294239438506649015⟩, ⟨20220937008985560242, 20220937009536592026⟩, ⟨35244442880289500765, 35244442883226850606⟩, ⟨12999551552863957971, 12999551554553145973⟩, ⟨12999551550899074184, 12999551556518029748⟩, ⟨17976775869527102786, 17976775872523495718⟩, ⟨1034056180094693683, 1034056180160659310⟩, ⟨1852572688515108423, 1852572688563881390⟩, ⟨232489547568760458, 232489547625761026⟩, ⟨223762726285994331, 223762726315993985⟩⟩

/-- Certified enclosure after 70 Lyapunov iterations. -/
def lyC70 : LyIv :=
  ⟨⟨20407057409203008990, 20407057417681822461⟩, ⟨11296031118303112598, 11296031123536990079⟩, ⟨11296031112922855235, 11296031128917247396⟩, ⟨20223108339085361252, 20223108348421068528⟩, ⟨35235805684744937428, 35235805734642510497⟩, ⟨12991399915108845182, 12991399943775725230⟩, ⟨12991399881688526213, 12991399977196044140⟩, ⟨17966747205499260797, 17966747256383877731⟩, ⟨1034226548779137651, 1034226549896905837⟩, ⟨1852781662292685836, 1852781663118921385⟩, ⟨232364985412345470, 232364986381215545⟩, ⟨223614293170212726, 223614293679688855⟩⟩

/-- Certified enclosure after 80 Lyapunov iterations. -/
def lyC80 : LyIv :=
  ⟨⟨20407421191139474797, 20407421334971567001⟩, ⟨11296352618124418092, 11296352706908156176⟩, ⟨11296352526883923308, 11296352798148650667⟩, ⟨20223515469944356271, 20223515628271256727⟩, ⟨35234098472971825003, 35234099319907036101⟩, ⟨12989689580592960812, 12989690067036271567⟩, ⟨12989689013104657774, 12989690634524572877⟩, ⟨17964473641344227705, 17964474504990011020⟩, ⟨1034257148861095364, 1034257167817867568⟩, ⟨1852820942795198332, 1852820956807102358⟩, ⟨232339037633771326, 232339054082217875⟩, ⟨223580859033746974, 223580867681035057⟩⟩

/-- Certified enclosure after 90 Lyapunov iterations. -/
def lyC90 : LyIv :=
  ⟨⟨20407487675478608145, 20407490115690638292⟩, ⟨11296409200896531529, 11296410707173919816⟩, ⟨11296407653102791089, 11296412254967573034⟩, ⟨20223587968249969430, 20223590654167351382⟩, ⟨35233773183834112290, 35233787555605008190⟩, ⟨12989375557790988635, 12989383811637932342⟩, ⟨12989365926738430485, 12989393442689986546⟩, ⟨17964027962259416206, 17964042617485989721⟩, ⟨1034262437431913393, 1034262759020658406⟩, ⟨1852827954643240606, 1852828192343874900⟩, ⟨232334185290964277, 232334464426069265⟩, ⟨223574373224702143, 223574519961594338⟩⟩

/-- Certified enclosure after 100 Lyapunov iterations. -/
def lyC100 : LyIv :=
  ⟨⟨20407481891781000618, 20407523293527547597⟩, ⟨11296408200552543198, 11296433756776437083⟩, ⟨11296381940953328972, 11296460016351046396⟩, ⟨20223580180133087671, 20223625749481931715⟩, ⟨35233591459968650038, 35233835315763168030⟩, ⟨12989250843265171172, 12989390888264874984⟩, ⟨12989087419267585805, 12989554312117527614⟩, ⟨17963829805719175096, 17964078470924905944⟩, ⟨1034260913500423711, 1034266369568953567⟩, ⟨1852827373535866599, 1852831406356000414⟩, ⟨232331048055036863, 232335784443926648⟩, ⟨223572012303821053, 223574502093802500⟩⟩

/-- Certified enclosure of the first-step gains. -/
def pmCG : PmGainsIv :=
  ⟨⟨1034260370866600145, 1034266822459666297⟩, ⟨1852826769672831066, 1852831901424930999⟩, ⟨232330677716169955, 232336234426919350⟩, ⟨223571305421134883, 223575306997553433⟩, ⟨0, 0⟩, ⟨0, 0⟩⟩

/-!
### Concrete instances used to exercise the general solver and driver

Small closed problem instances at which the general theorems below are
instantiated and evaluated.
-/

/-- A one-player scalar problem: `A = 1`, `B = 1`. -/
def w1lin : LinearDynamicsApproximation 1 1 (fun _ => 1) := ⟨1, fun _ => 1⟩

/-- Its quadraticization at one step: `Q = 1`, `l = 0`, `R₁₁ = 1`, `r₁₁ = 0`. -/
def w1quad : Fin 1 → QuadraticCostApproximation 1 1 (fun _ => 1) :=
  fun _ => ⟨⟨1, 0⟩, fun _ => some ⟨1, 0⟩⟩

/-- A value state `Z = 1`, `ζ = 0` for the scalar problem. -/
def w1vs : ValueState 1 1 := ⟨fun _ => 1, fun _ => 0⟩

/-- The strategy entries `P = 1/2`, `α = 0` the scalar step computes. -/
def w1step : StepStrategy 1 1 (fun _ => 1) :=
  fun _ => (Matrix.of (fun _ _ => (1 : ℚ) / 2), fun _ => 0)

/-- The updated value state `Z = 3/2`, `ζ = 0` of the scalar step. -/
def w1next : ValueState 1 1 := ⟨fun _ => Matrix.of (fun _ _ => (3 : ℚ) / 2), fun _ => 0⟩

/-- The scalar step's output as computed by `lqStep` itself, for use as a
concrete instantiation point. -/
def w1pair : StepStrategy 1 1 (fun _ => 1) × ValueState 1 1 :=
  (lqStep w1lin w1quad w1vs).getD (fun _ => (0, 0), ⟨fun _ => 0, fun _ => 0⟩)

/-- The scalar problem's own control-cost entry `R₁₁ = 1`, `r₁₁ = 0`. -/
def w1Rii : (i : Fin 1) → CostTermApprox 1 := fun _ => ⟨1, 0⟩

/-- An asymmetric per-step state Hessian. -/
def c2Q : Matrix (Fin 2) (Fin 2) ℚ := Matrix.of ![![0, 1], ![0, 0]]

/-- One-player dynamics with two states, `A = I` and `B = 0`. -/
def c2lin : LinearDynamicsApproximation 2 1 (fun _ => 1) := ⟨1, fun _ => 0⟩

/-- A step cost with the asymmetric state Hessian `c2Q`. -/
def c2quadStep : Fin 1 → QuadraticCostApproximation 2 1 (fun _ => 1) :=
  fun _ => ⟨⟨c2Q, 0⟩, fun _ => some ⟨1, 0⟩⟩

/-- A terminal cost with symmetric state Hessian `I`. -/
def c2quadTerm : Fin 1 → QuadraticCostApproximation 2 1 (fun _ => 1) :=
  fun _ => ⟨⟨1, 0⟩, fun _ => some ⟨1, 0⟩⟩

/-- Trivial driver collaborators over unit types: every solve takes zero
wall-clock time. -/
def trivOps : SimOps Unit Unit Unit :=
  ⟨fun _ _ _ _ => (), fun _ _ _ _ => (), fun _ _ _ => (), fun _ => 0, (),
   fun _ => (), (), 0⟩

/-- A trivial driver state at time `0`. -/
def trivSt : SimState Unit Unit Unit := ⟨(), 0, (), (), [], 0⟩

/-- Sliders with in-range raw fields over a single log on `[0, 1]`. -/
def c10cs : ControlSliders := ⟨1 / 2, 0, 0, [⟨0, 1, 1⟩]⟩

/-- Sliders whose raw `log_index_` is `-1` over a single log. -/
def c10bad : ControlSliders := ⟨0, 0, -1, [⟨0, 1, 1⟩]⟩

/-!
## Proofs

### Soundness of the fixed-point interval arithmetic
-/

theorem SC_pos : (0 : ℤ) < SC := by norm_num [SC]

theorem SC_posQ : (0 : ℚ) < (SC : ℤ) := by exact_mod_cast SC_pos

/-- Flooring division underestimates: `(m.fdiv k) * k ≤ m` over `ℚ`. -/
theorem fdiv_mul_le (m : ℤ) {k : ℤ} (hk : 0 < k) :
    ((m.fdiv k : ℤ) : ℚ) * (k : ℚ) ≤ (m : ℚ) := by
  have h1 := Int.fdiv_add_fmod m k
  have h2 := Int.fmod_nonneg' m hk
  have h3 : m.fdiv k * k ≤ m := by nlinarith [h1, h2]
  exact_mod_cast h3

/-- Negated flooring division overestimates: `m ≤ (-((-m).fdiv k)) * k` over `ℚ`. -/
theorem le_cdiv_mul (m : ℤ) {k : ℤ} (hk : 0 < k) :
    (m : ℚ) ≤ ((-((-m).fdiv k) : ℤ) : ℚ) * (k : ℚ) := by
  have h1 := Int.fdiv_add_fmod (-m) k
  have h2 := Int.fmod_nonneg' (-m) hk
  have h3 : m ≤ -((-m).fdiv k) * k := by nlinarith [h1, h2]
  exact_mod_cast h3

theorem Iv.mem_ofQ (q : ℚ) : Iv.mem q (Iv.ofQ q) :=
  ⟨Int.floor_le _, Int.le_ceil _⟩

theorem Iv.mem_add {x y : ℚ} {I J : Iv} (hx : Iv.mem x I) (hy : Iv.mem y J) :
    Iv.mem (x + y) (Iv.add I J) := by
  unfold Iv.mem Iv.add at *
  push_cast
  constructor
  · rw [add_mul]
    exact add_le_add hx.1 hy.1
  · rw [add_mul]
    exact add_le_add hx.2 hy.2

theorem Iv.mem_sub {x y : ℚ} {I J : Iv} (hx : Iv.mem x I) (hy : Iv.mem y J) :
    Iv.mem (x - y) (Iv.sub I J) := by
  unfold Iv.mem Iv.sub at *
  push_cast
  constructor
  · rw [sub_mul]
    exact sub_le_sub hx.1 hy.2
  · rw [sub_mul]
    exact sub_le_sub hx.2 hy.1

/-- Upper corner-product bound for products of bounded rationals. -/
theorem mul_le_corners {x y a b c d : ℚ} (ha : a ≤ x) (hb : x ≤ b) (hc : c ≤ y) (hd : y ≤ d) :
    x * y ≤ max (max (a * c) (a * d)) (max (b * c) (b * d)) := by
  rcases le_total 0 y with hy | hy
  · have h1 : x * y ≤ b * y := mul_le_mul_of_nonneg_right hb hy
    rcases le_total 0 b with hb0 | hb0
    · exact h1.trans ((mul_le_mul_of_nonneg_left hd hb0).trans
        (le_max_of_le_right (le_max_right _ _)))
    · exact h1.trans ((mul_le_mul_of_nonpos_left hc hb0).trans
        (le_max_of_le_right (le_max_left _ _)))
  · have h1 : x * y ≤ a * y := mul_le_mul_of_nonpos_right ha hy
    rcases le_total 0 a with ha0 | ha0
    · exact h1.trans ((mul_le_mul_of_nonneg_left hd ha0).trans
        (le_max_of_le_left (le_max_right _ _)))
    · exact h1.trans ((mul_le_mul_of_nonpos_left hc ha0).trans
        (le_max_of_le_left (le_max_left _ _)))

/-- Lower corner-product bound for products of bounded rationals. -/
theorem corners_le_mul {x y a b c d : ℚ} (ha : a ≤ x) (hb : x ≤ b) (hc : c ≤ y) (hd : y ≤ d) :
    min (min (a * c) (a * d)) (min (b * c) (b * d)) ≤ x * y := by
  rcases le_total 0 y with hy | hy
  · have h1 : a * y ≤ x * y := mul_le_mul_of_nonneg_right ha hy
    rcases le_total 0 a with ha0 | ha0
    · exact le_trans ((min_le_left _ _).trans (min_le_left _ _))
        ((mul_le_mul_of_nonneg_left hc ha0).trans h1)
    · exact le_trans ((min_le_left _ _).trans (min_le_right _ _))
        ((mul_le_mul_of_nonpos_left hd ha0).trans h1)
  · have h1 : b * y ≤ x * y := mul_le_mul_of_nonpos_right hb hy
    rcases le_total 0 b with hb0 | hb0
    · exact le_trans ((min_le_right _ _).trans (min_le_left _ _))
        ((mul_le_mul_of_nonneg_left hc hb0).trans h1)
    · exact le_trans ((min_le_right _ _).trans (min_le_right _ _))
        ((mul_le_mul_of_nonpos_left hd hb0).trans h1)

theorem Iv.mem_mul {x y : ℚ} {I J : Iv} (hx : Iv.mem x I) (hy : Iv.mem y J) :
    Iv.mem (x * y) (Iv.mul I J) := by
  obtain ⟨hx1, hx2⟩ := hx
  obtain ⟨hy1, hy2⟩ := hy
  have hlo : ((min4 (I.lo * J.lo) (I.lo * J.hi) (I.hi * J.lo) (I.hi * J.hi) : ℤ) : ℚ) ≤
      (x * (SC : ℤ)) * (y * (SC : ℤ)) := by
    refine le_trans (le_of_eq ?_) (corners_le_mul hx1 hx2 hy1 hy2)
    unfold min4
    push_cast
    rfl
  have hhi : (x * (SC : ℤ)) * (y * (SC : ℤ)) ≤
      ((max4 (I.lo * J.lo) (I.lo * J.hi) (I.hi * J.lo) (I.hi * J.hi) : ℤ) : ℚ) := by
    refine le_trans (mul_le_corners hx1 hx2 hy1 hy2) (le_of_eq ?_)
    unfold max4
    push_cast
    rfl
  have hsplit : (x * (SC : ℤ)) * (y * (SC : ℤ)) = (x * y * (SC : ℤ)) * (SC : ℤ) := by ring
  constructor
  · have h1 := fdiv_mul_le
      (min4 (I.lo * J.lo) (I.lo * J.hi) (I.hi * J.lo) (I.hi * J.hi)) SC_pos
    have h2 : ((fdivSC (min4 (I.lo * J.lo) (I.lo * J.hi) (I.hi * J.lo) (I.hi * J.hi)) : ℤ) : ℚ) *
        (SC : ℤ) ≤ (x * y * (SC : ℤ)) * (SC : ℤ) := by
      refine h1.trans (hlo.trans (le_of_eq hsplit))
    exact le_of_mul_le_mul_right h2 SC_posQ
  · have h1 := le_cdiv_mul
      (max4 (I.lo * J.lo) (I.lo * J.hi) (I.hi * J.lo) (I.hi * J.hi)) SC_pos
    have h2 : (x * y * (SC : ℤ)) * (SC : ℤ) ≤
        ((cdivSC (max4 (I.lo * J.lo) (I.lo * J.hi) (I.hi * J.lo) (I.hi * J.hi)) : ℤ) : ℚ) *
          (SC : ℤ) := by
      refine (le_of_eq hsplit.symm).trans (hhi.trans h1)
    exact le_of_mul_le_mul_right h2 SC_posQ

/-- Soundness of the certified-positive interval reciprocal. -/
theorem Iv.mem_inv {y : ℚ} {J K : Iv} (hy : Iv.mem y J) (h : Iv.inv J = some K) :
    Iv.mem y⁻¹ K := by
  obtain ⟨hy1, hy2⟩ := hy
  unfold Iv.inv at h
  split at h
  case isFalse => exact absurd h (by simp)
  case isTrue hpos =>
    have hKlo : K.lo = (SC * SC).fdiv J.hi := by
      cases h
      rfl
    have hKhi : K.hi = -((-(SC * SC)).fdiv J.lo) := by
      cases h
      rfl
    have hySC : (0 : ℚ) < y * (SC : ℤ) := lt_of_lt_of_le (by exact_mod_cast hpos) hy1
    have hy0 : (0 : ℚ) < y := by
      have h0 := div_pos hySC SC_posQ
      rwa [mul_div_cancel_right₀ _ (ne_of_gt SC_posQ)] at h0
    have hJhi : (0 : ℚ) < ((J.hi : ℤ) : ℚ) := lt_of_lt_of_le hySC hy2
    have hJhiZ : (0 : ℤ) < J.hi := by exact_mod_cast hJhi
    have hval : y⁻¹ * ((SC : ℤ) : ℚ) =
        ((SC : ℤ) : ℚ) * ((SC : ℤ) : ℚ) / (y * ((SC : ℤ) : ℚ)) := by
      field_simp
      ring
    constructor
    · rw [hKlo, hval]
      have h1 : (((SC * SC).fdiv J.hi : ℤ) : ℚ) ≤
          ((SC : ℤ) : ℚ) * ((SC : ℤ) : ℚ) / ((J.hi : ℤ) : ℚ) := by
        rw [le_div_iff₀ hJhi]
        refine le_of_le_of_eq (fdiv_mul_le (SC * SC) hJhiZ) ?_
        push_cast
        ring
      exact h1.trans (div_le_div_of_nonneg_left
        (le_of_lt (mul_pos SC_posQ SC_posQ)) hySC hy2)
    · rw [hKhi, hval]
      have h1 : ((SC : ℤ) : ℚ) * ((SC : ℤ) : ℚ) / ((J.lo : ℤ) : ℚ) ≤
          ((-((-(SC * SC)).fdiv J.lo) : ℤ) : ℚ) := by
        rw [div_le_iff₀ (by exact_mod_cast hpos)]
        refine le_of_eq_of_le ?_ (le_cdiv_mul (SC * SC) hpos)
        push_cast
        ring
      refine le_trans (div_le_div_of_nonneg_left (le_of_lt (mul_pos SC_posQ SC_posQ))
        (by exact_mod_cast hpos) hy1) h1

/-!
### Exact rewriting identities for the point-mass backward pass

Whenever the coupling determinant is nonzero, the Cramer gains satisfy the
linear system `S X = Y` exactly, the closed loop satisfies the stationarity
identities `BᵢᵀZᵢF = RᵢᵢPᵢ`, and therefore the solver's `Z` updates coincide
with the rewritten `pmForm2` updates.
-/

theorem pmCram00 (s : PmVal) (h : pDet s ≠ 0) :
    pS00 s * pP10 s + pS01 s * pP20 s = pY00 s := by
  rw [pP10, pP20]
  field_simp
  rw [pDet]
  ring

theorem pmCram10 (s : PmVal) (h : pDet s ≠ 0) :
    pS10 s * pP10 s + pS11 s * pP20 s = pY10 s := by
  rw [pP10, pP20]
  field_simp
  rw [pDet]
  ring

theorem pmCram01 (s : PmVal) (h : pDet s ≠ 0) :
    pS00 s * pP11 s + pS01 s * pP21 s = pY01 s := by
  rw [pP11, pP21]
  field_simp
  rw [pDet]
  ring

theorem pmCram11 (s : PmVal) (h : pDet s ≠ 0) :
    pS10 s * pP11 s + pS11 s * pP21 s = pY11 s := by
  rw [pP11, pP21]
  field_simp
  rw [pDet]
  ring

/-- Stationarity `(B₁ᵀZ₁F)₀ = R₁₁·P₁₀`. -/
theorem pmKey10 (s : PmVal) (h : pDet s ≠ 0) :
    pU0 s * pF00 s + pU1 s * pF10 s = pmR11 * pP10 s := by
  have h1 := pmCram00 s h
  rw [pS00, pS01, pY00] at h1
  rw [pF00, pF10]
  linear_combination (-1 : ℚ) * h1

/-- Stationarity `(B₁ᵀZ₁F)₁ = R₁₁·P₁₁`. -/
theorem pmKey11 (s : PmVal) (h : pDet s ≠ 0) :
    pU0 s * pF01 s + pU1 s * pF11 s = pmR11 * pP11 s := by
  have h1 := pmCram01 s h
  rw [pS00, pS01, pY01] at h1
  rw [pF01, pF11]
  linear_combination (-1 : ℚ) * h1

/-- Stationarity `(B₂ᵀZ₂F)₀ = R₂₂·P₂₀`. -/
theorem pmKey20 (s : PmVal) (h : pDet s ≠ 0) :
    pV0 s * pF00 s + pV1 s * pF10 s = pmR22 * pP20 s := by
  have h1 := pmCram10 s h
  rw [pS10, pS11, pY10] at h1
  rw [pF00, pF10]
  linear_combination (-1 : ℚ) * h1

/-- Stationarity `(B₂ᵀZ₂F)₁ = R₂₂·P₂₁`. -/
theorem pmKey21 (s : PmVal) (h : pDet s ≠ 0) :
    pV0 s * pF01 s + pV1 s * pF11 s = pmR22 * pP21 s := by
  have h1 := pmCram11 s h
  rw [pS10, pS11, pY11] at h1
  rw [pF01, pF11]
  linear_combination (-1 : ℚ) * h1

theorem pZ1a_rw (s : PmVal) (h : pDet s ≠ 0) : pZ1a s = pFZ1a s := by
  have hk := pmKey10 s h
  rw [pU0, pU1, pF00, pF10] at hk
  rw [pZ1a, pFZ1a, pAz100, pBW0, pC0, pC1, pW1a, pW1b, pF00, pF10]
  linear_combination (-(pP10 s)) * hk

theorem pZ1b_rw (s : PmVal) (h : pDet s ≠ 0) : pZ1b s = pFZ1b s := by
  have hk := pmKey11 s h
  rw [pU0, pU1, pF01, pF11] at hk
  rw [pZ1b, pFZ1b, pAz101, pBW1, pC0, pC1, pW1a, pW1b, pF00, pF01, pF10, pF11]
  linear_combination (-(pP10 s)) * hk

theorem pZ1c_rw (s : PmVal) (h : pDet s ≠ 0) : pZ1c s = pFZ1c s := by
  have hk := pmKey10 s h
  rw [pU0, pU1, pF00, pF10] at hk
  rw [pZ1c, pFZ1c, pAz110, pAG10, pAG11, pBW0, pC0, pC1, pW1c, pW1d, pF00, pF01, pF10, pF11]
  linear_combination (-(pP11 s)) * hk

theorem pZ1d_rw (s : PmVal) (h : pDet s ≠ 0) : pZ1d s = pFZ1d s := by
  have hk := pmKey11 s h
  rw [pU0, pU1, pF01, pF11] at hk
  rw [pZ1d, pFZ1d, pAz111, pAG10, pAG11, pBW1, pC0, pC1, pW1c, pW1d, pF01, pF11]
  linear_combination (-(pP11 s)) * hk

theorem pZ2a_rw (s : PmVal) (h : pDet s ≠ 0) : pZ2a s = pFZ2a s := by
  have hk := pmKey20 s h
  rw [pV0, pV1, pF00, pF10] at hk
  rw [pZ2a, pFZ2a, pAz200, pBX0, pE0, pE1, pW2a, pW2b, pF00, pF10]
  linear_combination (-(pP20 s)) * hk

theorem pZ2b_rw (s : PmVal) (h : pDet s ≠ 0) : pZ2b s = pFZ2b s := by
  have hk := pmKey21 s h
  rw [pV0, pV1, pF01, pF11] at hk
  rw [pZ2b, pFZ2b, pAz201, pBX1, pE0, pE1, pW2a, pW2b, pF00, pF01, pF10, pF11]
  linear_combination (-(pP20 s)) * hk

theorem pZ2c_rw (s : PmVal) (h : pDet s ≠ 0) : pZ2c s = pFZ2c s := by
  have hk := pmKey20 s h
  rw [pV0, pV1, pF00, pF10] at hk
  rw [pZ2c, pFZ2c, pAz210, pAH10, pAH11, pBX0, pE0, pE1, pW2c, pW2d, pF00, pF01, pF10, pF11]
  linear_combination (-(pP21 s)) * hk

theorem pZ2d_rw (s : PmVal) (h : pDet s ≠ 0) : pZ2d s = pFZ2d s := by
  have hk := pmKey21 s h
  rw [pV0, pV1, pF01, pF11] at hk
  rw [pZ2d, pFZ2d, pAz211, pAH10, pAH11, pBX1, pE0, pE1, pW2c, pW2d, pF01, pF11]
  linear_combination (-(pP21 s)) * hk

/-- On an invertible coupling matrix, the solver's value-state update equals
the rewritten update. -/
theorem pmForm2_eq (s : PmVal) (h : pDet s ≠ 0) : pmNext s = pmForm2 s := by
  rw [pmNext, pmStep, pmForm2]
  rw [PmVal.mk.injEq]
  exact ⟨pZ1a_rw s h, pZ1b_rw s h, pZ1c_rw s h, pZ1d_rw s h,
    pZ2a_rw s h, pZ2b_rw s h, pZ2c_rw s h, pZ2d_rw s h, rfl, rfl, rfl, rfl⟩

/-!
### Exact rewriting identities for the Lyapunov iteration
-/

theorem lyCram10 (s : LyVal) (h : lS1 s ≠ 0) :
    lS1 s * lP10 s = lU0 s * lM00 s + lU1 s * lM10 s := by
  rw [lP10, mul_div_cancel₀ _ h]

theorem lyCram11 (s : LyVal) (h : lS1 s ≠ 0) :
    lS1 s * lP11 s = lU0 s * lM01 s + lU1 s * lM11 s := by
  rw [lP11, mul_div_cancel₀ _ h]

theorem lyCram20 (s : LyVal) (h : lS2 s ≠ 0) :
    lS2 s * lP20 s = lV0 s * lN00 s + lV1 s * lN10 s := by
  rw [lP20, mul_div_cancel₀ _ h]

theorem lyCram21 (s : LyVal) (h : lS2 s ≠ 0) :
    lS2 s * lP21 s = lV0 s * lN01 s + lV1 s * lN11 s := by
  rw [lP21, mul_div_cancel₀ _ h]

/-- Stationarity of the new `P₁`: `(B₁ᵀZ₁F)₀ = R₁₁P₁₀ - (B₁ᵀZ₁B₂)·d₂ₓ`. -/
theorem lyKey10 (s : LyVal) (h : lS1 s ≠ 0) :
    lU0 s * lF00 s + lU1 s * lF10 s = pmR11 * lP10 s - lK1 s * lD2x s := by
  have h1 := lyCram10 s h
  rw [lS1, lM00, lM10] at h1
  rw [lF00, lF10, lK1, lD2x]
  linear_combination (-1 : ℚ) * h1

/-- Stationarity of the new `P₁`: `(B₁ᵀZ₁F)₁ = R₁₁P₁₁ - (B₁ᵀZ₁B₂)·d₂ᵥ`. -/
theorem lyKey11 (s : LyVal) (h : lS1 s ≠ 0) :
    lU0 s * lF01 s + lU1 s * lF11 s = pmR11 * lP11 s - lK1 s * lD2v s := by
  have h1 := lyCram11 s h
  rw [lS1, lM01, lM11] at h1
  rw [lF01, lF11, lK1, lD2v]
  linear_combination (-1 : ℚ) * h1

/-- Stationarity of the new `P₂`: `(B₂ᵀZ₂F)₀ = R₂₂P₂₀ - (B₂ᵀZ₂B₁)·d₁ₓ`. -/
theorem lyKey20 (s : LyVal) (h : lS2 s ≠ 0) :
    lV0 s * lF00 s + lV1 s * lF10 s = pmR22 * lP20 s - lK2 s * lD1x s := by
  have h1 := lyCram20 s h
  rw [lS2, lN00, lN10] at h1
  rw [lF00, lF10, lK2, lD1x]
  linear_combination (-1 : ℚ) * h1

/-- Stationarity of the new `P₂`: `(B₂ᵀZ₂F)₁ = R₂₂P₂₁ - (B₂ᵀZ₂B₁)·d₁ᵥ`. -/
theorem lyKey21 (s : LyVal) (h : lS2 s ≠ 0) :
    lV0 s * lF01 s + lV1 s * lF11 s = pmR22 * lP21 s - lK2 s * lD1v s := by
  have h1 := lyCram21 s h
  rw [lS2, lN01, lN11] at h1
  rw [lF01, lF11, lK2, lD1v]
  linear_combination (-1 : ℚ) * h1

theorem lZ1a_rw (s : LyVal) (h : lS1 s ≠ 0) : lZ1a s = lFZ1a s := by
  have hk := lyKey10 s h
  rw [lK1, lD2x, lU0, lU1, lF00, lF10] at hk
  rw [lZ1a, lFZ1a, lAz100, lBW0, lC0, lC1, lW1a, lW1b, lK1, lD2x, lU0, lU1, lF00, lF10]
  linear_combination (-(lP10 s)) * hk

theorem lZ1b_rw (s : LyVal) (h : lS1 s ≠ 0) : lZ1b s = lFZ1b s := by
  have hk := lyKey11 s h
  rw [lK1, lD2v, lU0, lU1, lF01, lF11] at hk
  rw [lZ1b, lFZ1b, lAz101, lBW1, lC0, lC1, lW1a, lW1b, lK1, lD2v, lU0, lU1, lF00, lF01, lF10, lF11]
  linear_combination (-(lP10 s)) * hk

theorem lZ1c_rw (s : LyVal) (h : lS1 s ≠ 0) : lZ1c s = lFZ1c s := by
  have hk := lyKey10 s h
  rw [lK1, lD2x, lU0, lU1, lF00, lF10] at hk
  rw [lZ1c, lFZ1c, lAz110, lAG10, lAG11, lBW0, lC0, lC1, lW1c, lW1d, lK1, lD2x, lU0, lU1,
    lF00, lF01, lF10, lF11]
  linear_combination (-(lP11 s)) * hk

theorem lZ1d_rw (s : LyVal) (h : lS1 s ≠ 0) : lZ1d s = lFZ1d s := by
  have hk := lyKey11 s h
  rw [lK1, lD2v, lU0, lU1, lF01, lF11] at hk
  rw [lZ1d, lFZ1d, lAz111, lAG10, lAG11, lBW1, lC0, lC1, lW1c, lW1d, lK1, lD2v, lU0, lU1,
    lF01, lF11]
  linear_combination (-(lP11 s)) * hk

theorem lZ2a_rw (s : LyVal) (h : lS2 s ≠ 0) : lZ2a s = lFZ2a s := by
  have hk := lyKey20 s h
  rw [lK2, lD1x, lV0, lV1, lF00, lF10] at hk
  rw [lZ2a, lFZ2a, lAz200, lBX0, lE0, lE1, lW2a, lW2b, lK2, lD1x, lV0, lV1, lF00, lF10]
  linear_combination (-(lP20 s)) * hk

theorem lZ2b_rw (s : LyVal) (h : lS2 s ≠ 0) : lZ2b s = lFZ2b s := by
  have hk := lyKey21 s h
  rw [lK2, lD1v, lV0, lV1, lF01, lF11] at hk
  rw [lZ2b, lFZ2b, lAz201, lBX1, lE0, lE1, lW2a, lW2b, lK2, lD1v, lV0, lV1, lF00, lF01, lF10, lF11]
  linear_combination (-(lP20 s)) * hk

theorem lZ2c_rw (s : LyVal) (h : lS2 s ≠ 0) : lZ2c s = lFZ2c s := by
  have hk := lyKey20 s h
  rw [lK2, lD1x, lV0, lV1, lF00, lF10] at hk
  rw [lZ2c, lFZ2c, lAz210, lAH10, lAH11, lBX0, lE0, lE1, lW2c, lW2d, lK2, lD1x, lV0, lV1,
    lF00, lF01, lF10, lF11]
  linear_combination (-(lP21 s)) * hk

theorem lZ2d_rw (s : LyVal) (h : lS2 s ≠ 0) : lZ2d s = lFZ2d s := by
  have hk := lyKey21 s h
  rw [lK2, lD1v, lV0, lV1, lF01, lF11] at hk
  rw [lZ2d, lFZ2d, lAz211, lAH10, lAH11, lBX1, lE0, lE1, lW2c, lW2d, lK2, lD1v, lV0, lV1,
    lF01, lF11]
  linear_combination (-(lP21 s)) * hk

/-- On nonzero scalar solve denominators, the Lyapunov iteration equals its
rewritten form. -/
theorem lyForm2_eq (s : LyVal) (h1 : lS1 s ≠ 0) (h2 : lS2 s ≠ 0) :
    lyStep s = lyForm2 s := by
  rw [lyStep, lyForm2]
  rw [LyVal.mk.injEq]
  exact ⟨lZ1a_rw s h1, lZ1b_rw s h1, lZ1c_rw s h1, lZ1d_rw s h1,
    lZ2a_rw s h2, lZ2b_rw s h2, lZ2c_rw s h2, lZ2d_rw s h2, rfl, rfl, rfl, rfl⟩


/-!
### Interval walk: soundness of the staged interval evaluators
-/

/-- A value contained in an interval whose certified reciprocal exists is
strictly positive. -/
theorem Iv.pos_of_inv {y : ℚ} {J K : Iv} (hy : Iv.mem y J) (h : Iv.inv J = some K) :
    0 < y := by
  unfold Iv.inv at h
  split at h
  case isFalse => exact absurd h (by simp)
  case isTrue hpos =>
    have hySC : (0 : ℚ) < y * (SC : ℤ) := lt_of_lt_of_le (by exact_mod_cast hpos) hy.1
    have h0 := div_pos hySC SC_posQ
    rwa [mul_div_cancel_right₀ _ (ne_of_gt SC_posQ)] at h0

/-- The first interval stage encloses the exact intermediate quantities. -/
theorem pmMid_sound {s : PmVal} {S : PmIv} (hm : PmIv.memV s S) :
    Iv.mem (pU0 s) (pmMid S).u0 ∧ Iv.mem (pU1 s) (pmMid S).u1 ∧
    Iv.mem (pV0 s) (pmMid S).v0 ∧ Iv.mem (pV1 s) (pmMid S).v1 ∧
    Iv.mem (pS00 s) (pmMid S).s00 ∧ Iv.mem (pS01 s) (pmMid S).s01 ∧
    Iv.mem (pS10 s) (pmMid S).s10 ∧ Iv.mem (pS11 s) (pmMid S).s11 ∧
    Iv.mem (pY00 s) (pmMid S).y00 ∧ Iv.mem (pY01 s) (pmMid S).y01 ∧
    Iv.mem (pY02 s) (pmMid S).y02 ∧ Iv.mem (pY10 s) (pmMid S).y10 ∧
    Iv.mem (pY11 s) (pmMid S).y11 ∧ Iv.mem (pY12 s) (pmMid S).y12 ∧
    Iv.mem (pDet s) (pmMid S).det := by
  obtain ⟨h1, h2, h3, h4, h5, h6, h7, h8, h9, h10, h11, h12⟩ := hm
  have hu0 := Iv.mem_add (Iv.mem_mul (Iv.mem_ofQ pmB1x) h1) (Iv.mem_mul (Iv.mem_ofQ pmB1v) h3)
  have hu1 := Iv.mem_add (Iv.mem_mul (Iv.mem_ofQ pmB1x) h2) (Iv.mem_mul (Iv.mem_ofQ pmB1v) h4)
  have hv0 := Iv.mem_add (Iv.mem_mul (Iv.mem_ofQ pmB2x) h5) (Iv.mem_mul (Iv.mem_ofQ pmB2v) h7)
  have hv1 := Iv.mem_add (Iv.mem_mul (Iv.mem_ofQ pmB2x) h6) (Iv.mem_mul (Iv.mem_ofQ pmB2v) h8)
  have hs00 := Iv.mem_add (Iv.mem_add (Iv.mem_mul hu0 (Iv.mem_ofQ pmB1x))
    (Iv.mem_mul hu1 (Iv.mem_ofQ pmB1v))) (Iv.mem_ofQ pmR11)
  have hs01 := Iv.mem_add (Iv.mem_mul hu0 (Iv.mem_ofQ pmB2x)) (Iv.mem_mul hu1 (Iv.mem_ofQ pmB2v))
  have hs10 := Iv.mem_add (Iv.mem_mul hv0 (Iv.mem_ofQ pmB1x)) (Iv.mem_mul hv1 (Iv.mem_ofQ pmB1v))
  have hs11 := Iv.mem_add (Iv.mem_add (Iv.mem_mul hv0 (Iv.mem_ofQ pmB2x))
    (Iv.mem_mul hv1 (Iv.mem_ofQ pmB2v))) (Iv.mem_ofQ pmR22)
  have hdet := Iv.mem_sub (Iv.mem_mul hs00 hs11) (Iv.mem_mul hs01 hs10)
  refine ⟨?_, ?_, ?_, ?_, ?_, ?_, ?_, ?_, ?_, ?_, ?_, ?_, ?_, ?_, ?_⟩
  · simp only [pmMid]
    rw [pU0]
    exact hu0
  · simp only [pmMid]
    rw [pU1]
    exact hu1
  · simp only [pmMid]
    rw [pV0]
    exact hv0
  · simp only [pmMid]
    rw [pV1]
    exact hv1
  · simp only [pmMid]
    rw [pS00, pU0, pU1]
    exact hs00
  · simp only [pmMid]
    rw [pS01, pU0, pU1]
    exact hs01
  · simp only [pmMid]
    rw [pS10, pV0, pV1]
    exact hs10
  · simp only [pmMid]
    rw [pS11, pV0, pV1]
    exact hs11
  · simp only [pmMid]
    rw [pY00, pU0]
    exact hu0
  · simp only [pmMid]
    rw [pY01, pU0, pU1]
    exact Iv.mem_add (Iv.mem_mul hu0 (Iv.mem_ofQ pmA01)) hu1
  · simp only [pmMid]
    rw [pY02]
    exact Iv.mem_add (Iv.mem_add (Iv.mem_mul (Iv.mem_ofQ pmB1x) h9)
      (Iv.mem_mul (Iv.mem_ofQ pmB1v) h10)) (Iv.mem_ofQ pmr11)
  · simp only [pmMid]
    rw [pY10, pV0]
    exact hv0
  · simp only [pmMid]
    rw [pY11, pV0, pV1]
    exact Iv.mem_add (Iv.mem_mul hv0 (Iv.mem_ofQ pmA01)) hv1
  · simp only [pmMid]
    rw [pY12]
    exact Iv.mem_add (Iv.mem_add (Iv.mem_mul (Iv.mem_ofQ pmB2x) h11)
      (Iv.mem_mul (Iv.mem_ofQ pmB2v) h12)) (Iv.mem_ofQ pmr22)
  · simp only [pmMid]
    rw [pDet, pS00, pS01, pS10, pS11, pU0, pU1, pV0, pV1]
    exact hdet


/-- The Cramer gains stage encloses the exact solved gains. -/
theorem pmGainsStage_sound {s : PmVal} {m : PmMidIv} {dinv : Iv}
    (hs00 : Iv.mem (pS00 s) m.s00) (hs01 : Iv.mem (pS01 s) m.s01)
    (hs10 : Iv.mem (pS10 s) m.s10) (hs11 : Iv.mem (pS11 s) m.s11)
    (hy00 : Iv.mem (pY00 s) m.y00) (hy01 : Iv.mem (pY01 s) m.y01)
    (hy02 : Iv.mem (pY02 s) m.y02) (hy10 : Iv.mem (pY10 s) m.y10)
    (hy11 : Iv.mem (pY11 s) m.y11) (hy12 : Iv.mem (pY12 s) m.y12)
    (hdet : Iv.mem (pDet s) m.det) (hinv : Iv.inv m.det = some dinv) :
    PmGainsIv.memG ⟨pP10 s, pP11 s, pP20 s, pP21 s, pA1 s, pA2 s⟩ (pmGainsStage m dinv) := by
  have hdi := Iv.mem_inv hdet hinv
  refine ⟨?_, ?_, ?_, ?_, ?_, ?_⟩
  · simp only [pmGainsStage]
    rw [pP10, div_eq_mul_inv]
    exact Iv.mem_mul (Iv.mem_sub (Iv.mem_mul hs11 hy00) (Iv.mem_mul hs01 hy10)) hdi
  · simp only [pmGainsStage]
    rw [pP11, div_eq_mul_inv]
    exact Iv.mem_mul (Iv.mem_sub (Iv.mem_mul hs11 hy01) (Iv.mem_mul hs01 hy11)) hdi
  · simp only [pmGainsStage]
    rw [pP20, div_eq_mul_inv]
    exact Iv.mem_mul (Iv.mem_sub (Iv.mem_mul hs00 hy10) (Iv.mem_mul hs10 hy00)) hdi
  · simp only [pmGainsStage]
    rw [pP21, div_eq_mul_inv]
    exact Iv.mem_mul (Iv.mem_sub (Iv.mem_mul hs00 hy11) (Iv.mem_mul hs10 hy01)) hdi
  · simp only [pmGainsStage]
    rw [pA1, div_eq_mul_inv]
    exact Iv.mem_mul (Iv.mem_sub (Iv.mem_mul hs11 hy02) (Iv.mem_mul hs01 hy12)) hdi
  · simp only [pmGainsStage]
    rw [pA2, div_eq_mul_inv]
    exact Iv.mem_mul (Iv.mem_sub (Iv.mem_mul hs00 hy12) (Iv.mem_mul hs10 hy02)) hdi


/-- The tail interval stage encloses the rewritten exact step `pmForm2`,
given enclosures of the current value state and of the solved gains. -/
theorem pmTail_sound {s : PmVal} {S : PmIv} {G : PmGainsIv} (hm : PmIv.memV s S)
    (hp10 : Iv.mem (pP10 s) G.p10) (hp11 : Iv.mem (pP11 s) G.p11)
    (hp20 : Iv.mem (pP20 s) G.p20) (hp21 : Iv.mem (pP21 s) G.p21)
    (ha1 : Iv.mem (pA1 s) G.a1) (ha2 : Iv.mem (pA2 s) G.a2) :
    PmIv.memV (pmForm2 s) (pmTail S G) := by
  obtain ⟨h1, h2, h3, h4, h5, h6, h7, h8, h9, h10, h11, h12⟩ := hm
  have hf00 := Iv.mem_sub (Iv.mem_ofQ 1)
    (Iv.mem_add (Iv.mem_mul (Iv.mem_ofQ pmB1x) hp10) (Iv.mem_mul (Iv.mem_ofQ pmB2x) hp20))
  have hf01 := Iv.mem_sub (Iv.mem_ofQ pmA01)
    (Iv.mem_add (Iv.mem_mul (Iv.mem_ofQ pmB1x) hp11) (Iv.mem_mul (Iv.mem_ofQ pmB2x) hp21))
  have hf10 := Iv.mem_sub (Iv.mem_ofQ 0)
    (Iv.mem_add (Iv.mem_mul (Iv.mem_ofQ pmB1v) hp10) (Iv.mem_mul (Iv.mem_ofQ pmB2v) hp20))
  have hf11 := Iv.mem_sub (Iv.mem_ofQ 1)
    (Iv.mem_add (Iv.mem_mul (Iv.mem_ofQ pmB1v) hp11) (Iv.mem_mul (Iv.mem_ofQ pmB2v) hp21))
  have hbx := Iv.mem_sub (Iv.mem_ofQ 0)
    (Iv.mem_add (Iv.mem_mul (Iv.mem_ofQ pmB1x) ha1) (Iv.mem_mul (Iv.mem_ofQ pmB2x) ha2))
  have hbv := Iv.mem_sub (Iv.mem_ofQ 0)
    (Iv.mem_add (Iv.mem_mul (Iv.mem_ofQ pmB1v) ha1) (Iv.mem_mul (Iv.mem_ofQ pmB2v) ha2))
  have hg1x := Iv.mem_add h9 (Iv.mem_add (Iv.mem_mul h1 hbx) (Iv.mem_mul h2 hbv))
  have hg1v := Iv.mem_add h10 (Iv.mem_add (Iv.mem_mul h3 hbx) (Iv.mem_mul h4 hbv))
  have hg2x := Iv.mem_add h11 (Iv.mem_add (Iv.mem_mul h5 hbx) (Iv.mem_mul h6 hbv))
  have hg2v := Iv.mem_add h12 (Iv.mem_add (Iv.mem_mul h7 hbx) (Iv.mem_mul h8 hbv))
  have hag10 := Iv.mem_add (Iv.mem_mul (Iv.mem_ofQ pmA01) h1) h3
  have hag11 := Iv.mem_add (Iv.mem_mul (Iv.mem_ofQ pmA01) h2) h4
  have haz100 := Iv.mem_add (Iv.mem_mul h1 hf00) (Iv.mem_mul h2 hf10)
  have haz101 := Iv.mem_add (Iv.mem_mul h1 hf01) (Iv.mem_mul h2 hf11)
  have haz110 := Iv.mem_add (Iv.mem_mul hag10 hf00) (Iv.mem_mul hag11 hf10)
  have haz111 := Iv.mem_add (Iv.mem_mul hag10 hf01) (Iv.mem_mul hag11 hf11)
  have hc0 := Iv.mem_add (Iv.mem_mul (Iv.mem_ofQ pmB2x) h1) (Iv.mem_mul (Iv.mem_ofQ pmB2v) h3)
  have hc1 := Iv.mem_add (Iv.mem_mul (Iv.mem_ofQ pmB2x) h2) (Iv.mem_mul (Iv.mem_ofQ pmB2v) h4)
  have hbw0 := Iv.mem_add (Iv.mem_mul hc0 hf00) (Iv.mem_mul hc1 hf10)
  have hbw1 := Iv.mem_add (Iv.mem_mul hc0 hf01) (Iv.mem_mul hc1 hf11)
  have hah10 := Iv.mem_add (Iv.mem_mul (Iv.mem_ofQ pmA01) h5) h7
  have hah11 := Iv.mem_add (Iv.mem_mul (Iv.mem_ofQ pmA01) h6) h8
  have haz200 := Iv.mem_add (Iv.mem_mul h5 hf00) (Iv.mem_mul h6 hf10)
  have haz201 := Iv.mem_add (Iv.mem_mul h5 hf01) (Iv.mem_mul h6 hf11)
  have haz210 := Iv.mem_add (Iv.mem_mul hah10 hf00) (Iv.mem_mul hah11 hf10)
  have haz211 := Iv.mem_add (Iv.mem_mul hah10 hf01) (Iv.mem_mul hah11 hf11)
  have he0 := Iv.mem_add (Iv.mem_mul (Iv.mem_ofQ pmB1x) h5) (Iv.mem_mul (Iv.mem_ofQ pmB1v) h7)
  have he1 := Iv.mem_add (Iv.mem_mul (Iv.mem_ofQ pmB1x) h6) (Iv.mem_mul (Iv.mem_ofQ pmB1v) h8)
  have hbx0 := Iv.mem_add (Iv.mem_mul he0 hf00) (Iv.mem_mul he1 hf10)
  have hbx1 := Iv.mem_add (Iv.mem_mul he0 hf01) (Iv.mem_mul he1 hf11)
  refine ⟨?_, ?_, ?_, ?_, ?_, ?_, ?_, ?_, ?_, ?_, ?_, ?_⟩
  · simp only [pmForm2, pmTail]
    rw [pFZ1a, pAz100, pBW0, pC0, pC1, pF00, pF10]
    exact Iv.mem_add (Iv.mem_add (Iv.mem_sub haz100 (Iv.mem_mul hp20 hbw0))
      (Iv.mem_mul hp20 (Iv.mem_mul (Iv.mem_ofQ pmR12) hp20))) (Iv.mem_ofQ 1)
  · simp only [pmForm2, pmTail]
    rw [pFZ1b, pAz101, pBW1, pC0, pC1, pF01, pF11]
    exact Iv.mem_add (Iv.mem_add (Iv.mem_sub haz101 (Iv.mem_mul hp20 hbw1))
      (Iv.mem_mul hp20 (Iv.mem_mul (Iv.mem_ofQ pmR12) hp21))) (Iv.mem_ofQ 0)
  · simp only [pmForm2, pmTail]
    rw [pFZ1c, pAz110, pAG10, pAG11, pBW0, pC0, pC1, pF00, pF10]
    exact Iv.mem_add (Iv.mem_add (Iv.mem_sub haz110 (Iv.mem_mul hp21 hbw0))
      (Iv.mem_mul hp21 (Iv.mem_mul (Iv.mem_ofQ pmR12) hp20))) (Iv.mem_ofQ 0)
  · simp only [pmForm2, pmTail]
    rw [pFZ1d, pAz111, pAG10, pAG11, pBW1, pC0, pC1, pF01, pF11]
    exact Iv.mem_add (Iv.mem_add (Iv.mem_sub haz111 (Iv.mem_mul hp21 hbw1))
      (Iv.mem_mul hp21 (Iv.mem_mul (Iv.mem_ofQ pmR12) hp21))) (Iv.mem_ofQ 1)
  · simp only [pmForm2, pmTail]
    rw [pFZ2a, pAz200, pBX0, pE0, pE1, pF00, pF10]
    exact Iv.mem_add (Iv.mem_add (Iv.mem_sub haz200 (Iv.mem_mul hp10 hbx0))
      (Iv.mem_mul hp10 (Iv.mem_mul (Iv.mem_ofQ pmR21) hp10))) (Iv.mem_ofQ 2)
  · simp only [pmForm2, pmTail]
    rw [pFZ2b, pAz201, pBX1, pE0, pE1, pF01, pF11]
    exact Iv.mem_add (Iv.mem_add (Iv.mem_sub haz201 (Iv.mem_mul hp10 hbx1))
      (Iv.mem_mul hp10 (Iv.mem_mul (Iv.mem_ofQ pmR21) hp11))) (Iv.mem_ofQ 0)
  · simp only [pmForm2, pmTail]
    rw [pFZ2c, pAz210, pAH10, pAH11, pBX0, pE0, pE1, pF00, pF10]
    exact Iv.mem_add (Iv.mem_add (Iv.mem_sub haz210 (Iv.mem_mul hp11 hbx0))
      (Iv.mem_mul hp11 (Iv.mem_mul (Iv.mem_ofQ pmR21) hp10))) (Iv.mem_ofQ 0)
  · simp only [pmForm2, pmTail]
    rw [pFZ2d, pAz211, pAH10, pAH11, pBX1, pE0, pE1, pF01, pF11]
    exact Iv.mem_add (Iv.mem_add (Iv.mem_sub haz211 (Iv.mem_mul hp11 hbx1))
      (Iv.mem_mul hp11 (Iv.mem_mul (Iv.mem_ofQ pmR21) hp11))) (Iv.mem_ofQ 2)
  · simp only [pmForm2, pmTail]
    rw [pT1x, pG1x, pG1v, pBx, pBv, pF00, pF10]
    exact Iv.mem_add (Iv.mem_add (Iv.mem_add (Iv.mem_mul hf00 hg1x) (Iv.mem_mul hf10 hg1v))
        (Iv.mem_ofQ pml1x))
      (Iv.mem_add (Iv.mem_mul hp10 (Iv.mem_sub (Iv.mem_mul (Iv.mem_ofQ pmR11) ha1) (Iv.mem_ofQ pmr11)))
        (Iv.mem_mul hp20 (Iv.mem_sub (Iv.mem_mul (Iv.mem_ofQ pmR12) ha2) (Iv.mem_ofQ pmr12))))
  · simp only [pmForm2, pmTail]
    rw [pT1v, pG1x, pG1v, pBx, pBv, pF01, pF11]
    exact Iv.mem_add (Iv.mem_add (Iv.mem_add (Iv.mem_mul hf01 hg1x) (Iv.mem_mul hf11 hg1v))
        (Iv.mem_ofQ pml1v))
      (Iv.mem_add (Iv.mem_mul hp11 (Iv.mem_sub (Iv.mem_mul (Iv.mem_ofQ pmR11) ha1) (Iv.mem_ofQ pmr11)))
        (Iv.mem_mul hp21 (Iv.mem_sub (Iv.mem_mul (Iv.mem_ofQ pmR12) ha2) (Iv.mem_ofQ pmr12))))
  · simp only [pmForm2, pmTail]
    rw [pT2x, pG2x, pG2v, pBx, pBv, pF00, pF10]
    exact Iv.mem_add (Iv.mem_add (Iv.mem_add (Iv.mem_mul hf00 hg2x) (Iv.mem_mul hf10 hg2v))
        (Iv.mem_ofQ pml2x))
      (Iv.mem_add (Iv.mem_mul hp10 (Iv.mem_sub (Iv.mem_mul (Iv.mem_ofQ pmR21) ha1) (Iv.mem_ofQ pmr21)))
        (Iv.mem_mul hp20 (Iv.mem_sub (Iv.mem_mul (Iv.mem_ofQ pmR22) ha2) (Iv.mem_ofQ pmr22))))
  · simp only [pmForm2, pmTail]
    rw [pT2v, pG2x, pG2v, pBx, pBv, pF01, pF11]
    exact Iv.mem_add (Iv.mem_add (Iv.mem_add (Iv.mem_mul hf01 hg2x) (Iv.mem_mul hf11 hg2v))
        (Iv.mem_ofQ pml2v))
      (Iv.mem_add (Iv.mem_mul hp11 (Iv.mem_sub (Iv.mem_mul (Iv.mem_ofQ pmR21) ha1) (Iv.mem_ofQ pmr21)))
        (Iv.mem_mul hp21 (Iv.mem_sub (Iv.mem_mul (Iv.mem_ofQ pmR22) ha2) (Iv.mem_ofQ pmr22))))


/-- One certified interval step of `pmForm2Iv` encloses one exact step of the
backward pass. -/
theorem pmForm2Iv_sound {s : PmVal} {S S2 : PmIv} (hm : PmIv.memV s S)
    (h : pmForm2Iv S = some S2) : PmIv.memV (pmNext s) S2 := by
  obtain ⟨hu0, hu1, hv0, hv1, hs00, hs01, hs10, hs11,
    hy00, hy01, hy02, hy10, hy11, hy12, hdet⟩ := pmMid_sound hm
  unfold pmForm2Iv at h
  split at h
  case h_1 => exact absurd h (by simp)
  case h_2 dinv hinv =>
    have hS2 : pmTail S (pmGainsStage (pmMid S) dinv) = S2 := by
      injection h
    have hdne : pDet s ≠ 0 := ne_of_gt (Iv.pos_of_inv hdet hinv)
    obtain ⟨hp10, hp11, hp20, hp21, ha1, ha2⟩ :=
      pmGainsStage_sound hs00 hs01 hs10 hs11 hy00 hy01 hy02 hy10 hy11 hy12 hdet hinv
    rw [pmForm2_eq s hdne, ← hS2]
    exact pmTail_sound hm hp10 hp11 hp20 hp21 ha1 ha2

/-- The certified gain extraction encloses the exact strategy entries of one
backward-pass step. -/
theorem pmGainsIvOf_sound {s : PmVal} {S : PmIv} {G : PmGainsIv} (hm : PmIv.memV s S)
    (h : pmGainsIvOf S = some G) : PmGainsIv.memG (pmStep s).1 G := by
  obtain ⟨hu0, hu1, hv0, hv1, hs00, hs01, hs10, hs11,
    hy00, hy01, hy02, hy10, hy11, hy12, hdet⟩ := pmMid_sound hm
  unfold pmGainsIvOf at h
  split at h
  case h_1 => exact absurd h (by simp)
  case h_2 dinv hinv =>
    have hG : pmGainsStage (pmMid S) dinv = G := by
      injection h
    rw [pmStep, ← hG]
    exact pmGainsStage_sound hs00 hs01 hs10 hs11 hy00 hy01 hy02 hy10 hy11 hy12 hdet hinv

/-- The point-interval start encloses the exact terminal initialization. -/
theorem pmInitIv_sound : PmIv.memV pmInit pmInitIv := by
  refine ⟨?_, ?_, ?_, ?_, ?_, ?_, ?_, ?_, ?_, ?_, ?_, ?_⟩
  all_goals exact Iv.mem_ofQ _

/-- Orbit soundness: whenever the lifted interval iteration is still defined
after `k` steps, its result encloses the exact value state after `k` steps. -/
theorem pmOrbit_sound (k : ℕ) {S : PmIv} (h : pmF2O^[k] (some pmInitIv) = some S) :
    PmIv.memV (pmValAt k) S := by
  induction k generalizing S with
  | zero =>
    have hS : pmInitIv = S := by
      simpa using h
    rw [pmValAt, ← hS]
    exact pmInitIv_sound
  | succ n ih =>
    rw [Function.iterate_succ_apply'] at h
    cases hprev : pmF2O^[n] (some pmInitIv) with
    | none =>
      rw [hprev] at h
      exact absurd h (by simp [pmF2O])
    | some T =>
      rw [hprev] at h
      have hstep : pmForm2Iv T = some S := h
      rw [pmValAt]
      exact pmForm2Iv_sound (ih hprev) hstep


/-- The first Lyapunov interval stage encloses the exact intermediates. -/
theorem lyMid_sound {s : LyVal} {S : LyIv} (hm : LyIv.memL s S) :
    Iv.mem (lU0 s) (lyMid S).u0 ∧ Iv.mem (lU1 s) (lyMid S).u1 ∧
    Iv.mem (lV0 s) (lyMid S).v0 ∧ Iv.mem (lV1 s) (lyMid S).v1 ∧
    Iv.mem (lS1 s) (lyMid S).s1 ∧ Iv.mem (lS2 s) (lyMid S).s2 := by
  obtain ⟨h1, h2, h3, h4, h5, h6, h7, h8, h9, h10, h11, h12⟩ := hm
  have hu0 := Iv.mem_add (Iv.mem_mul (Iv.mem_ofQ pmB1x) h1) (Iv.mem_mul (Iv.mem_ofQ pmB1v) h3)
  have hu1 := Iv.mem_add (Iv.mem_mul (Iv.mem_ofQ pmB1x) h2) (Iv.mem_mul (Iv.mem_ofQ pmB1v) h4)
  have hv0 := Iv.mem_add (Iv.mem_mul (Iv.mem_ofQ pmB2x) h5) (Iv.mem_mul (Iv.mem_ofQ pmB2v) h7)
  have hv1 := Iv.mem_add (Iv.mem_mul (Iv.mem_ofQ pmB2x) h6) (Iv.mem_mul (Iv.mem_ofQ pmB2v) h8)
  refine ⟨?_, ?_, ?_, ?_, ?_, ?_⟩
  · simp only [lyMid]
    rw [lU0]
    exact hu0
  · simp only [lyMid]
    rw [lU1]
    exact hu1
  · simp only [lyMid]
    rw [lV0]
    exact hv0
  · simp only [lyMid]
    rw [lV1]
    exact hv1
  · simp only [lyMid]
    rw [lS1, lU0, lU1]
    exact Iv.mem_add (Iv.mem_ofQ pmR11)
      (Iv.mem_add (Iv.mem_mul hu0 (Iv.mem_ofQ pmB1x)) (Iv.mem_mul hu1 (Iv.mem_ofQ pmB1v)))
  · simp only [lyMid]
    rw [lS2, lV0, lV1]
    exact Iv.mem_add (Iv.mem_ofQ pmR22)
      (Iv.mem_add (Iv.mem_mul hv0 (Iv.mem_ofQ pmB2x)) (Iv.mem_mul hv1 (Iv.mem_ofQ pmB2v)))

/-- The Lyapunov gain stage encloses the exact updated gains. -/
theorem lyPStage_sound {s : LyVal} {S : LyIv} {m : LyMidIv} {s1i s2i : Iv}
    (hm : LyIv.memL s S)
    (hu0 : Iv.mem (lU0 s) m.u0) (hu1 : Iv.mem (lU1 s) m.u1)
    (hv0 : Iv.mem (lV0 s) m.v0) (hv1 : Iv.mem (lV1 s) m.v1)
    (hs1 : Iv.mem (lS1 s) m.s1) (hs2 : Iv.mem (lS2 s) m.s2)
    (hinv1 : Iv.inv m.s1 = some s1i) (hinv2 : Iv.inv m.s2 = some s2i) :
    Iv.mem (lP10 s) (lyPStage S m s1i s2i).p10 ∧
    Iv.mem (lP11 s) (lyPStage S m s1i s2i).p11 ∧
    Iv.mem (lP20 s) (lyPStage S m s1i s2i).p20 ∧
    Iv.mem (lP21 s) (lyPStage S m s1i s2i).p21 := by
  obtain ⟨h1, h2, h3, h4, h5, h6, h7, h8, h9, h10, h11, h12⟩ := hm
  have hi1 := Iv.mem_inv hs1 hinv1
  have hi2 := Iv.mem_inv hs2 hinv2
  refine ⟨?_, ?_, ?_, ?_⟩
  · simp only [lyPStage]
    rw [lP10, div_eq_mul_inv, lM00, lM10]
    exact Iv.mem_mul (Iv.mem_add
      (Iv.mem_mul hu0 (Iv.mem_sub (Iv.mem_ofQ 1) (Iv.mem_mul (Iv.mem_ofQ pmB2x) h11)))
      (Iv.mem_mul hu1 (Iv.mem_sub (Iv.mem_ofQ 0) (Iv.mem_mul (Iv.mem_ofQ pmB2v) h11)))) hi1
  · simp only [lyPStage]
    rw [lP11, div_eq_mul_inv, lM01, lM11]
    exact Iv.mem_mul (Iv.mem_add
      (Iv.mem_mul hu0 (Iv.mem_sub (Iv.mem_ofQ pmA01) (Iv.mem_mul (Iv.mem_ofQ pmB2x) h12)))
      (Iv.mem_mul hu1 (Iv.mem_sub (Iv.mem_ofQ 1) (Iv.mem_mul (Iv.mem_ofQ pmB2v) h12)))) hi1
  · simp only [lyPStage]
    rw [lP20, div_eq_mul_inv, lN00, lN10]
    exact Iv.mem_mul (Iv.mem_add
      (Iv.mem_mul hv0 (Iv.mem_sub (Iv.mem_ofQ 1) (Iv.mem_mul (Iv.mem_ofQ pmB1x) h9)))
      (Iv.mem_mul hv1 (Iv.mem_sub (Iv.mem_ofQ 0) (Iv.mem_mul (Iv.mem_ofQ pmB1v) h9)))) hi2
  · simp only [lyPStage]
    rw [lP21, div_eq_mul_inv, lN01, lN11]
    exact Iv.mem_mul (Iv.mem_add
      (Iv.mem_mul hv0 (Iv.mem_sub (Iv.mem_ofQ pmA01) (Iv.mem_mul (Iv.mem_ofQ pmB1x) h10)))
      (Iv.mem_mul hv1 (Iv.mem_sub (Iv.mem_ofQ 1) (Iv.mem_mul (Iv.mem_ofQ pmB1v) h10)))) hi2


/-- The Lyapunov tail stage encloses the rewritten exact iteration `lyForm2`,
given enclosures of the state, the intermediates and the updated gains. -/
theorem lyTail_sound {s : LyVal} {S : LyIv} {m : LyMidIv} {G : LyGIv} (hm : LyIv.memL s S)
    (hu0 : Iv.mem (lU0 s) m.u0) (hu1 : Iv.mem (lU1 s) m.u1)
    (hv0 : Iv.mem (lV0 s) m.v0) (hv1 : Iv.mem (lV1 s) m.v1)
    (hp10 : Iv.mem (lP10 s) G.p10) (hp11 : Iv.mem (lP11 s) G.p11)
    (hp20 : Iv.mem (lP20 s) G.p20) (hp21 : Iv.mem (lP21 s) G.p21) :
    LyIv.memL (lyForm2 s) (lyTail S m G) := by
  obtain ⟨h1, h2, h3, h4, h5, h6, h7, h8, h9, h10, h11, h12⟩ := hm
  have hd1x := Iv.mem_sub hp10 h9
  have hd1v := Iv.mem_sub hp11 h10
  have hd2x := Iv.mem_sub hp20 h11
  have hd2v := Iv.mem_sub hp21 h12
  have hf00 := Iv.mem_sub (Iv.mem_ofQ 1)
    (Iv.mem_add (Iv.mem_mul (Iv.mem_ofQ pmB1x) hp10) (Iv.mem_mul (Iv.mem_ofQ pmB2x) hp20))
  have hf01 := Iv.mem_sub (Iv.mem_ofQ pmA01)
    (Iv.mem_add (Iv.mem_mul (Iv.mem_ofQ pmB1x) hp11) (Iv.mem_mul (Iv.mem_ofQ pmB2x) hp21))
  have hf10 := Iv.mem_sub (Iv.mem_ofQ 0)
    (Iv.mem_add (Iv.mem_mul (Iv.mem_ofQ pmB1v) hp10) (Iv.mem_mul (Iv.mem_ofQ pmB2v) hp20))
  have hf11 := Iv.mem_sub (Iv.mem_ofQ 1)
    (Iv.mem_add (Iv.mem_mul (Iv.mem_ofQ pmB1v) hp11) (Iv.mem_mul (Iv.mem_ofQ pmB2v) hp21))
  have hag10 := Iv.mem_add (Iv.mem_mul (Iv.mem_ofQ pmA01) h1) h3
  have hag11 := Iv.mem_add (Iv.mem_mul (Iv.mem_ofQ pmA01) h2) h4
  have haz100 := Iv.mem_add (Iv.mem_mul h1 hf00) (Iv.mem_mul h2 hf10)
  have haz101 := Iv.mem_add (Iv.mem_mul h1 hf01) (Iv.mem_mul h2 hf11)
  have haz110 := Iv.mem_add (Iv.mem_mul hag10 hf00) (Iv.mem_mul hag11 hf10)
  have haz111 := Iv.mem_add (Iv.mem_mul hag10 hf01) (Iv.mem_mul hag11 hf11)
  have hk1 := Iv.mem_add (Iv.mem_mul hu0 (Iv.mem_ofQ pmB2x)) (Iv.mem_mul hu1 (Iv.mem_ofQ pmB2v))
  have hc0 := Iv.mem_add (Iv.mem_mul (Iv.mem_ofQ pmB2x) h1) (Iv.mem_mul (Iv.mem_ofQ pmB2v) h3)
  have hc1 := Iv.mem_add (Iv.mem_mul (Iv.mem_ofQ pmB2x) h2) (Iv.mem_mul (Iv.mem_ofQ pmB2v) h4)
  have hbw0 := Iv.mem_add (Iv.mem_mul hc0 hf00) (Iv.mem_mul hc1 hf10)
  have hbw1 := Iv.mem_add (Iv.mem_mul hc0 hf01) (Iv.mem_mul hc1 hf11)
  have hah10 := Iv.mem_add (Iv.mem_mul (Iv.mem_ofQ pmA01) h5) h7
  have hah11 := Iv.mem_add (Iv.mem_mul (Iv.mem_ofQ pmA01) h6) h8
  have haz200 := Iv.mem_add (Iv.mem_mul h5 hf00) (Iv.mem_mul h6 hf10)
  have haz201 := Iv.mem_add (Iv.mem_mul h5 hf01) (Iv.mem_mul h6 hf11)
  have haz210 := Iv.mem_add (Iv.mem_mul hah10 hf00) (Iv.mem_mul hah11 hf10)
  have haz211 := Iv.mem_add (Iv.mem_mul hah10 hf01) (Iv.mem_mul hah11 hf11)
  have hk2 := Iv.mem_add (Iv.mem_mul hv0 (Iv.mem_ofQ pmB1x)) (Iv.mem_mul hv1 (Iv.mem_ofQ pmB1v))
  have he0 := Iv.mem_add (Iv.mem_mul (Iv.mem_ofQ pmB1x) h5) (Iv.mem_mul (Iv.mem_ofQ pmB1v) h7)
  have he1 := Iv.mem_add (Iv.mem_mul (Iv.mem_ofQ pmB1x) h6) (Iv.mem_mul (Iv.mem_ofQ pmB1v) h8)
  have hbx0 := Iv.mem_add (Iv.mem_mul he0 hf00) (Iv.mem_mul he1 hf10)
  have hbx1 := Iv.mem_add (Iv.mem_mul he0 hf01) (Iv.mem_mul he1 hf11)
  refine ⟨?_, ?_, ?_, ?_, ?_, ?_, ?_, ?_, ?_, ?_, ?_, ?_⟩
  · simp only [lyForm2, lyTail]
    rw [lFZ1a, lAz100, lK1, lD2x, lBW0, lC0, lC1, lF00, lF10]
    exact Iv.mem_add (Iv.mem_add (Iv.mem_sub (Iv.mem_add haz100
        (Iv.mem_mul (Iv.mem_mul hp10 hk1) hd2x)) (Iv.mem_mul hp20 hbw0))
      (Iv.mem_mul hp20 (Iv.mem_mul (Iv.mem_ofQ pmR12) hp20))) (Iv.mem_ofQ 1)
  · simp only [lyForm2, lyTail]
    rw [lFZ1b, lAz101, lK1, lD2v, lBW1, lC0, lC1, lF01, lF11]
    exact Iv.mem_add (Iv.mem_add (Iv.mem_sub (Iv.mem_add haz101
        (Iv.mem_mul (Iv.mem_mul hp10 hk1) hd2v)) (Iv.mem_mul hp20 hbw1))
      (Iv.mem_mul hp20 (Iv.mem_mul (Iv.mem_ofQ pmR12) hp21))) (Iv.mem_ofQ 0)
  · simp only [lyForm2, lyTail]
    rw [lFZ1c, lAz110, lAG10, lAG11, lK1, lD2x, lBW0, lC0, lC1, lF00, lF10]
    exact Iv.mem_add (Iv.mem_add (Iv.mem_sub (Iv.mem_add haz110
        (Iv.mem_mul (Iv.mem_mul hp11 hk1) hd2x)) (Iv.mem_mul hp21 hbw0))
      (Iv.mem_mul hp21 (Iv.mem_mul (Iv.mem_ofQ pmR12) hp20))) (Iv.mem_ofQ 0)
  · simp only [lyForm2, lyTail]
    rw [lFZ1d, lAz111, lAG10, lAG11, lK1, lD2v, lBW1, lC0, lC1, lF01, lF11]
    exact Iv.mem_add (Iv.mem_add (Iv.mem_sub (Iv.mem_add haz111
        (Iv.mem_mul (Iv.mem_mul hp11 hk1) hd2v)) (Iv.mem_mul hp21 hbw1))
      (Iv.mem_mul hp21 (Iv.mem_mul (Iv.mem_ofQ pmR12) hp21))) (Iv.mem_ofQ 1)
  · simp only [lyForm2, lyTail]
    rw [lFZ2a, lAz200, lK2, lD1x, lBX0, lE0, lE1, lF00, lF10]
    exact Iv.mem_add (Iv.mem_add (Iv.mem_sub (Iv.mem_add haz200
        (Iv.mem_mul (Iv.mem_mul hp20 hk2) hd1x)) (Iv.mem_mul hp10 hbx0))
      (Iv.mem_mul hp10 (Iv.mem_mul (Iv.mem_ofQ pmR21) hp10))) (Iv.mem_ofQ 2)
  · simp only [lyForm2, lyTail]
    rw [lFZ2b, lAz201, lK2, lD1v, lBX1, lE0, lE1, lF01, lF11]
    exact Iv.mem_add (Iv.mem_add (Iv.mem_sub (Iv.mem_add haz201
        (Iv.mem_mul (Iv.mem_mul hp20 hk2) hd1v)) (Iv.mem_mul hp10 hbx1))
      (Iv.mem_mul hp10 (Iv.mem_mul (Iv.mem_ofQ pmR21) hp11))) (Iv.mem_ofQ 0)
  · simp only [lyForm2, lyTail]
    rw [lFZ2c, lAz210, lAH10, lAH11, lK2, lD1x, lBX0, lE0, lE1, lF00, lF10]
    exact Iv.mem_add (Iv.mem_add (Iv.mem_sub (Iv.mem_add haz210
        (Iv.mem_mul (Iv.mem_mul hp21 hk2) hd1x)) (Iv.mem_mul hp11 hbx0))
      (Iv.mem_mul hp11 (Iv.mem_mul (Iv.mem_ofQ pmR21) hp10))) (Iv.mem_ofQ 0)
  · simp only [lyForm2, lyTail]
    rw [lFZ2d, lAz211, lAH10, lAH11, lK2, lD1v, lBX1, lE0, lE1, lF01, lF11]
    exact Iv.mem_add (Iv.mem_add (Iv.mem_sub (Iv.mem_add haz211
        (Iv.mem_mul (Iv.mem_mul hp21 hk2) hd1v)) (Iv.mem_mul hp11 hbx1))
      (Iv.mem_mul hp11 (Iv.mem_mul (Iv.mem_ofQ pmR21) hp11))) (Iv.mem_ofQ 2)
  · simp only [lyForm2, lyTail]
    exact hp10
  · simp only [lyForm2, lyTail]
    exact hp11
  · simp only [lyForm2, lyTail]
    exact hp20
  · simp only [lyForm2, lyTail]
    exact hp21


/-- One certified interval step of `lyForm2Iv` encloses one exact Lyapunov
iteration. -/
theorem lyForm2Iv_sound {s : LyVal} {S S2 : LyIv} (hm : LyIv.memL s S)
    (h : lyForm2Iv S = some S2) : LyIv.memL (lyStep s) S2 := by
  obtain ⟨hu0, hu1, hv0, hv1, hs1, hs2⟩ := lyMid_sound hm
  unfold lyForm2Iv at h
  split at h
  case h_1 => exact absurd h (by simp)
  case h_2 s1i hinv1 =>
    split at h
    case h_1 => exact absurd h (by simp)
    case h_2 s2i hinv2 =>
      have hS2 : lyTail S (lyMid S) (lyPStage S (lyMid S) s1i s2i) = S2 := by
        injection h
      have hne1 : lS1 s ≠ 0 := ne_of_gt (Iv.pos_of_inv hs1 hinv1)
      have hne2 : lS2 s ≠ 0 := ne_of_gt (Iv.pos_of_inv hs2 hinv2)
      obtain ⟨hp10, hp11, hp20, hp21⟩ :=
        lyPStage_sound hm hu0 hu1 hv0 hv1 hs1 hs2 hinv1 hinv2
      rw [lyForm2_eq s hne1 hne2, ← hS2]
      exact lyTail_sound hm hu0 hu1 hv0 hv1 hp10 hp11 hp20 hp21

/-- When the interval initialization is defined, it encloses the exact
Lyapunov initialization. -/
theorem lyInitIv_sound {L : LyIv} (h : lyInitIv = some L) : LyIv.memL lyInit L := by
  have hs1 : Iv.mem lIs1 ((Iv.ofQ pmR11).add (((Iv.ofQ lIu0).mul (Iv.ofQ pmB1x)).add
      ((Iv.ofQ lIu1).mul (Iv.ofQ pmB1v)))) := by
    rw [lIs1]
    exact Iv.mem_add (Iv.mem_ofQ pmR11) (Iv.mem_add
      (Iv.mem_mul (Iv.mem_ofQ lIu0) (Iv.mem_ofQ pmB1x))
      (Iv.mem_mul (Iv.mem_ofQ lIu1) (Iv.mem_ofQ pmB1v)))
  have hs2 : Iv.mem lIs2 ((Iv.ofQ pmR22).add (((Iv.ofQ lIv0).mul (Iv.ofQ pmB2x)).add
      ((Iv.ofQ lIv1).mul (Iv.ofQ pmB2v)))) := by
    rw [lIs2]
    exact Iv.mem_add (Iv.mem_ofQ pmR22) (Iv.mem_add
      (Iv.mem_mul (Iv.mem_ofQ lIv0) (Iv.mem_ofQ pmB2x))
      (Iv.mem_mul (Iv.mem_ofQ lIv1) (Iv.mem_ofQ pmB2v)))
  simp only [lyInitIv] at h
  split at h
  case h_1 => exact absurd h (by simp)
  case h_2 s1i hinv1 =>
    split at h
    case h_1 => exact absurd h (by simp)
    case h_2 s2i hinv2 =>
      have hL : (⟨Iv.ofQ 1, Iv.ofQ 0, Iv.ofQ 0, Iv.ofQ 1, Iv.ofQ 2, Iv.ofQ 0, Iv.ofQ 0,
          Iv.ofQ 2, (Iv.ofQ lIu0).mul s1i, (((Iv.ofQ lIu0).mul (Iv.ofQ pmA01)).add
          (Iv.ofQ lIu1)).mul s1i, (Iv.ofQ lIv0).mul s2i,
          (((Iv.ofQ lIv0).mul (Iv.ofQ pmA01)).add (Iv.ofQ lIv1)).mul s2i⟩ : LyIv) = L := by
        injection h
      rw [← hL, lyInit]
      refine ⟨Iv.mem_ofQ 1, Iv.mem_ofQ 0, Iv.mem_ofQ 0, Iv.mem_ofQ 1, Iv.mem_ofQ 2,
        Iv.mem_ofQ 0, Iv.mem_ofQ 0, Iv.mem_ofQ 2, ?_, ?_, ?_, ?_⟩
      · rw [lIp10, div_eq_mul_inv]
        exact Iv.mem_mul (Iv.mem_ofQ lIu0) (Iv.mem_inv hs1 hinv1)
      · rw [lIp11, div_eq_mul_inv]
        exact Iv.mem_mul (Iv.mem_add (Iv.mem_mul (Iv.mem_ofQ lIu0) (Iv.mem_ofQ pmA01))
          (Iv.mem_ofQ lIu1)) (Iv.mem_inv hs1 hinv1)
      · rw [lIp20, div_eq_mul_inv]
        exact Iv.mem_mul (Iv.mem_ofQ lIv0) (Iv.mem_inv hs2 hinv2)
      · rw [lIp21, div_eq_mul_inv]
        exact Iv.mem_mul (Iv.mem_add (Iv.mem_mul (Iv.mem_ofQ lIv0) (Iv.mem_ofQ pmA01))
          (Iv.mem_ofQ lIv1)) (Iv.mem_inv hs2 hinv2)

/-- Orbit soundness for the Lyapunov interval iteration. -/
theorem lyOrbit_sound (k : ℕ) {S : LyIv} (h : lyF2O^[k] lyInitIv = some S) :
    LyIv.memL (lyValAt k) S := by
  induction k generalizing S with
  | zero =>
    rw [lyValAt]
    exact lyInitIv_sound h
  | succ n ih =>
    rw [Function.iterate_succ_apply'] at h
    cases hprev : lyF2O^[n] lyInitIv with
    | none =>
      rw [hprev] at h
      exact absurd h (by simp [lyF2O])
    | some T =>
      rw [hprev] at h
      have hstep : lyForm2Iv T = some S := h
      rw [lyValAt]
      exact lyForm2Iv_sound (ih hprev) hstep


/-- Two values lying in intervals whose one-sided gaps are below `SC / 10000`
differ by at most `1 / 10000`. -/
theorem Iv.abs_sub_le {x y : ℚ} {I J : Iv} (hx : Iv.mem x I) (hy : Iv.mem y J)
    (h1 : 10000 * (I.hi - J.lo) ≤ SC) (h2 : 10000 * (J.hi - I.lo) ≤ SC) :
    |x - y| ≤ 1 / 10000 := by
  obtain ⟨hx1, hx2⟩ := hx
  obtain ⟨hy1, hy2⟩ := hy
  have h1Q : 10000 * (((I.hi : ℤ) : ℚ) - ((J.lo : ℤ) : ℚ)) ≤ ((SC : ℤ) : ℚ) := by
    exact_mod_cast h1
  have h2Q : 10000 * (((J.hi : ℤ) : ℚ) - ((I.lo : ℤ) : ℚ)) ≤ ((SC : ℤ) : ℚ) := by
    exact_mod_cast h2
  rw [abs_le]
  constructor
  · have hxy : (1 / 10000 : ℚ) * ((SC : ℤ) : ℚ) ≤ (x - y + 1 / 10000 + 1 / 10000) *
        ((SC : ℤ) : ℚ) := by nlinarith [h2Q, hx1, hy2]
    have h3 := le_of_mul_le_mul_right hxy SC_posQ
    linarith
  · have hxy : (x - y) * ((SC : ℤ) : ℚ) ≤ (1 / 10000 : ℚ) * ((SC : ℤ) : ℚ) := by
      nlinarith [h1Q, hx2, hy1]
    exact le_of_mul_le_mul_right hxy SC_posQ



/-!
### C1: strategy lengths produced by the solver
-/

/-- A fold whose step preserves a length measure preserves it overall. -/
theorem foldl_length_preserved {σ β : Type} (f : σ → β → σ) (len : σ → ℕ)
    (hf : ∀ s b, len (f s b) = len s) :
    ∀ (l : List β) (s : σ), len (l.foldl f s) = len s := by
  intro l
  induction l with
  | nil => intro s; rfl
  | cons b t ih => intro s; rw [List.foldl_cons, ih, hf]

/-- **C1 (amended).** Whenever `lqSolve` returns strategies, each player's
`Ps` and `alphas` have length `K = num_time_steps_` — not `K - 1` as the spec
states: the strategies are constructed with `num_time_steps_` zero entries and
only entries `0 … K-2` are overwritten by the backward pass.  In particular a
`K = 1` problem returns strategies with one zero entry, not empty ones. -/
theorem C1_strategy_lengths {n N : ℕ} {m : Fin N → ℕ} {K : ℕ}
    {lin : List (LinearDynamicsApproximation n N m)}
    {quad : List ((i : Fin N) → QuadraticCostApproximation n N m)}
    {s : (i : Fin N) → Strategy n (m i)}
    (h : lqSolve K lin quad = Except.ok s) (i : Fin N) :
    (s i).Ps.length = K ∧ (s i).alphas.length = K := by
  unfold lqSolve at h
  split at h
  case isFalse => exact absurd h (by simp)
  case isTrue hc =>
    split at h
    case h_1 => exact absurd h (by simp)
    case h_2 vs stepStrats heq =>
      have hs : (fun i => ((List.range (K - 1)).zip stepStrats).foldl
          (fun s kkStrat => s.setEntry kkStrat.1 (kkStrat.2 i).1 (kkStrat.2 i).2)
          (Strategy.mkZero K n (m i))) = s := by
        injection h
      rw [← hs]
      constructor
      · exact (foldl_length_preserved (σ := Strategy n (m i))
          (β := ℕ × StepStrategy n N m) _ (fun st => st.Ps.length)
          (fun st b => by simp [Strategy.setEntry]) _ _).trans (by simp [Strategy.mkZero])
      · exact (foldl_length_preserved (σ := Strategy n (m i))
          (β := ℕ × StepStrategy n N m) _ (fun st => st.alphas.length)
          (fun st b => by simp [Strategy.setEntry]) _ _).trans (by simp [Strategy.mkZero])

/-- **C1 (counterexample).** A terminal-cost-only problem (`K = 1`) returns,
for its single player, a strategy with one (zero) entry — the spec's `K - 1 = 0`
(empty strategies) does not hold. -/
theorem C1_counterexample :
    lqSolve (n := 1) (N := 1) (m := fun _ => 1) 1 [w1lin] [w1quad] =
      Except.ok (fun _ => Strategy.mkZero 1 1 1) ∧
    (Strategy.mkZero 1 1 1).Ps.length ≠ 0 :=
  ⟨rfl, by decide⟩

/-- Witness: the amended C1 at the concrete `K = 1` scalar problem. -/
theorem C1_witness :
    (Strategy.mkZero 1 1 1).Ps.length = 1 ∧ (Strategy.mkZero 1 1 1).alphas.length = 1 :=
  @C1_strategy_lengths 1 1 (fun _ => 1) 1 [w1lin] [w1quad]
    (fun _ => Strategy.mkZero 1 1 1) rfl 0


/-!
### C2: (no) symmetrization of the running `Z` matrices
-/

/-- Congruence `Fᵀ Z F` preserves symmetry. -/
theorem isSymm_conj {n p : ℕ} (F : Matrix (Fin n) (Fin p) ℚ)
    {Z : Matrix (Fin n) (Fin n) ℚ} (hZ : Z.IsSymm) : (Fᵀ * Z * F).IsSymm := by
  rw [Matrix.IsSymm] at hZ ⊢
  rw [Matrix.transpose_mul, Matrix.transpose_mul, Matrix.transpose_transpose, hZ,
    Matrix.mul_assoc]

/-- The `Rij` accumulation preserves symmetry when every control Hessian in
the map is symmetric. -/
theorem zRijFold_isSymm {n N : ℕ} {m : Fin N → ℕ}
    {ctrl : (j : Fin N) → Option (CostTermApprox (m j))}
    (P : (j : Fin N) → Matrix (Fin (m j)) (Fin n) ℚ)
    (hR : ∀ j c, ctrl j = some c → c.hess.IsSymm)
    {base : Matrix (Fin n) (Fin n) ℚ} (hb : base.IsSymm) :
    (zRijFold ctrl P base).IsSymm := by
  rw [zRijFold]
  generalize (List.finRange N) = l
  induction l generalizing base with
  | nil => exact hb
  | cons j t ih =>
    rw [List.foldl_cons]
    apply ih
    cases hj : ctrl j with
    | none => exact hb
    | some c => exact hb.add (isSymm_conj (P j) (hR j c hj))

/-- **C2 (amended).** The solver performs no symmetrization of `Zᵢ` (there is
no averaging with the transpose anywhere in the update loop); instead, the
updated `Zᵢ` of one backward step is symmetric provided the incoming `Zᵢ`, the
step state Hessian `Qᵢ` and every control Hessian `Rᵢⱼ` in player `i`'s map
are symmetric.  With an asymmetric per-step `Qᵢ` the update produces an
asymmetric `Zᵢ` (see the counterexample), which the spec's claimed averaging
would have repaired. -/
theorem C2_symmetry_preservation {n N : ℕ} {m : Fin N → ℕ}
    {lin : LinearDynamicsApproximation n N m}
    {quad : Fin N → QuadraticCostApproximation n N m} {vs : ValueState n N}
    {ss : StepStrategy n N m} {vs2 : ValueState n N}
    (h : lqStep lin quad vs = some (ss, vs2))
    (hZ : ∀ i, (vs.Z i).IsSymm)
    (hQ : ∀ i, ((quad i).state.hess).IsSymm)
    (hR : ∀ i j c, (quad i).control j = some c → c.hess.IsSymm)
    (i : Fin N) : (vs2.Z i).IsSymm := by
  unfold lqStep at h
  split at h
  case h_1 => exact absurd h (by simp)
  case h_2 Rii hRii =>
    have h3 := Option.some.inj h
    have h5 : _ = vs2 := congrArg Prod.snd h3
    rw [← h5]
    exact zRijFold_isSymm _ (hR i) ((isSymm_conj _ (hZ i)).add (hQ i))

unseal Rat.add Rat.mul Rat.sub Rat.inv in
/-- **C2 (counterexample).** Two time steps, one player, `A = I`, `B = 0`,
symmetric terminal Hessian `I`, but an asymmetric per-step state Hessian: after
the single `Z` update of the backward pass the running `Z` is *not* symmetric,
so no averaging with the transpose takes place. -/
theorem C2_counterexample :
    ((lqBackward (n := 2) (N := 1) (m := fun _ => 1) 2 [c2lin, c2lin]
        [c2quadStep, c2quadTerm] 1).map
      (fun p => decide (p.1.Z 0 0 1 = p.1.Z 0 1 0))) = some false := by
  decide


unseal Rat.add Rat.mul Rat.sub Rat.inv in
/-- Witness: the amended C2 at the concrete scalar step. -/
theorem C2_witness : (w1pair.2.Z 0).IsSymm :=
  @C2_symmetry_preservation 1 1 (fun _ => 1) w1lin w1quad w1vs w1pair.1 w1pair.2 rfl
    (by decide : ∀ i : Fin 1, (w1vs.Z i)ᵀ = w1vs.Z i)
    (by decide : ∀ i : Fin 1, ((w1quad i).state.hess)ᵀ = (w1quad i).state.hess)
    (fun i j c hc => by
      have h2 : (⟨1, 0⟩ : CostTermApprox 1) = c := Option.some.inj hc
      rw [← h2]
      show (1 : Matrix (Fin 1) (Fin 1) ℚ)ᵀ = 1
      decide) 0


/-!
### C3: the closed-loop and value backpropagation equations
-/

/-- Folding subtraction equals subtracting the sum. -/
theorem foldl_sub_eq_sum {M α : Type} [AddCommGroup M] (f : α → M) :
    ∀ (l : List α) (a : M), l.foldl (fun acc x => acc - f x) a = a - (l.map f).sum := by
  intro l
  induction l with
  | nil => intro a; simp
  | cons x t ih =>
    intro a
    rw [List.foldl_cons, ih, List.map_cons, List.sum_cons, sub_sub]

/-- Folding addition equals adding the sum. -/
theorem foldl_add_eq_sum {M α : Type} [AddCommMonoid M] (g : α → M) :
    ∀ (l : List α) (a : M), l.foldl (fun acc x => acc + g x) a = a + (l.map g).sum := by
  intro l
  induction l with
  | nil => intro a; simp
  | cons x t ih =>
    intro a
    rw [List.foldl_cons, ih, List.map_cons, List.sum_cons, add_assoc]

/-- The accumulated closed-loop matrix equals `A - Σⱼ Bⱼ Pⱼ`. -/
theorem mkF_eq {n N : ℕ} {m : Fin N → ℕ} (lin : LinearDynamicsApproximation n N m)
    (P : (i : Fin N) → Matrix (Fin (m i)) (Fin n) ℚ) :
    mkF lin P = lin.A - ∑ j, lin.Bs j * P j := by
  rw [mkF, foldl_sub_eq_sum, Fin.sum_univ_def]

/-- The accumulated drift equals `-Σⱼ Bⱼ αⱼ`. -/
theorem mkBeta_eq {n N : ℕ} {m : Fin N → ℕ} (lin : LinearDynamicsApproximation n N m)
    (al : (i : Fin N) → Fin (m i) → ℚ) :
    mkBeta lin al = -∑ j, (lin.Bs j).mulVec (al j) := by
  rw [mkBeta, foldl_sub_eq_sum, zero_sub, Fin.sum_univ_def]

/-- The `Rij` fold on `ζ` equals the base plus a sum over exactly the players
present in the control map. -/
theorem zetaRijFold_eq {n N : ℕ} {m : Fin N → ℕ}
    (ctrl : (j : Fin N) → Option (CostTermApprox (m j)))
    (P : (j : Fin N) → Matrix (Fin (m j)) (Fin n) ℚ)
    (al : (j : Fin N) → Fin (m j) → ℚ) (base : Fin n → ℚ) :
    zetaRijFold ctrl P al base = base +
      ∑ j, (match ctrl j with
        | none => 0
        | some c => (P j)ᵀ.mulVec (c.hess.mulVec (al j) - c.grad)) := by
  rw [zetaRijFold]
  have hfn : (fun (acc : Fin n → ℚ) j =>
      match ctrl j with
      | none => acc
      | some c => acc + (P j)ᵀ.mulVec (c.hess.mulVec (al j) - c.grad)) =
      (fun acc j => acc + match ctrl j with
        | none => 0
        | some c => (P j)ᵀ.mulVec (c.hess.mulVec (al j) - c.grad)) := by
    funext acc j
    cases ctrl j with
    | none => simp
    | some c => rfl
  rw [hfn, foldl_add_eq_sum, Fin.sum_univ_def]

/-- The `Rij` fold on `Z` equals the base plus a sum over exactly the players
present in the control map. -/
theorem zRijFold_eq {n N : ℕ} {m : Fin N → ℕ}
    (ctrl : (j : Fin N) → Option (CostTermApprox (m j)))
    (P : (j : Fin N) → Matrix (Fin (m j)) (Fin n) ℚ)
    (base : Matrix (Fin n) (Fin n) ℚ) :
    zRijFold ctrl P base = base +
      ∑ j, (match ctrl j with
        | none => 0
        | some c => (P j)ᵀ * c.hess * P j) := by
  rw [zRijFold]
  have hfn : (fun (acc : Matrix (Fin n) (Fin n) ℚ) j =>
      match ctrl j with
      | none => acc
      | some c => acc + (P j)ᵀ * c.hess * P j) =
      (fun acc j => acc + match ctrl j with
        | none => 0
        | some c => (P j)ᵀ * c.hess * P j) := by
    funext acc j
    cases ctrl j with
    | none => simp
    | some c => rfl
  rw [hfn, foldl_add_eq_sum, Fin.sum_univ_def]

/-- **C3.** At every backward-pass step: with the extracted gains `Pⱼ` and
feedforwards `αⱼ`, the closed loop is `F = A - Σⱼ Bⱼ Pⱼ`, the drift is
`β = -Σⱼ Bⱼ αⱼ`, and the value updates are exactly
`ζᵢ ← Fᵀ(ζᵢ + Zᵢ β) + lᵢ + Σⱼ Pⱼᵀ(Rᵢⱼ αⱼ - rᵢⱼ)` and
`Zᵢ ← Fᵀ Zᵢ F + Qᵢ + Σⱼ Pⱼᵀ Rᵢⱼ Pⱼ`, where the sums over `j` range over
exactly the players in player `i`'s control-cost map (absent players
contribute `0`). -/
theorem C3_backprop_equations {n N : ℕ} {m : Fin N → ℕ}
    {lin : LinearDynamicsApproximation n N m}
    {quad : Fin N → QuadraticCostApproximation n N m} {vs : ValueState n N}
    {ss : StepStrategy n N m} {vs2 : ValueState n N}
    (h : lqStep lin quad vs = some (ss, vs2)) (i : Fin N) :
    vs2.zeta i =
      (lin.A - ∑ j, lin.Bs j * (ss j).1)ᵀ.mulVec
        (vs.zeta i + (vs.Z i).mulVec (-∑ j, (lin.Bs j).mulVec ((ss j).2))) +
        (quad i).state.grad +
        ∑ j, (match (quad i).control j with
          | none => 0
          | some c => ((ss j).1)ᵀ.mulVec (c.hess.mulVec ((ss j).2) - c.grad)) ∧
    vs2.Z i =
      (lin.A - ∑ j, lin.Bs j * (ss j).1)ᵀ * vs.Z i *
        (lin.A - ∑ j, lin.Bs j * (ss j).1) + (quad i).state.hess +
        ∑ j, (match (quad i).control j with
          | none => 0
          | some c => ((ss j).1)ᵀ * c.hess * (ss j).1) := by
  unfold lqStep at h
  split at h
  case h_1 => exact absurd h (by simp)
  case h_2 Rii hRii =>
    have h3 := Option.some.inj h
    have hss : _ = ss := congrArg Prod.fst h3
    have hvs : _ = vs2 := congrArg Prod.snd h3
    rw [← hss, ← hvs]
    simp only []
    constructor
    · rw [zetaRijFold_eq, ← mkF_eq lin (lqPs lin vs Rii), ← mkBeta_eq lin (lqAls lin vs Rii)]
      unfold lqF lqBetaV
      rfl
    · rw [zRijFold_eq, ← mkF_eq lin (lqPs lin vs Rii)]
      unfold lqF
      rfl


/-- Witness: C3 at the concrete scalar step. -/
theorem C3_witness :
    w1pair.2.zeta 0 =
      (w1lin.A - ∑ j, w1lin.Bs j * (w1pair.1 j).1)ᵀ.mulVec
        (w1vs.zeta 0 + (w1vs.Z 0).mulVec (-∑ j, (w1lin.Bs j).mulVec ((w1pair.1 j).2))) +
        (w1quad 0).state.grad +
        ∑ j, (match (w1quad 0).control j with
          | none => 0
          | some c => ((w1pair.1 j).1)ᵀ.mulVec (c.hess.mulVec ((w1pair.1 j).2) - c.grad)) ∧
    w1pair.2.Z 0 =
      (w1lin.A - ∑ j, w1lin.Bs j * (w1pair.1 j).1)ᵀ * w1vs.Z 0 *
        (w1lin.A - ∑ j, w1lin.Bs j * (w1pair.1 j).1) + (w1quad 0).state.hess +
        ∑ j, (match (w1quad 0).control j with
          | none => 0
          | some c => ((w1pair.1 j).1)ᵀ * c.hess * (w1pair.1 j).1) :=
  @C3_backprop_equations 1 1 (fun _ => 1) w1lin w1quad w1vs w1pair.1 w1pair.2 rfl 0


/-!
### C4: structure of the per-step block linear system
-/

/-- **C4.** At every backward-pass step the block system has exactly the
stated structure: `Sᵢᵢ = Bᵢᵀ Zᵢ Bᵢ + Rᵢᵢ`, `Sᵢⱼ = Bᵢᵀ Zᵢ Bⱼ` for `i ≠ j`,
`Yᵢ[:, 0:n] = Bᵢᵀ Zᵢ A`, `Yᵢ[:, n] = Bᵢᵀ ζᵢ + rᵢᵢ`; for invertible `S` the
QR solve returns the solution of `S X = Y`; and the strategy entries of the
step are the per-player row blocks of `X`. -/
theorem C4_block_system {n N : ℕ} {m : Fin N → ℕ}
    {lin : LinearDynamicsApproximation n N m}
    {quad : Fin N → QuadraticCostApproximation n N m} {vs : ValueState n N}
    {ss : StepStrategy n N m} {vs2 : ValueState n N}
    {Rii : (i : Fin N) → CostTermApprox (m i)}
    (hRii : getRii quad = some Rii)
    (h : lqStep lin quad vs = some (ss, vs2)) :
    (∀ (i : Fin N) (a b : Fin (m i)),
      mkS lin vs Rii ⟨i, a⟩ ⟨i, b⟩ =
        ((lin.Bs i)ᵀ * vs.Z i * lin.Bs i + (Rii i).hess) a b) ∧
    (∀ (i j : Fin N), i ≠ j → ∀ (a : Fin (m i)) (b : Fin (m j)),
      mkS lin vs Rii ⟨i, a⟩ ⟨j, b⟩ = ((lin.Bs i)ᵀ * vs.Z i * lin.Bs j) a b) ∧
    (∀ (i : Fin N) (a : Fin (m i)) (b : Fin n),
      mkY lin vs Rii ⟨i, a⟩ (Sum.inl b) = ((lin.Bs i)ᵀ * vs.Z i * lin.A) a b) ∧
    (∀ (i : Fin N) (a : Fin (m i)),
      mkY lin vs Rii ⟨i, a⟩ (Sum.inr ()) =
        ((lin.Bs i)ᵀ.mulVec (vs.zeta i)) a + (Rii i).grad a) ∧
    ((mkS lin vs Rii).det ≠ 0 →
      mkS lin vs Rii * lqX lin vs Rii = mkY lin vs Rii) ∧
    (∀ i, (ss i).1 = extractP (lqX lin vs Rii) i ∧
      (ss i).2 = extractAlpha (lqX lin vs Rii) i) := by
  unfold lqStep at h
  rw [hRii] at h
  have h3 := Option.some.inj h
  have hss : _ = ss := congrArg Prod.fst h3
  refine ⟨?_, ?_, ?_, ?_, ?_, ?_⟩
  · intro i a b
    simp [mkS, Matrix.add_apply, Matrix.blockDiagonal'_apply_eq]
  · intro i j hne a b
    simp [mkS, Matrix.add_apply, Matrix.blockDiagonal'_apply_ne _ _ _ hne]
  · intro i a b
    rfl
  · intro i a
    rfl
  · intro hdet
    unfold lqX qrSolve
    rw [if_neg hdet, Matrix.mul_smul, ← Matrix.mul_assoc, Matrix.mul_adjugate,
      Matrix.smul_mul, Matrix.one_mul, smul_smul, inv_mul_cancel₀ hdet, one_smul]
  · intro i
    rw [← hss]
    exact ⟨rfl, rfl⟩

/-- Witness: C4 at the concrete scalar step. -/
theorem C4_witness :
    (∀ (i : Fin 1) (a b : Fin 1),
      mkS w1lin w1vs w1Rii ⟨i, a⟩ ⟨i, b⟩ =
        ((w1lin.Bs i)ᵀ * w1vs.Z i * w1lin.Bs i + (w1Rii i).hess) a b) ∧
    (∀ (i j : Fin 1), i ≠ j → ∀ (a b : Fin 1),
      mkS w1lin w1vs w1Rii ⟨i, a⟩ ⟨j, b⟩ = ((w1lin.Bs i)ᵀ * w1vs.Z i * w1lin.Bs j) a b) ∧
    (∀ (i : Fin 1) (a : Fin 1) (b : Fin 1),
      mkY w1lin w1vs w1Rii ⟨i, a⟩ (Sum.inl b) = ((w1lin.Bs i)ᵀ * w1vs.Z i * w1lin.A) a b) ∧
    (∀ (i : Fin 1) (a : Fin 1),
      mkY w1lin w1vs w1Rii ⟨i, a⟩ (Sum.inr ()) =
        ((w1lin.Bs i)ᵀ.mulVec (w1vs.zeta i)) a + (w1Rii i).grad a) ∧
    ((mkS w1lin w1vs w1Rii).det ≠ 0 →
      mkS w1lin w1vs w1Rii * lqX w1lin w1vs w1Rii = mkY w1lin w1vs w1Rii) ∧
    (∀ i, (w1pair.1 i).1 = extractP (lqX w1lin w1vs w1Rii) i ∧
      (w1pair.1 i).2 = extractAlpha (lqX w1lin w1vs w1Rii) i) :=
  @C4_block_system 1 1 (fun _ => 1) w1lin w1quad w1vs w1pair.1 w1pair.2 w1Rii rfl rfl


/-!
### C5: where the configuration checks fire
-/

/-- `getRii` succeeds exactly when every player's cost has its own `Rᵢᵢ`. -/
theorem getRii_isSome_iff {n N : ℕ} {m : Fin N → ℕ}
    (quad : (i : Fin N) → QuadraticCostApproximation n N m) :
    (getRii quad).isSome = true ↔ ∀ i, ((quad i).control i).isSome = true := by
  unfold getRii
  split
  case isTrue h => simpa using h
  case isFalse h => simpa using h

/-- A step succeeds exactly when every player's own `Rᵢᵢ` is present. -/
theorem lqStep_isSome_iff {n N : ℕ} {m : Fin N → ℕ}
    (lin : LinearDynamicsApproximation n N m)
    (quad : (i : Fin N) → QuadraticCostApproximation n N m) (vs : ValueState n N) :
    (lqStep lin quad vs).isSome = true ↔ (getRii quad).isSome = true := by
  unfold lqStep
  cases h : getRii quad with
  | none => simp
  | some Rii => simp

/-- The backward pass runs `J` steps exactly when every processed step's
players all have their own `Rᵢᵢ` entries. -/
theorem lqBackward_isSome_iff {n N : ℕ} {m : Fin N → ℕ} (K : ℕ)
    (lin : List (LinearDynamicsApproximation n N m))
    (quad : List ((i : Fin N) → QuadraticCostApproximation n N m)) :
    ∀ J : ℕ, (lqBackward K lin quad J).isSome = true ↔
      ∀ j < J, ∀ i, (((quad.getD (K - 2 - j) default) i).control i).isSome = true := by
  intro J
  induction J with
  | zero =>
    constructor
    · intro _ j hj
      exact absurd hj (Nat.not_lt_zero j)
    · intro _
      rfl
  | succ J ih =>
    rw [lqBackward]
    constructor
    · intro hs j hj
      cases hprev : lqBackward K lin quad J with
      | none =>
        rw [hprev] at hs
        simp at hs
      | some p =>
        rcases Nat.lt_succ_iff_lt_or_eq.mp hj with hlt | hje
        · exact (ih.mp (by rw [hprev]; rfl)) j hlt
        · subst hje
          obtain ⟨vs, acc⟩ := p
          rw [hprev] at hs
          dsimp only at hs
          cases hstep : lqStep (lin.getD (K - 2 - j) default)
              (quad.getD (K - 2 - j) default) vs with
          | none =>
            rw [hstep] at hs
            simp at hs
          | some q =>
            exact (getRii_isSome_iff _).mp
              ((lqStep_isSome_iff _ _ _).mp (by rw [hstep]; rfl))
    · intro hall
      cases hprev : lqBackward K lin quad J with
      | none =>
        have h2 := ih.mpr (fun j hj => hall j (Nat.lt_succ_of_lt hj))
        rw [hprev] at h2
        simp at h2
      | some p =>
        obtain ⟨vs, acc⟩ := p
        dsimp only
        have hg : (getRii (quad.getD (K - 2 - J) default)).isSome = true :=
          (getRii_isSome_iff _).mpr (hall J (Nat.lt_succ_self J))
        have hstep := (lqStep_isSome_iff (lin.getD (K - 2 - J) default)
          (quad.getD (K - 2 - J) default) vs).mpr hg
        cases hsq : lqStep (lin.getD (K - 2 - J) default)
            (quad.getD (K - 2 - J) default) vs with
        | none =>
          rw [hsq] at hstep
          simp at hstep
        | some q =>
          obtain ⟨st2, vs2⟩ := q
          rfl

/-- **C5 (amended).** The configuration checks fire *inside* `Solve`, not at
construction: a horizon-length mismatch makes the solve call itself abort with
the `CHECK_EQ` failure, and the solve call returns normally exactly when the
horizon lengths match and every player of every processed step has its own
`Rᵢᵢ` control-cost entry. -/
theorem C5_checks_fire_inside_solve {n N : ℕ} {m : Fin N → ℕ} (K : ℕ)
    (lin : List (LinearDynamicsApproximation n N m))
    (quad : List ((i : Fin N) → QuadraticCostApproximation n N m)) :
    (lqSolve K lin quad = Except.error SolveFatal.sizeMismatch ↔
      ¬(lin.length = K ∧ quad.length = K)) ∧
    ((∃ s, lqSolve K lin quad = Except.ok s) ↔
      (lin.length = K ∧ quad.length = K) ∧
      ∀ j < K - 1, ∀ i, (((quad.getD (K - 2 - j) default) i).control i).isSome = true) := by
  constructor
  · constructor
    · intro he
      intro hc
      unfold lqSolve at he
      rw [if_pos hc] at he
      cases hb : lqBackward K lin quad (K - 1) with
      | none =>
        rw [hb] at he
        simp at he
      | some p =>
        obtain ⟨vs, stepStrats⟩ := p
        rw [hb] at he
        simp at he
    · intro hnc
      unfold lqSolve
      rw [if_neg hnc]
  · constructor
    · rintro ⟨s, hs⟩
      unfold lqSolve at hs
      split at hs
      case isFalse hc => simp at hs
      case isTrue hc =>
        refine ⟨hc, ?_⟩
        cases hb : lqBackward K lin quad (K - 1) with
        | none =>
          rw [hb] at hs
          simp at hs
        | some p =>
          exact (lqBackward_isSome_iff K lin quad (K - 1)).mp (by rw [hb]; rfl)
    · rintro ⟨hc, hall⟩
      have hb := (lqBackward_isSome_iff K lin quad (K - 1)).mpr hall
      unfold lqSolve
      rw [if_pos hc]
      cases hbs : lqBackward K lin quad (K - 1) with
      | none =>
        rw [hbs] at hb
        simp at hb
      | some p =>
        obtain ⟨vs, stepStrats⟩ := p
        exact ⟨_, rfl⟩

/-- **C5 (counterexample).** A horizon-length mismatch is detected by the
solve call itself, which aborts fatally — refuting "never cause a failure
inside a call to the LQ solver's Solve". -/
theorem C5_counterexample :
    lqSolve (n := 1) (N := 1) (m := fun _ => 1) 1 [] [w1quad] =
      Except.error SolveFatal.sizeMismatch := rfl


/-!
### C6, C7, C9: the receding-horizon driver loop
-/

/-- **C6.** Every solver invocation inside the loop is checked against the
deadline: the iteration aborts fatally exactly when the measured elapsed time
exceeds `planner_runtime`, and otherwise returns a normally-updated state —
a late solution is never continued with. -/
theorem C6_deadline_check {X Plan Log : Type} (ops : SimOps X Plan Log)
    (runtime : ℚ) (st : SimState X Plan Log) :
    (recedingStep ops runtime st = Except.error SimFatal.deadline ↔
      runtime < ops.elapsed st.iter) ∧
    (ops.elapsed st.iter ≤ runtime → ∃ st2, recedingStep ops runtime st = Except.ok st2) := by
  constructor
  · unfold recedingStep
    dsimp only
    split
    case isTrue h =>
      simp only [reduceCtorEq, false_iff, not_lt]
      exact h
    case isFalse h =>
      simp only [true_iff]
      exact lt_of_not_le h
  · intro h
    unfold recedingStep
    dsimp only
    rw [if_pos h]
    exact ⟨_, rfl⟩

/-- **C7.** One loop iteration, on meeting the deadline, performs in order:
warm-started solve; integrate the true state from `t` to `t + e` under the
*current* plan and set `t ← t + e`; splice the new log into the plan at the
new `t`; overwrite the solution with the spliced plan; then integrate a
further `kExtraTime = 0.1` under the spliced plan. -/
theorem C7_loop_body_order {X Plan Log : Type} (ops : SimOps X Plan Log)
    (runtime : ℚ) (st : SimState X Plan Log)
    (h : ops.elapsed st.iter ≤ runtime) :
    recedingStep ops runtime st = Except.ok
      ⟨ops.integrate (st.t + ops.elapsed st.iter)
          (st.t + ops.elapsed st.iter + kExtraTime)
          (ops.integrate st.t (st.t + ops.elapsed st.iter) st.x st.plan)
          (ops.splice st.plan (ops.solveWarm st.iter st.x st.t runtime)
            (st.t + ops.elapsed st.iter)),
        st.t + ops.elapsed st.iter + kExtraTime,
        ops.splice st.plan (ops.solveWarm st.iter st.x st.t runtime)
          (st.t + ops.elapsed st.iter),
        ops.splice st.plan (ops.solveWarm st.iter st.x st.t runtime)
          (st.t + ops.elapsed st.iter),
        st.logs ++ [ops.solveWarm st.iter st.x st.t runtime],
        st.iter + 1⟩ := by
  unfold recedingStep
  dsimp only
  rw [if_pos h]

/-- Witness: C7 at the trivial collaborators with zero solve time. -/
theorem C7_witness :
    recedingStep trivOps 0 trivSt = Except.ok ⟨(), 0 + 0 + kExtraTime, (), (), [()], 1⟩ :=
  C7_loop_body_order trivOps 0 trivSt (le_refl 0)

/-- Each successful loop iteration advances the simulation clock by the
elapsed solve time plus `kExtraTime`; with nonnegative measured times the loop
therefore cannot exhaust `⌈10 (final_time - t)⌉` iterations of fuel. -/
theorem recedingRun_no_fuelOut {X Plan Log : Type} (ops : SimOps X Plan Log)
    (runtime finalTime : ℚ) (hel : ∀ k, 0 ≤ ops.elapsed k) :
    ∀ (fuel : ℕ) (st : SimState X Plan Log),
      (finalTime - st.t) * 10 ≤ (fuel : ℚ) →
      recedingRun ops runtime finalTime fuel st ≠ SimResult.fuelOut := by
  intro fuel
  induction fuel with
  | zero =>
    intro st hf
    rw [recedingRun]
    rw [if_neg (by push_cast at hf; intro hlt; nlinarith)]
    exact fun hcon => SimResult.noConfusion hcon
  | succ fu ih =>
    intro st hf
    rw [recedingRun]
    split
    case isFalse ht => exact fun hcon => SimResult.noConfusion hcon
    case isTrue ht =>
      cases hstep : recedingStep ops runtime st with
      | error f => exact fun hcon => SimResult.noConfusion hcon
      | ok st2 =>
        apply ih st2
        unfold recedingStep at hstep
        dsimp only at hstep
        split at hstep
        case isFalse => exact absurd hstep (by simp)
        case isTrue he =>
          have h2 : _ = st2 := Except.ok.inj hstep
          have ht2 : st2.t = st.t + ops.elapsed st.iter + kExtraTime := by
            rw [← h2]
          rw [ht2, kExtraTime]
          have he0 := hel st.iter
          push_cast at hf ⊢
          nlinarith

/-- **C9.** `RecedingHorizonSimulator` terminates for every finite
`final_time`: with nonnegative measured solve times, every iteration advances
`t` by at least `kExtraTime = 0.1`, so fuel `⌈10 (final_time - t₀)⌉` is never
exhausted — the loop always ends by reaching `final_time` (or by the deadline
check aborting). -/
theorem C9_terminates {X Plan Log : Type} (ops : SimOps X Plan Log)
    (runtime finalTime : ℚ) (fuel : ℕ)
    (hel : ∀ k, 0 ≤ ops.elapsed k)
    (hf : (finalTime - ops.startTime) * 10 ≤ (fuel : ℚ)) :
    recedingHorizonSimulator ops runtime finalTime fuel ≠ SimResult.fuelOut := by
  unfold recedingHorizonSimulator
  exact recedingRun_no_fuelOut ops runtime finalTime hel fuel _ hf

/-- Witness: C9 at the trivial collaborators, `final_time = 0 = t₀`. -/
theorem C9_witness :
    recedingHorizonSimulator trivOps 0 0 0 ≠ SimResult.fuelOut :=
  C9_terminates trivOps 0 0 0 (fun _ => le_refl 0) (by norm_num [trivOps])

/-!
### C10: the GUI slider accessors
-/

/-- **C10 (amended).** The accessors clamp only from above: `LogIndex()` is
`min(log_index_, size - 1)` with no lower clamp, so the claim holds only for
nonnegative raw indices (and similarly `InterpolationTime()` needs the
selected log's time interval to be nonempty).  Under those assumptions every
accessor stays in range; a negative raw `log_index_` escapes below
(see the counterexample). -/
theorem C10_slider_clamps (cs : ControlSliders)
    (hlog : 0 ≤ cs.log_index) (hne : cs.logs ≠ [])
    (hif : cs.selectedLog.initialTime ≤ cs.selectedLog.finalTime) :
    0 ≤ cs.LogIndex ∧ cs.LogIndex < (cs.logs.length : ℤ) ∧
    cs.SolverIterate ≤ (cs.selectedLog.numIterates : ℤ) - 1 ∧
    cs.selectedLog.initialTime ≤ cs.InterpolationTime ∧
    cs.InterpolationTime ≤ cs.selectedLog.finalTime := by
  have hpos : 0 < cs.logs.length := List.length_pos.mpr hne
  refine ⟨?_, ?_, ?_, ?_, ?_⟩
  · rw [ControlSliders.LogIndex]
    refine le_min hlog ?_
    omega
  · rw [ControlSliders.LogIndex]
    exact lt_of_le_of_lt (min_le_right _ _) (by omega)
  · rw [ControlSliders.SolverIterate]
    exact min_le_right _ _
  · rw [ControlSliders.InterpolationTime]
    exact le_max_right _ _
  · rw [ControlSliders.InterpolationTime]
    exact max_le (min_le_right _ _) hif

/-- **C10 (counterexample).** With a raw `log_index_` of `-1` over a single
log, `LogIndex()` is `-1`: not a valid index, so the accessor does *not*
always clamp into range. -/
theorem C10_counterexample : c10bad.LogIndex < 0 := by decide

unseal Rat.add Rat.mul Rat.sub Rat.inv in
/-- Witness: the amended C10 at concrete in-range sliders. -/
theorem C10_witness :
    0 ≤ c10cs.LogIndex ∧ c10cs.LogIndex < (c10cs.logs.length : ℤ) ∧
    c10cs.SolverIterate ≤ (c10cs.selectedLog.numIterates : ℤ) - 1 ∧
    c10cs.selectedLog.initialTime ≤ c10cs.InterpolationTime ∧
    c10cs.InterpolationTime ≤ c10cs.selectedLog.finalTime :=
  C10_slider_clamps c10cs (by decide) (by decide) (by decide)


/-!
### The certified interval evaluation, in ten-step chunks

Each lemma advances the interval orbit by (at most) ten certified steps from
one stored checkpoint to the next, by kernel evaluation.
-/

set_option maxRecDepth 1000000 in
unseal Rat.add Rat.mul Rat.sub Rat.inv in
/-- Interval advance to backward step `10`. -/
theorem pmChunk10 : pmF2O^[10] (some pmInitIv) = some pmC10 := by decide

set_option maxRecDepth 1000000 in
unseal Rat.add Rat.mul Rat.sub Rat.inv in
/-- Interval advance to backward step `20`. -/
theorem pmChunk20 : pmF2O^[10] (some pmC10) = some pmC20 := by decide

set_option maxRecDepth 1000000 in
unseal Rat.add Rat.mul Rat.sub Rat.inv in
/-- Interval advance to backward step `30`. -/
theorem pmChunk30 : pmF2O^[10] (some pmC20) = some pmC30 := by decide

set_option maxRecDepth 1000000 in
unseal Rat.add Rat.mul Rat.sub Rat.inv in
/-- Interval advance to backward step `40`. -/
theorem pmChunk40 : pmF2O^[10] (some pmC30) = some pmC40 := by decide

set_option maxRecDepth 1000000 in
unseal Rat.add Rat.mul Rat.sub Rat.inv in
/-- Interval advance to backward step `50`. -/
theorem pmChunk50 : pmF2O^[10] (some pmC40) = some pmC50 := by decide

set_option maxRecDepth 1000000 in
unseal Rat.add Rat.mul Rat.sub Rat.inv in
/-- Interval advance to backward step `60`. -/
theorem pmChunk60 : pmF2O^[10] (some pmC50) = some pmC60 := by decide

set_option maxRecDepth 1000000 in
unseal Rat.add Rat.mul Rat.sub Rat.inv in
/-- Interval advance to backward step `70`. -/
theorem pmChunk70 : pmF2O^[10] (some pmC60) = some pmC70 := by decide

set_option maxRecDepth 1000000 in
unseal Rat.add Rat.mul Rat.sub Rat.inv in
/-- Interval advance to backward step `80`. -/
theorem pmChunk80 : pmF2O^[10] (some pmC70) = some pmC80 := by decide

set_option maxRecDepth 1000000 in
unseal Rat.add Rat.mul Rat.sub Rat.inv in
/-- Interval advance to backward step `90`. -/
theorem pmChunk90 : pmF2O^[10] (some pmC80) = some pmC90 := by decide

set_option maxRecDepth 1000000 in
unseal Rat.add Rat.mul Rat.sub Rat.inv in
/-- Interval advance to backward step `98`. -/
theorem pmChunk98 : pmF2O^[8] (some pmC90) = some pmC98 := by decide

set_option maxRecDepth 1000000 in
unseal Rat.add Rat.mul Rat.sub Rat.inv in
/-- The certified Lyapunov initialization. -/
theorem lyChunk0 : lyInitIv = some lyC0 := by decide

set_option maxRecDepth 1000000 in
unseal Rat.add Rat.mul Rat.sub Rat.inv in
/-- Interval advance to Lyapunov iteration `10`. -/
theorem lyChunk10 : lyF2O^[10] (some lyC0) = some lyC10 := by decide

set_option maxRecDepth 1000000 in
unseal Rat.add Rat.mul Rat.sub Rat.inv in
/-- Interval advance to Lyapunov iteration `20`. -/
theorem lyChunk20 : lyF2O^[10] (some lyC10) = some lyC20 := by decide

set_option maxRecDepth 1000000 in
unseal Rat.add Rat.mul Rat.sub Rat.inv in
/-- Interval advance to Lyapunov iteration `30`. -/
theorem lyChunk30 : lyF2O^[10] (some lyC20) = some lyC30 := by decide

set_option maxRecDepth 1000000 in
unseal Rat.add Rat.mul Rat.sub Rat.inv in
/-- Interval advance to Lyapunov iteration `40`. -/
theorem lyChunk40 : lyF2O^[10] (some lyC30) = some lyC40 := by decide

set_option maxRecDepth 1000000 in
unseal Rat.add Rat.mul Rat.sub Rat.inv in
/-- Interval advance to Lyapunov iteration `50`. -/
theorem lyChunk50 : lyF2O^[10] (some lyC40) = some lyC50 := by decide

set_option maxRecDepth 1000000 in
unseal Rat.add Rat.mul Rat.sub Rat.inv in
/-- Interval advance to Lyapunov iteration `60`. -/
theorem lyChunk60 : lyF2O^[10] (some lyC50) = some lyC60 := by decide

set_option maxRecDepth 1000000 in
unseal Rat.add Rat.mul Rat.sub Rat.inv in
/-- Interval advance to Lyapunov iteration `70`. -/
theorem lyChunk70 : lyF2O^[10] (some lyC60) = some lyC70 := by decide

set_option maxRecDepth 1000000 in
unseal Rat.add Rat.mul Rat.sub Rat.inv in
/-- Interval advance to Lyapunov iteration `80`. -/
theorem lyChunk80 : lyF2O^[10] (some lyC70) = some lyC80 := by decide

set_option maxRecDepth 1000000 in
unseal Rat.add Rat.mul Rat.sub Rat.inv in
/-- Interval advance to Lyapunov iteration `90`. -/
theorem lyChunk90 : lyF2O^[10] (some lyC80) = some lyC90 := by decide

set_option maxRecDepth 1000000 in
unseal Rat.add Rat.mul Rat.sub Rat.inv in
/-- Interval advance to Lyapunov iteration `100`. -/
theorem lyChunk100 : lyF2O^[10] (some lyC90) = some lyC100 := by decide

set_option maxRecDepth 1000000 in
unseal Rat.add Rat.mul Rat.sub Rat.inv in
/-- The certified gain extraction at the final backward step. -/
theorem pmGains98 : pmGainsIvOf pmC98 = some pmCG := by decide

/-- The chained enclosure of the full backward-pass orbit. -/
theorem pmOrbit98 : pmF2O^[98] (some pmInitIv) = some pmC98 := by
  have h10 := pmChunk10
  have h20 : pmF2O^[20] (some pmInitIv) = some pmC20 := by
    rw [show (20 : ℕ) = 10 + 10 from rfl, Function.iterate_add_apply, h10]
    exact pmChunk20
  have h30 : pmF2O^[30] (some pmInitIv) = some pmC30 := by
    rw [show (30 : ℕ) = 10 + 20 from rfl, Function.iterate_add_apply, h20]
    exact pmChunk30
  have h40 : pmF2O^[40] (some pmInitIv) = some pmC40 := by
    rw [show (40 : ℕ) = 10 + 30 from rfl, Function.iterate_add_apply, h30]
    exact pmChunk40
  have h50 : pmF2O^[50] (some pmInitIv) = some pmC50 := by
    rw [show (50 : ℕ) = 10 + 40 from rfl, Function.iterate_add_apply, h40]
    exact pmChunk50
  have h60 : pmF2O^[60] (some pmInitIv) = some pmC60 := by
    rw [show (60 : ℕ) = 10 + 50 from rfl, Function.iterate_add_apply, h50]
    exact pmChunk60
  have h70 : pmF2O^[70] (some pmInitIv) = some pmC70 := by
    rw [show (70 : ℕ) = 10 + 60 from rfl, Function.iterate_add_apply, h60]
    exact pmChunk70
  have h80 : pmF2O^[80] (some pmInitIv) = some pmC80 := by
    rw [show (80 : ℕ) = 10 + 70 from rfl, Function.iterate_add_apply, h70]
    exact pmChunk80
  have h90 : pmF2O^[90] (some pmInitIv) = some pmC90 := by
    rw [show (90 : ℕ) = 10 + 80 from rfl, Function.iterate_add_apply, h80]
    exact pmChunk90
  rw [show (98 : ℕ) = 8 + 90 from rfl, Function.iterate_add_apply, h90]
  exact pmChunk98

/-- The chained enclosure of the full Lyapunov orbit. -/
theorem lyOrbit100 : lyF2O^[100] lyInitIv = some lyC100 := by
  have h10 : lyF2O^[10] lyInitIv = some lyC10 := by
    rw [lyChunk0]
    exact lyChunk10
  have h20 : lyF2O^[20] lyInitIv = some lyC20 := by
    rw [show (20 : ℕ) = 10 + 10 from rfl, Function.iterate_add_apply, h10]
    exact lyChunk20
  have h30 : lyF2O^[30] lyInitIv = some lyC30 := by
    rw [show (30 : ℕ) = 10 + 20 from rfl, Function.iterate_add_apply, h20]
    exact lyChunk30
  have h40 : lyF2O^[40] lyInitIv = some lyC40 := by
    rw [show (40 : ℕ) = 10 + 30 from rfl, Function.iterate_add_apply, h30]
    exact lyChunk40
  have h50 : lyF2O^[50] lyInitIv = some lyC50 := by
    rw [show (50 : ℕ) = 10 + 40 from rfl, Function.iterate_add_apply, h40]
    exact lyChunk50
  have h60 : lyF2O^[60] lyInitIv = some lyC60 := by
    rw [show (60 : ℕ) = 10 + 50 from rfl, Function.iterate_add_apply, h50]
    exact lyChunk60
  have h70 : lyF2O^[70] lyInitIv = some lyC70 := by
    rw [show (70 : ℕ) = 10 + 60 from rfl, Function.iterate_add_apply, h60]
    exact lyChunk70
  have h80 : lyF2O^[80] lyInitIv = some lyC80 := by
    rw [show (80 : ℕ) = 10 + 70 from rfl, Function.iterate_add_apply, h70]
    exact lyChunk80
  have h90 : lyF2O^[90] lyInitIv = some lyC90 := by
    rw [show (90 : ℕ) = 10 + 80 from rfl, Function.iterate_add_apply, h80]
    exact lyChunk90
  rw [show (100 : ℕ) = 10 + 90 from rfl, Function.iterate_add_apply, h90]
  exact lyChunk100

/-- **C8.** For the time-invariant two-player point-mass LQ game
(`A = [[1, 0.1], [0, 1]]`, `B₁ = 0.1·[0.05, 1]`, `B₂ = 0.1·[0.032, 0.11]` in
discrete time, `Q₁ = I`, `Q₂ = 2I`, `R₁₁ = R₂₂ = 1`, `R₁₂ = 0.5`,
`R₂₁ = 0.25`, horizon `100`), the LQ feedback solver's first-step gains
`P₁,₀` and `P₂,₀` agree entrywise to within `10⁻⁴` with the fixed point
computed by `kNumIterations = 100` Lyapunov iterations on the coupled
Riccati equations. -/
theorem C8_first_step_gains_match_lyapunov :
    |pmFirstGains.p10 - lyFinal.p10| ≤ 1 / 10000 ∧
    |pmFirstGains.p11 - lyFinal.p11| ≤ 1 / 10000 ∧
    |pmFirstGains.p20 - lyFinal.p20| ≤ 1 / 10000 ∧
    |pmFirstGains.p21 - lyFinal.p21| ≤ 1 / 10000 := by
  have hpm := pmOrbit_sound 98 pmOrbit98
  have hg : PmGainsIv.memG pmFirstGains pmCG := by
    rw [pmFirstGains]
    exact pmGainsIvOf_sound hpm pmGains98
  have hly : LyIv.memL lyFinal lyC100 := by
    rw [lyFinal]
    exact lyOrbit_sound 100 lyOrbit100
  obtain ⟨hg10, hg11, hg20, hg21, hga1, hga2⟩ := hg
  obtain ⟨hz1, hz2, hz3, hz4, hz5, hz6, hz7, hz8, hl10, hl11, hl20, hl21⟩ := hly
  exact ⟨Iv.abs_sub_le hg10 hl10 (by decide) (by decide),
    Iv.abs_sub_le hg11 hl11 (by decide) (by decide),
    Iv.abs_sub_le hg20 hl20 (by decide) (by decide),
    Iv.abs_sub_le hg21 hl21 (by decide) (by decide)⟩

end ILQGames
